import Mathlib

/-!
Verification of the type-builder slot/graph serialization engine.

The TypeScript sources are shallowly embedded: JavaScript strings are
`List Char` (the codec only manipulates ASCII prefixes and separators, so
UTF-16 code-unit indices coincide with character indices), JavaScript
numbers appearing as canvas coordinates are `Rat` (with `Math.round`
modelled as `⌊q + 1/2⌋`), counters and slot indices are `Nat`, nullable
fields are `Option`, and JavaScript `Map`s are association lists with
last-write-wins lookup.  `JSON.stringify`/`JSON.parse` pairs are not
modelled: the encoder is embedded as producing the object that the source
passes to `JSON.stringify`, and the decoder as consuming the object that
`JSON.parse` returns.
-/

namespace TypeBuilder

/-- JavaScript strings, modelled as character lists. -/
abbrev Str := List Char

/-! ### Generic string helpers (JS `trim`, `toUpperCase`, `split`, `join`) -/

/-- Whitespace recognised by JS `String.prototype.trim` (ASCII part):
space, tab, newline, carriage return. -/
def isJsSpace (c : Char) : Bool :=
  c.toNat = 32 || c.toNat = 9 || c.toNat = 10 || c.toNat = 13

/-- JS `s.trim()`. -/
def trimStr (s : Str) : Str :=
  ((s.dropWhile isJsSpace).reverse.dropWhile isJsSpace).reverse

/-- JS `s.toUpperCase()` (ASCII). -/
def upperStr (s : Str) : Str := s.map Char.toUpper

/-- JS `s.split(sep)` for a one-character separator: always returns at
least one (possibly empty) segment. -/
def splitCh (sep : Char) : Str → List Str
  | [] => [[]]
  | c :: cs =>
    if c = sep then [] :: splitCh sep cs
    else
      match splitCh sep cs with
      | [] => [[c]]
      | p :: ps => (c :: p) :: ps

/-- JS `parts.join(sep)` for a one-character separator. -/
def joinCh (sep : Char) : List Str → Str
  | [] => []
  | [p] => p
  | p :: ps => p ++ sep :: joinCh sep ps

/-! ### Decimal digits -/

/-- Decimal rendering of a natural number (JS `String(n)` on naturals). -/
def natDigits (n : Nat) : Str :=
  if h : n < 10 then [Nat.digitChar n]
  else natDigits (n / 10) ++ [Nat.digitChar (n % 10)]
  decreasing_by exact Nat.div_lt_self (by omega) (by omega)

/-- Reading decimal digits back (JS `parseInt` on an all-digit string,
folded left). -/
def digitsToNat (s : Str) : Nat :=
  s.foldl (fun a c => a * 10 + (c.toNat - 48)) 0

/-! ### JS `Map` as an association list (last write wins) -/

/-- Lookup in a JS `Map` built by repeated `set` calls, modelled as the
value of the last entry whose key matches. -/
def mapGet {α : Type} (entries : List (Str × α)) (k : Str) : Option α :=
  ((entries.filter (fun p => p.1 = k)).getLast?).map (·.2)

/-! ### Stable sort (JS `Array.prototype.sort` with a comparator)

`gt y x` models `cmp(y, x) > 0`.  An element is inserted after every
element that does not compare strictly greater, which matches the stable
behaviour of the JS engine's merge sort for a consistent comparator. -/

def insertStable {α : Type} (gt : α → α → Bool) (x : α) : List α → List α
  | [] => [x]
  | y :: ys => if gt y x then x :: y :: ys else y :: insertStable gt x ys

def stableSortBy {α : Type} (gt : α → α → Bool) (l : List α) : List α :=
  l.foldl (fun acc x => insertStable gt x acc) []

/-! ### JS `String.prototype.lastIndexOf` -/

/-- Index of the last occurrence of `pat` inside `s` (as a full substring
match), or `none` (JS `-1`). -/
def lastIndexOf? (pat : Str) : Str → Option Nat
  | [] => if pat.isPrefixOf [] then some 0 else none
  | c :: rest =>
    match lastIndexOf? pat rest with
    | some i => some (i + 1)
    | none => if pat.isPrefixOf (c :: rest) then some 0 else none

/-! ### The end-anchored time-suffix regex used by the hook and reminder
grammars (dash, one or two digits, colon, one or two digits, end of
string).

`tryTimeMatch` decides whether an entire string matches the pattern (the
regex is end-anchored, so a match starting at a given position must
consume the whole remaining string); the group split follows the greedy,
backtracking JS semantics.  `findTimeMatch` scans for the leftmost
matching start position, as JS regex matching does. -/

def tryTimeMatch : Str → Option (Str × Str)
  | [h1, a, b, k, c, d] =>
    if h1 = '-' && a.isDigit && b.isDigit && k = ':' && c.isDigit && d.isDigit
    then some ([a, b], [c, d]) else none
  | [h1, a, x, y, z] =>
    if h1 = '-' && a.isDigit && x.isDigit && y = ':' && z.isDigit
    then some ([a, x], [z])
    else if h1 = '-' && a.isDigit && x = ':' && y.isDigit && z.isDigit
    then some ([a], [y, z]) else none
  | [h1, a, k, c] =>
    if h1 = '-' && a.isDigit && k = ':' && c.isDigit then some ([a], [c]) else none
  | _ => none

def findTimeMatch : Str → Option (Str × Str)
  | [] => none
  | c :: rest =>
    match tryTimeMatch (c :: rest) with
    | some g => some g
    | none => findTimeMatch rest

/-! ## Data model (src/types/workflow.ts) -/

/-- The closed set of step kinds (`NodeType` in the source). -/
inductive NodeType
  | start
  | message
  | messageUtm
  | messageTime
  | photo
  | photoCaption
  | photoCaptionTime
  | video
  | videoCaption
  | videoCaptionTime
  | audio
  | time
  | leadRespond
  | hook
  | deleteHook
  | linkPix
  | deliverable
  | reminder
  | note
  deriving DecidableEq, Repr

/-- `'add' | 'delete'` action fields. -/
inductive FlowAction
  | add
  | delete
  deriving DecidableEq, Repr

/-- One `message-time` rule (the session-local `id` field is omitted: it is
a freshly generated UUID, not payload data). -/
structure TimeMessageRule where
  startTime : Str
  endTime : Str
  content : Str
  deriving DecidableEq, Repr

/-- One `photo/video-caption-time` rule (session-local `id` omitted). -/
structure TimeMediaRule where
  startTime : Str
  endTime : Str
  mediaUrl : Str
  caption : Option Str
  deriving DecidableEq, Repr

/-- Free-form note payload (`NoteData`). -/
structure NoteData where
  title : Option Str := none
  html : Option Str := none
  textPreview : Option Str := none
  fontSize : Option Nat := none
  textColor : Option Str := none
  bgColor : Option Str := none
  deriving DecidableEq, Repr

/-- Variant-specific step payload fields (`NodeData`). -/
structure NodeData where
  label : Str := []
  supabaseColumn : Option Str := none
  content : Option Str := none
  utm : Option Str := none
  caption : Option Str := none
  mediaUrl : Option Str := none
  timeMin : Option Nat := none
  timeMax : Option Nat := none
  hookFlowId : Option Str := none
  hookHours : Option Nat := none
  hookMinutes : Option Nat := none
  timeMessageRules : Option (List TimeMessageRule) := none
  timeMediaRules : Option (List TimeMediaRule) := none
  deliverableAction : Option FlowAction := none
  deliverableFlowId : Option Str := none
  reminderAction : Option FlowAction := none
  reminderFlowId : Option Str := none
  reminderHours : Option Nat := none
  reminderMinutes : Option Nat := none
  hookAction : Option FlowAction := none
  note : Option NoteData := none
  deriving DecidableEq, Repr

/-- A step (`BubbleData`). -/
structure BubbleData where
  id : Str
  type : NodeType
  data : NodeData
  deriving DecidableEq, Repr

/-- Canvas node kinds (`'group' | 'start' | 'note'`). -/
inductive FlowNodeType
  | group
  | start
  | note
  deriving DecidableEq, Repr

/-- Canvas coordinates; JS numbers modelled as rationals. -/
structure Pos where
  x : Rat
  y : Rat
  deriving DecidableEq, Repr

/-- Payload carried by a canvas node. -/
structure FlowNodeData where
  label : Str := []
  bubbles : Option (List BubbleData) := none
  note : Option NoteData := none
  deriving DecidableEq, Repr

/-- A canvas node (`FlowNode`). -/
structure FlowNode where
  id : Str
  type : FlowNodeType
  position : Pos
  width : Option Rat := none
  height : Option Rat := none
  data : FlowNodeData
  deriving DecidableEq, Repr

/-- An edge (`FlowEdge`). -/
structure FlowEdge where
  id : Str
  source : Str
  target : Str
  deriving DecidableEq, Repr

/-- The fixed id of the start node. -/
def startNodeId : Str := ['s', 't', 'a', 'r', 't', '-', 'n', 'o', 'd', 'e']

/-! ## Slot mapping (src/lib/supabaseColumnMapping.ts, part_008) -/

/-- `"M" | "T"`. -/
inductive ColumnKind
  | M
  | T
  deriving DecidableEq, Repr

def COLUMN_LIMIT : Nat := 50

def isTimeBubble (t : NodeType) : Bool := t = NodeType.time

def isVisualOnlyBubble (t : NodeType) : Bool := t = NodeType.note

def getColumnKindForBubble (t : NodeType) : ColumnKind :=
  if isTimeBubble t then .T else .M

def kindChar : ColumnKind → Char
  | .M => 'M'
  | .T => 'T'

/-- `buildColumn`: the string `${kind}${index}`. -/
def buildColumn (k : ColumnKind) (i : Nat) : Str := kindChar k :: natDigits i

/-- `parseColumn`: trims, uppercases, matches one kind letter followed by
one or two digits, and range-checks the index against `[1, 50]`. -/
def parseColumn (col : Str) : Option (ColumnKind × Nat) :=
  match upperStr (trimStr col) with
  | [] => none
  | c :: ds =>
    if c = 'M' ∨ c = 'T' then
      if ds ≠ [] ∧ ds.length ≤ 2 ∧ ds.all Char.isDigit then
        let i := digitsToNat ds
        if 1 ≤ i ∧ i ≤ COLUMN_LIMIT then
          some (if c = 'M' then ColumnKind.M else ColumnKind.T, i)
        else none
      else none
    else none

/-- `getAllBubblesFromFlowNodes`: every bubble of every group node, in
node order. -/
def getAllBubblesFromFlowNodes (nodes : List FlowNode) : List BubbleData :=
  nodes.flatMap fun n => if n.type = .group then n.data.bubbles.getD [] else []

/-- `reorganizeColumnsAfterDeletion`: decrement every same-kind slot index
strictly greater than the deleted slot's index (empty result models the
source's `null`). -/
def reorganizeColumnsAfterDeletion (nodes : List FlowNode) (deletedColumn : Str) :
    List (Str × Str) :=
  match parseColumn deletedColumn with
  | none => []
  | some (dk, di) =>
    (getAllBubblesFromFlowNodes nodes).flatMap fun b =>
      match b.data.supabaseColumn with
      | none => []
      | some cur =>
        match parseColumn cur with
        | none => []
        | some (k, i) =>
          if k = dk ∧ i > di then [(b.id, buildColumn dk (i - 1))] else []

/-- Non-note bubbles of one node (the per-group collection step of
`normalizeColumnsWithGroupOrder`). -/
def collectFromNode (n : FlowNode) : List BubbleData :=
  (n.data.bubbles.getD []).filter fun b => ¬ isVisualOnlyBubble b.type

/-- First entry with the given key (JS `Map.get` for maps whose keys were
inserted once). -/
def entryGet (m : List (Str × FlowNode)) (k : Str) : Option FlowNode :=
  (m.find? fun p => p.1 = k).map (·.2)

/-- The `for (const groupId of groupOrder)` loop: visit each listed group,
collect its non-note bubbles, and delete it from the node map; non-group
or missing ids are skipped without deletion. -/
def processGroupOrder :
    List Str → List (Str × FlowNode) → List BubbleData × List (Str × FlowNode)
  | [], m => ([], m)
  | gid :: rest, m =>
    match entryGet m gid with
    | none => processGroupOrder rest m
    | some n =>
      if n.type = .group then
        let r := processGroupOrder rest (m.filter fun p => p.1 ≠ gid)
        (collectFromNode n ++ r.1, r.2)
      else processGroupOrder rest m

/-- The trailing `for (const [, node] of nodeMap)` loop over unprocessed
entries, in insertion order. -/
def collectRemaining (m : List (Str × FlowNode)) : List BubbleData :=
  m.flatMap fun p => if p.2.type = .group then collectFromNode p.2 else []

/-- All non-note bubbles of the flow in normalization order: listed groups
first (in `groupOrder` order), then any remaining groups in node order. -/
def collectBubblesInOrder (nodes : List FlowNode) (groupOrder : List Str) :
    List BubbleData :=
  let r := processGroupOrder groupOrder (nodes.map fun n => (n.id, n))
  r.1 ++ collectRemaining r.2

/-- The source's per-bubble check value: trim and uppercase the stored
column, parse it, and rebuild the canonical column string. -/
def currentNormalizedCol (b : BubbleData) : Option Str :=
  ((b.data.supabaseColumn.map fun c => upperStr (trimStr c)).bind parseColumn).map
    fun p => buildColumn p.1 p.2

/-- The two-counter assignment walk of `normalizeColumnsWithGroupOrder`:
`M` and `T` counters advance independently and a bubble is recorded in the
update map exactly when its current normalized column differs from the
fresh one. -/
def normLoop : List BubbleData → Nat → Nat → List (Str × Str)
  | [], _, _ => []
  | b :: bs, mC, tC =>
    let kind := getColumnKindForBubble b.type
    let mC' := if kind = ColumnKind.M then mC + 1 else mC
    let tC' := if kind = ColumnKind.T then tC + 1 else tC
    let nextColumn := buildColumn kind (if kind = ColumnKind.M then mC' else tC')
    (if currentNormalizedCol b = some nextColumn then [] else [(b.id, nextColumn)]) ++
      normLoop bs mC' tC'

/-- `normalizeColumnsWithGroupOrder` (empty result models the source's
`null`). -/
def normalizeColumnsWithGroupOrder (nodes : List FlowNode) (groupOrder : List Str) :
    List (Str × Str) :=
  normLoop (collectBubblesInOrder nodes groupOrder) 0 0

/-! ## Graph order resolver (src/hooks/useGroupOrder.ts) -/

/-- One entry of the computed order (`GroupOrderInfo`). -/
structure GroupOrderInfo where
  groupId : Str
  orderTag : Str
  orderIndex : Nat
  deriving DecidableEq, Repr

/-- Position lookup with the `|| { x: 0, y: 0 }` fallback. -/
def posGet (positions : List (Str × Pos)) (id : Str) : Pos :=
  (mapGet positions id).getD ⟨0, 0⟩

/-- `cmp(a, b) > 0` for the position comparator (x primary, y secondary). -/
def posGt (positions : List (Str × Pos)) (a b : Str) : Bool :=
  let pa := posGet positions a
  let pb := posGet positions b
  if pa.x ≠ pb.x then pa.x > pb.x else pa.y > pb.y

/-- `sortByPosition` / `sortByCanvasPosition` (the same comparator is used
in both), under JS's stable sort. -/
def sortByCanvasPosition (ids : List Str) (positions : List (Str × Pos)) : List Str :=
  stableSortBy (posGt positions) ids

/-- Targets of a source in the adjacency map built from the edge list
(accumulated in edge order). -/
def adjGet (edges : List FlowEdge) (src : Str) : List Str :=
  (edges.filter fun e => e.source = src).map (·.target)

/-- Enqueue the (position-sorted) targets that are groups and unvisited,
marking them visited. -/
def enqueueTargets (groupIds : List Str) (targets : List Str)
    (qv : List Str × List Str) : List Str × List Str :=
  targets.foldl
    (fun qv t =>
      if groupIds.contains t ∧ ¬ qv.2.contains t then (qv.1 ++ [t], qv.2 ++ [t])
      else qv)
    qv

/-- The BFS `while (queue.length > 0)` loop.  Each iteration removes one
queue entry, and entries are enqueued at most once (they are marked
visited on enqueue), so any fuel of at least `|initial queue| + |groupIds|`
is enough for the loop to run to completion. -/
def bfsLoop (edges : List FlowEdge) (positions : List (Str × Pos))
    (groupIds : List Str) :
    Nat → List Str → List Str → List Str → List Str × List Str
  | 0, _, visited, result => (result, visited)
  | _ + 1, [], visited, result => (result, visited)
  | fuel + 1, cur :: queue, visited, result =>
    let targets := sortByCanvasPosition (adjGet edges cur) positions
    let qv := enqueueTargets groupIds targets (queue, visited)
    bfsLoop edges positions groupIds fuel qv.1 qv.2 (result ++ [cur])

/-- `topologicalSortFromStart`: breadth-first traversal from the start
node with position-sorted branching, followed by remaining (unvisited)
groups sorted by position. -/
def topologicalSortFromStart (startId : Str) (groupIds : List Str)
    (edges : List FlowEdge) (positions : List (Str × Pos)) : List Str :=
  let fromStart := adjGet edges startId
  let qv0 := enqueueTargets groupIds (sortByCanvasPosition fromStart positions) ([], [])
  let r := bfsLoop edges positions groupIds (groupIds.length + qv0.1.length) qv0.1 qv0.2 []
  r.1 ++ sortByCanvasPosition (groupIds.filter fun id => ¬ r.2.contains id) positions

/-- The edge-or-position dispatch of `calculateGroupOrder`, over the group
id list, the group position map and the edge list. -/
def calculateGroupOrderIds (groupIds : List Str) (nodePositions : List (Str × Pos))
    (edges : List FlowEdge) : List Str :=
  let groupEdges := edges.filter fun e =>
    groupIds.contains e.source ∧ groupIds.contains e.target
  let startEdges := edges.filter fun e =>
    e.source = startNodeId ∧ groupIds.contains e.target
  if groupEdges.length > 0 ∨ startEdges.length > 0 then
    topologicalSortFromStart startNodeId groupIds edges nodePositions
  else sortByCanvasPosition groupIds nodePositions

/-- `calculateGroupOrder`. -/
def calculateGroupOrder (nodes : List FlowNode) (edges : List FlowEdge) :
    List GroupOrderInfo :=
  let groupNodes := nodes.filter fun n => n.type = .group
  if groupNodes.isEmpty then []
  else
    (calculateGroupOrderIds (groupNodes.map (·.id))
        (groupNodes.map fun n => (n.id, n.position)) edges).enum.map
      fun p => ⟨p.2, 'G' :: natDigits (p.1 + 1), p.1⟩

/-! ## Store helpers (src/store/workflowStore.ts, part_001) -/

/-- The per-bubble update step of the update-application loops: a bubble
whose id is in the update map receives the new column. -/
def updFun (updates : List (Str × Str)) (b : BubbleData) : BubbleData :=
  match mapGet updates b.id with
  | some c => { b with data := { b.data with supabaseColumn := some c } }
  | none => b

/-- Application of a column-update map to the flow's nodes (the shared
shape of the update loops in `applyNormalizationToNodes` and
`deleteBubble`): every group node's bubbles are rewritten, a bubble whose
id is in the map receiving the new column. -/
def applyColumnUpdates (nodes : List FlowNode) (updates : List (Str × Str)) :
    List FlowNode :=
  nodes.map fun n =>
    if n.type = .group then
      { n with
        data := { n.data with
          bubbles := some ((n.data.bubbles.getD []).map (updFun updates)) } }
    else n

/-- `applyNormalizationToNodes`: canonical group order, group-order-aware
normalization, then update application (nodes returned untouched when the
update map is empty). -/
def applyNormalizationToNodes (nodes : List FlowNode) (edges : List FlowEdge) :
    List FlowNode :=
  let orderInfo := calculateGroupOrder nodes edges
  let groupOrder := orderInfo.map (·.groupId)
  let updates := normalizeColumnsWithGroupOrder nodes groupOrder
  if updates.isEmpty then nodes else applyColumnUpdates nodes updates

/-- The node rewrite performed by `deleteBubble`: remove the bubble with
the given id from the addressed group node. -/
def deleteBubbleFromNodes (nodes : List FlowNode) (nodeId bubbleId : Str) :
    List FlowNode :=
  nodes.map fun n =>
    if n.id = nodeId ∧ n.type = .group then
      { n with
        data := { n.data with
          bubbles := some ((n.data.bubbles.getD []).filter fun b => b.id ≠ bubbleId) } }
    else n

/-- The post-deletion column pipeline of `deleteBubble`: localized shift,
skipped entirely when it yields no updates. -/
def deleteBubbleShift (nodes : List FlowNode) (deletedColumn : Str) : List FlowNode :=
  let updates := reorganizeColumnsAfterDeletion nodes deletedColumn
  if updates.isEmpty then nodes else applyColumnUpdates nodes updates

/-! ## Manual slot assignment (part_002 `handleChangeBubbleColumn`) -/

/-- Outcome of a manual slot request. -/
inductive ChangeColumnResult
  | invalidColumn
  | duplicate (normalized : Str)
  | notFound
  | applied (nodeId bubbleId : Str) (newData : NodeData)
  deriving DecidableEq, Repr

/-- `handleChangeBubbleColumn`: parse the requested column, reject on
parse failure, reject when the normalized column is already used by a
different bubble of the flow, silently do nothing when the addressed
bubble does not exist, and otherwise apply the normalized column. -/
def handleChangeBubbleColumn (allBubblesInFlow : List BubbleData)
    (nodes : List FlowNode) (nodeId bubbleId column : Str) : ChangeColumnResult :=
  match parseColumn column with
  | none => .invalidColumn
  | some (k, i) =>
    let normalized := buildColumn k i
    let dup := allBubblesInFlow.any fun b =>
      if b.id = bubbleId then false
      else
        match b.data.supabaseColumn with
        | none => false
        | some col =>
          match parseColumn col with
          | none => false
          | some p => buildColumn p.1 p.2 = normalized
    if dup then .duplicate normalized
    else
      let bubble : Option BubbleData :=
        match nodes.find? fun n => n.id = nodeId with
        | some n =>
          if n.type = .group then (n.data.bubbles.getD []).find? fun b => b.id = bubbleId
          else none
        | none => none
      match bubble with
      | none => .notFound
      | some b => .applied nodeId bubbleId { b.data with supabaseColumn := some normalized }

/-- The bubble lookup of `handleChangeBubbleColumn`, as a named
function. -/
def findTargetBubble (nodes : List FlowNode) (nodeId bubbleId : Str) :
    Option BubbleData :=
  match nodes.find? fun n => n.id = nodeId with
  | some n =>
    if n.type = FlowNodeType.group
    then (n.data.bubbles.getD []).find? fun b => b.id = bubbleId
    else none
  | none => none

/-- The duplicate test of `handleChangeBubbleColumn`, as a named
boolean. -/
def slotDupCheck (allB : List BubbleData) (bubbleId normalized : Str) : Bool :=
  allB.any fun b =>
    if b.id = bubbleId then false
    else
      match b.data.supabaseColumn with
      | none => false
      | some col =>
        match parseColumn col with
        | none => false
        | some p => buildColumn p.1 p.2 = normalized

/-! ## Cell decoding (src/components/FetchFlowsModal.tsx `parseColumnValue`) -/

/-- `NODE_LABELS` (src/types/operation.ts). -/
def NODE_LABELS : NodeType → Str
  | .start => "Início".toList
  | .message => "Mensagem".toList
  | .messageUtm => "Mensagem + UTM".toList
  | .messageTime => "Mensagem + Tempo".toList
  | .photo => "Foto".toList
  | .photoCaption => "Foto + Caption".toList
  | .photoCaptionTime => "Foto + Caption Tempo".toList
  | .video => "Vídeo".toList
  | .videoCaption => "Vídeo + Caption".toList
  | .videoCaptionTime => "Vídeo + Caption Tempo".toList
  | .audio => "Áudio".toList
  | .time => "Tempo".toList
  | .leadRespond => "Lead Responde".toList
  | .hook => "Gancho".toList
  | .deleteHook => "Apagar Gancho".toList
  | .linkPix => "Link / Pix".toList
  | .deliverable => "Entregável".toList
  | .reminder => "Relembrar".toList
  | .note => "Bloco de Notas".toList

/-- JS `a || b` on strings. -/
def jsOr (a b : Str) : Str := if a = [] then b else a

/-- JS `Number(s)` restricted to the whitespace/decimal-digit fragment the
codec produces: empty (after trim) is `0`, all-digit strings parse, and
anything else is `NaN` (`none`). -/
def jsToNumber (s : Str) : Option Nat :=
  let t := trimStr s
  if t = [] then some 0
  else if t.all Char.isDigit then some (digitsToNat t) else none

/-- JS `String.prototype.indexOf` (full substring match, `none` for
`-1`). -/
def firstIndexOf? (pat : Str) : Str → Option Nat
  | [] => if pat.isPrefixOf ([] : Str) then some 0 else none
  | c :: rest =>
    if pat.isPrefixOf (c :: rest) then some 0
    else match firstIndexOf? pat rest with
      | some i => some (i + 1)
      | none => none

/-- One `MSG-TEMPO-` rule: `start-end-content` with hyphen separators. -/
def parseTimeMessageRule (r : Str) : TimeMessageRule :=
  let parts := splitCh '-' r
  { startTime := jsOr (parts.getD 0 []) ("00:00".toList),
    endTime := jsOr (parts.getD 1 []) ("23:59".toList),
    content := joinCh '-' (parts.drop 2) }

/-- One pipe-format media rule: `HH:MM|HH:MM|URL|CAPTION`. -/
def parsePipeRule (r : Str) : TimeMediaRule :=
  let parts := splitCh '|' r
  { startTime := jsOr (parts.getD 0 []) ("00:00".toList),
    endTime := jsOr (parts.getD 1 []) ("23:59".toList),
    mediaUrl := parts.getD 2 [],
    caption := let c := parts.getD 3 []; if c = [] then none else some c }

/-- One legacy hyphen-format media rule: `start-end-url[-caption]`, the
URL recovered from the first `"http"` occurrence. -/
def parseLegacyRule (r : Str) : TimeMediaRule :=
  let parts := splitCh '-' r
  if parts.length ≥ 3 then
    let start := jsOr (parts.getD 0 []) ("00:00".toList)
    let endT := jsOr (parts.getD 1 []) ("23:59".toList)
    let fullStr := joinCh '-' (parts.drop 2)
    match firstIndexOf? ("http".toList) fullStr with
    | some idx =>
      let urlAndCaption := fullStr.drop idx
      match firstIndexOf? [' '] urlAndCaption with
      | some j =>
        { startTime := start, endTime := endT, mediaUrl := urlAndCaption.take j,
          caption :=
            let c := urlAndCaption.drop (j + 1)
            if c = [] then none else some c }
      | none =>
        { startTime := start, endTime := endT, mediaUrl := urlAndCaption, caption := none }
    | none =>
      { startTime := start, endTime := endT, mediaUrl := fullStr, caption := none }
  else
    { startTime := "00:00".toList, endTime := "23:59".toList, mediaUrl := r,
      caption := none }

/-- The prefix-dispatch chain of `parseColumnValue` on the trimmed cell
string (the source always returns a step here; the freshly generated
UUID id is modelled as the empty string). -/
def parseColumnValueCore (val columnName : Str) : BubbleData :=
  let col : Option Str := some (upperStr columnName)
  if ("MSG-UTM-".toList).isPrefixOf val then
    let content := val.drop 8
    let parts := splitCh ' ' content
    ⟨[], .messageUtm,
      { label := NODE_LABELS .messageUtm, supabaseColumn := col,
        content := some (jsOr (joinCh ' ' parts.dropLast) content),
        utm := some (if parts.length > 1 then (parts.getLast?).getD [] else []) }⟩
  else if ("MSG-TEMPO-".toList).isPrefixOf val then
    ⟨[], .messageTime,
      { label := NODE_LABELS .messageTime, supabaseColumn := col,
        timeMessageRules := some ((splitCh ';' (val.drop 10)).map parseTimeMessageRule) }⟩
  else if ("MSG-".toList).isPrefixOf val then
    ⟨[], .message,
      { label := NODE_LABELS .message, supabaseColumn := col,
        content := some (val.drop 4) }⟩
  else if ("FT-C-T;".toList).isPrefixOf val then
    ⟨[], .photoCaptionTime,
      { label := NODE_LABELS .photoCaptionTime, supabaseColumn := col,
        timeMediaRules := some
          (((splitCh ';' (val.drop 7)).filter fun r => r ≠ []).map parsePipeRule) }⟩
  else if ("FT-C-T-".toList).isPrefixOf val then
    ⟨[], .photoCaptionTime,
      { label := NODE_LABELS .photoCaptionTime, supabaseColumn := col,
        timeMediaRules := some
          (((splitCh ';' (val.drop 7)).filter fun r => r ≠ []).map parseLegacyRule) }⟩
  else if ("VD-C-T;".toList).isPrefixOf val then
    ⟨[], .videoCaptionTime,
      { label := NODE_LABELS .videoCaptionTime, supabaseColumn := col,
        timeMediaRules := some
          (((splitCh ';' (val.drop 7)).filter fun r => r ≠ []).map parsePipeRule) }⟩
  else if ("VD-C-T-".toList).isPrefixOf val then
    ⟨[], .videoCaptionTime,
      { label := NODE_LABELS .videoCaptionTime, supabaseColumn := col,
        timeMediaRules := some
          (((splitCh ';' (val.drop 7)).filter fun r => r ≠ []).map parseLegacyRule) }⟩
  else if ("FT-C-".toList).isPrefixOf val then
    let parts := splitCh ' ' (val.drop 5)
    ⟨[], .photoCaption,
      { label := NODE_LABELS .photoCaption, supabaseColumn := col,
        mediaUrl := some (parts.getD 0 []),
        caption := some (joinCh ' ' (parts.drop 1)) }⟩
  else if ("FT-".toList).isPrefixOf val then
    ⟨[], .photo,
      { label := NODE_LABELS .photo, supabaseColumn := col,
        mediaUrl := some (val.drop 3) }⟩
  else if ("VD-C-".toList).isPrefixOf val then
    let parts := splitCh ' ' (val.drop 5)
    ⟨[], .videoCaption,
      { label := NODE_LABELS .videoCaption, supabaseColumn := col,
        mediaUrl := some (parts.getD 0 []),
        caption := some (joinCh ' ' (parts.drop 1)) }⟩
  else if ("VD-".toList).isPrefixOf val then
    ⟨[], .video,
      { label := NODE_LABELS .video, supabaseColumn := col,
        mediaUrl := some (val.drop 3) }⟩
  else if ("AU-".toList).isPrefixOf val then
    ⟨[], .audio,
      { label := NODE_LABELS .audio, supabaseColumn := col,
        mediaUrl := some (val.drop 3) }⟩
  else if ("T-".toList).isPrefixOf val then
    let nums := (splitCh '-' (val.drop 2)).map jsToNumber
    ⟨[], .time,
      { label := NODE_LABELS .time, supabaseColumn := col,
        timeMin := some ((nums.getD 0 none).getD 5),
        timeMax := some ((nums.getD 1 none).getD 10) }⟩
  else if val = "LD".toList then
    ⟨[], .leadRespond, { label := NODE_LABELS .leadRespond, supabaseColumn := col }⟩
  else if val = "LK-PIX".toList then
    ⟨[], .linkPix, { label := NODE_LABELS .linkPix, supabaseColumn := col }⟩
  else if ("ADD-ENTREGA-FLUXO-".toList).isPrefixOf val then
    ⟨[], .deliverable,
      { label := NODE_LABELS .deliverable, supabaseColumn := col,
        deliverableAction := some .add, content := some (val.drop 18) }⟩
  else if ("DEL-ENTREGA-FLUXO-".toList).isPrefixOf val then
    ⟨[], .deliverable,
      { label := NODE_LABELS .deliverable, supabaseColumn := col,
        deliverableAction := some .delete, content := some (val.drop 18) }⟩
  else if ("ADD-REL-".toList).isPrefixOf val then
    let content := val.drop 8
    match findTimeMatch content with
    | some (h, m) =>
      let flowName :=
        content.take ((lastIndexOf? ('-' :: (h ++ ':' :: m)) content).getD 0)
      ⟨[], .reminder,
        { label := NODE_LABELS .reminder, supabaseColumn := col,
          reminderAction := some .add, reminderFlowId := some flowName,
          content := some flowName,
          reminderHours := some (digitsToNat h),
          reminderMinutes := some (digitsToNat m) }⟩
    | none =>
      ⟨[], .reminder,
        { label := NODE_LABELS .reminder, supabaseColumn := col,
          reminderAction := some .add, reminderFlowId := some content,
          content := some content }⟩
  else if ("DEL-REL-".toList).isPrefixOf val then
    let content := val.drop 8
    match findTimeMatch content with
    | some (h, m) =>
      let flowName :=
        content.take ((lastIndexOf? ('-' :: (h ++ ':' :: m)) content).getD 0)
      ⟨[], .reminder,
        { label := NODE_LABELS .reminder, supabaseColumn := col,
          reminderAction := some .delete, reminderFlowId := some flowName,
          content := some flowName }⟩
    | none =>
      ⟨[], .reminder,
        { label := NODE_LABELS .reminder, supabaseColumn := col,
          reminderAction := some .delete, reminderFlowId := some content,
          content := some content }⟩
  else if ("APAGAR-GANCHO-".toList).isPrefixOf val then
    ⟨[], .hook,
      { label := NODE_LABELS .hook, supabaseColumn := col,
        hookAction := some .delete, content := some (val.drop 14) }⟩
  else if ("GANCHO-".toList).isPrefixOf val then
    let content := val.drop 7
    match findTimeMatch content with
    | some (h, m) =>
      let flowName :=
        content.take ((lastIndexOf? ('-' :: (h ++ ':' :: m)) content).getD 0)
      ⟨[], .hook,
        { label := NODE_LABELS .hook, supabaseColumn := col,
          hookAction := some .add, hookFlowId := some flowName,
          content := some flowName,
          hookHours := some (digitsToNat h),
          hookMinutes := some (digitsToNat m) }⟩
    | none =>
      ⟨[], .hook,
        { label := NODE_LABELS .hook, supabaseColumn := col,
          hookAction := some .add, hookFlowId := some content,
          content := some content,
          hookHours := some 0, hookMinutes := some 0 }⟩
  else
    ⟨[], .message,
      { label := NODE_LABELS .message, supabaseColumn := col,
        content := some val }⟩

/-- `parseColumnValue`: `null`/empty and whitespace-only cells decode to
no step; every other cell decodes through the prefix chain. -/
def parseColumnValue (value columnName : Str) : Option BubbleData :=
  if value = [] then none
  else if trimStr value = [] then none
  else some (parseColumnValueCore (trimStr value) columnName)

/-- The disjunction of every prefix (or exact-string) test of the chain,
in source order. -/
def matchesKnownPrefix (val : Str) : Bool :=
  ("MSG-UTM-".toList).isPrefixOf val || ("MSG-TEMPO-".toList).isPrefixOf val ||
  ("MSG-".toList).isPrefixOf val || ("FT-C-T;".toList).isPrefixOf val ||
  ("FT-C-T-".toList).isPrefixOf val || ("VD-C-T;".toList).isPrefixOf val ||
  ("VD-C-T-".toList).isPrefixOf val || ("FT-C-".toList).isPrefixOf val ||
  ("FT-".toList).isPrefixOf val || ("VD-C-".toList).isPrefixOf val ||
  ("VD-".toList).isPrefixOf val || ("AU-".toList).isPrefixOf val ||
  ("T-".toList).isPrefixOf val || val = "LD".toList || val = "LK-PIX".toList ||
  ("ADD-ENTREGA-FLUXO-".toList).isPrefixOf val ||
  ("DEL-ENTREGA-FLUXO-".toList).isPrefixOf val ||
  ("ADD-REL-".toList).isPrefixOf val || ("DEL-REL-".toList).isPrefixOf val ||
  ("APAGAR-GANCHO-".toList).isPrefixOf val || ("GANCHO-".toList).isPrefixOf val

/-! ## Cell encoding (part_002 `buildSupabaseValueForBubble`) -/

/-- One entry of `availableFlows`. -/
structure FlowInfo where
  id : Str
  name : Str
  deriving DecidableEq, Repr

/-- `NODE_PREFIXES` (src/types/operation.ts). -/
def NODE_PREFIXES : NodeType → Str
  | .start => "INICIO".toList
  | .message => "MSG-".toList
  | .messageUtm => "MSG-UTM-".toList
  | .messageTime => "MSG-TEMPO-".toList
  | .photo => "FT-".toList
  | .photoCaption => "FT-C-".toList
  | .photoCaptionTime => "FT-C-T-".toList
  | .video => "VD-".toList
  | .videoCaption => "VD-C-".toList
  | .videoCaptionTime => "VD-C-T-".toList
  | .audio => "AU-".toList
  | .time => "T-".toList
  | .leadRespond => "LD".toList
  | .hook => "GANCHO-".toList
  | .deleteHook => "APAGAR-GANCHO-".toList
  | .linkPix => "LK-PIX".toList
  | .deliverable => []
  | .reminder => []
  | .note => []

/-- JS `String(n).padStart(2, "0")`. -/
def padStart2 (s : Str) : Str :=
  if s.length ≥ 2 then s else List.replicate (2 - s.length) '0' ++ s

/-- JS `content.replace(/;/g, ",")`. -/
def replaceSemis (s : Str) : Str := s.map fun c => if c = ';' then ',' else c

/-- The `destName`/`flowName` resolution chain shared by the hook,
delete-hook and reminder cases: flow name by id, else flow name by name,
else content, else the raw id field, else empty — then trimmed. -/
def resolveFlowName (availableFlows : List FlowInfo) (idField content : Option Str) :
    Str :=
  let byId : Option FlowInfo := match idField with
    | some fid => availableFlows.find? fun f => f.id = fid
    | none => none
  let byName : Option FlowInfo := match idField with
    | some fid => availableFlows.find? fun f => f.name = fid
    | none => none
  trimStr (jsOr ((byId.map (·.name)).getD [])
    (jsOr ((byName.map (·.name)).getD [])
      (jsOr (content.getD []) (idField.getD []))))

/-- `buildSupabaseValueForBubble` (the encoder), over the flow list used
for name resolution. -/
def buildSupabaseValueForBubble (availableFlows : List FlowInfo)
    (bubble : BubbleData) : Str :=
  let pfx := NODE_PREFIXES bubble.type
  if bubble.type = .time then
    pfx ++ natDigits (bubble.data.timeMin.getD 5) ++
      '-' :: natDigits (bubble.data.timeMax.getD 10)
  else if bubble.type = .messageTime then
    pfx ++ joinCh ';' ((bubble.data.timeMessageRules.getD []).map fun r =>
      r.startTime ++ '-' :: r.endTime ++ '-' :: replaceSemis r.content)
  else if bubble.type = .photoCaptionTime ∨ bubble.type = .videoCaptionTime then
    (if bubble.type = .photoCaptionTime then "FT-C-T;".toList else "VD-C-T;".toList) ++
      joinCh ';' ((bubble.data.timeMediaRules.getD []).map fun r =>
        r.startTime ++ '|' :: r.endTime ++ '|' :: r.mediaUrl ++ '|' :: r.caption.getD [])
  else
    match bubble.type with
    | .message => pfx ++ bubble.data.content.getD []
    | .messageUtm =>
      pfx ++ trimStr ((bubble.data.content.getD []) ++ ' ' :: (bubble.data.utm.getD []))
    | .photo => pfx ++ bubble.data.mediaUrl.getD []
    | .photoCaption =>
      pfx ++ trimStr ((bubble.data.mediaUrl.getD []) ++ ' ' :: (bubble.data.caption.getD []))
    | .video => pfx ++ bubble.data.mediaUrl.getD []
    | .videoCaption =>
      pfx ++ trimStr ((bubble.data.mediaUrl.getD []) ++ ' ' :: (bubble.data.caption.getD []))
    | .audio => pfx ++ bubble.data.mediaUrl.getD []
    | .leadRespond => pfx
    | .linkPix => pfx
    | .hook =>
      let destName := resolveFlowName availableFlows bubble.data.hookFlowId
        bubble.data.content
      if bubble.data.hookAction.getD .add = .delete then
        "APAGAR-GANCHO-".toList ++ destName
      else
        let timePart := padStart2 (natDigits (bubble.data.hookHours.getD 0)) ++
          ':' :: padStart2 (natDigits (bubble.data.hookMinutes.getD 0))
        pfx ++ (if destName = [] then timePart else destName ++ '-' :: timePart)
    | .deleteHook =>
      pfx ++ resolveFlowName availableFlows bubble.data.hookFlowId bubble.data.content
    | .deliverable =>
      let fl : Option FlowInfo := match bubble.data.deliverableFlowId with
        | some fid => availableFlows.find? fun f => f.id = fid
        | none => none
      (if bubble.data.deliverableAction = some .add then "ADD-ENTREGA-FLUXO-".toList
       else "DEL-ENTREGA-FLUXO-".toList) ++ trimStr ((fl.map (·.name)).getD [])
    | .reminder =>
      let flowName := resolveFlowName availableFlows bubble.data.reminderFlowId
        bubble.data.content
      if bubble.data.reminderAction = some .add then
        match bubble.data.reminderHours, bubble.data.reminderMinutes with
        | some hh, some mm =>
          "ADD-REL-".toList ++ flowName ++ '-' :: padStart2 (natDigits hh) ++
            ':' :: padStart2 (natDigits mm)
        | _, _ => "ADD-REL-".toList ++ flowName ++ "-__:__".toList
      else "DEL-REL-".toList ++ flowName
    | .start => pfx
    | .note => pfx
    | .time => pfx
    | .messageTime => pfx
    | .photoCaptionTime => pfx
    | .videoCaptionTime => pfx

/-! ## Layout snapshot codec (src/lib/posicaoEncoding.ts) -/

/-- JS `Math.round` on a rational: round half toward positive infinity. -/
def jsRound (q : Rat) : Int := (q + 1/2).floor

/-- The V2 snapshot object (the `v` tag and the unused viewport and note
fields are omitted; `JSON.stringify`/`JSON.parse` are not modelled, the
encoder produces the object itself).  `g` is the `groupId -> [x, y,
title, columns]` record as an assignment list. -/
structure PosicaoV2 where
  sn : Option (Int × Int)
  go : List Str
  g : List (Str × (Int × Int × Str × List Str))
  e : List (Str × Str)
  deriving DecidableEq, Repr

/-- One parsed group (`ParsedGroupV2`). -/
structure ParsedGroupV2 where
  groupId : Str
  x : Int
  y : Int
  title : Str
  columns : List Str
  deriving DecidableEq, Repr

/-- The parsed layout (`ParsedLayoutV2`, notes and viewport omitted). -/
structure ParsedLayoutV2 where
  startNodePosition : Option (Int × Int)
  groups : List ParsedGroupV2
  edges : List (Str × Str)
  deriving DecidableEq, Repr

/-- One reconstructed group of `distributeBubblesByPosicaoV2`. -/
structure DistGroup where
  groupId : Str
  x : Int
  y : Int
  title : Str
  bubbles : List BubbleData
  deriving DecidableEq, Repr

/-- The uppercased column of a step, when present and nonempty (the
`!!col` filter of the encoder). -/
def bubbleColKey (b : BubbleData) : Option Str :=
  match b.data.supabaseColumn with
  | some c => if upperStr c = [] then none else some (upperStr c)
  | none => none

/-- `encodePosicaoV2` (no viewport argument; `""` modelled as `none`). -/
def encodePosicaoV2 (nodes : List FlowNode) (edges : List FlowEdge) :
    Option PosicaoV2 :=
  let groupNodes := nodes.filter fun n => n.type = .group
  let startNode := nodes.find? fun n => n.type = .start
  if groupNodes.isEmpty then none
  else
    let validIds := startNodeId :: groupNodes.map (·.id)
    some
      { sn := startNode.map fun n =>
          (jsRound n.position.x, jsRound n.position.y),
        go := groupNodes.map (·.id),
        g := groupNodes.map fun n =>
          (n.id, (jsRound n.position.x, jsRound n.position.y,
            jsOr n.data.label ("Group".toList),
            (n.data.bubbles.getD []).filterMap bubbleColKey)),
        e := (edges.filter fun e =>
            decide (e.source ∈ validIds) && decide (e.target ∈ validIds)).map
          fun e => (e.source, e.target) }

/-- `parsePosicaoV2`. -/
def parsePosicaoV2 (data : PosicaoV2) : ParsedLayoutV2 :=
  { startNodePosition := data.sn,
    groups := data.go.filterMap fun gid =>
      match mapGet data.g gid with
      | some (x, y, title, cols) => some ⟨gid, x, y, title, cols⟩
      | none => none,
    edges := data.e }

/-- `distributeBubblesByPosicaoV2` (the `Date.now()` suffix of the
fallback group id is not modelled; that branch only runs when the layout
has no groups). -/
def distributeBubblesByPosicaoV2 (bubbles : List BubbleData)
    (layout : ParsedLayoutV2) : List DistGroup :=
  let entries := bubbles.filterMap fun b => (bubbleColKey b).map fun c => (c, b)
  let result := layout.groups.map fun pg =>
    (⟨pg.groupId, pg.x, pg.y, pg.title,
      pg.columns.filterMap fun col => mapGet entries col⟩ : DistGroup)
  let assigned := layout.groups.flatMap fun pg =>
    pg.columns.filter fun col => (mapGet entries col).isSome
  let unassigned := bubbles.filter fun b =>
    match bubbleColKey b with
    | some c => decide (¬ assigned.contains c)
    | none => false
  if unassigned.isEmpty then result
  else
    match hres : result with
    | [] => [⟨"fallback-".toList, 250, 50, "Etapas".toList, unassigned⟩]
    | _ :: _ =>
      result.dropLast ++
        [{ result.getLast (by rw [hres]; simp) with
            bubbles := (result.getLast (by rw [hres]; simp)).bubbles ++ unassigned }]

/-- The snapshot record produced by `encodePosicaoV2` when at least one
group is present (its `some` payload, spelled out). -/
def encodedV2 (nodes : List FlowNode) (edges : List FlowEdge) : PosicaoV2 where
  sn := (nodes.find? fun n => n.type = .start).map fun n =>
    (jsRound n.position.x, jsRound n.position.y)
  go := (nodes.filter fun n => n.type = .group).map (·.id)
  g := (nodes.filter fun n => n.type = .group).map fun m =>
    (m.id, (jsRound m.position.x, jsRound m.position.y,
      jsOr m.data.label ("Group".toList),
      (m.data.bubbles.getD []).filterMap bubbleColKey))
  e := (edges.filter fun e =>
      decide (e.source ∈ startNodeId ::
        (nodes.filter fun n => n.type = .group).map (·.id)) &&
      decide (e.target ∈ startNodeId ::
        (nodes.filter fun n => n.type = .group).map (·.id))).map
    fun e => (e.source, e.target)

/-! ## Concrete fixtures for the order-resolver claims -/

/-- An empty group node at the given coordinates. -/
def mkGroup (id : Str) (x y : Rat) : FlowNode :=
  { id := id, type := .group, position := ⟨x, y⟩,
    data := { label := id, bubbles := some [] } }

/-- Three groups at (0,0), (100,0) and (0,50); no edges. -/
def orderNodes3 : List FlowNode :=
  [mkGroup ['A'] 0 0, mkGroup ['B'] 100 0, mkGroup ['C'] 0 50]

/-- Groups A at (0,0), B at (100,0), C at (50,100). -/
def topoNodes : List FlowNode :=
  [mkGroup ['A'] 0 0, mkGroup ['B'] 100 0, mkGroup ['C'] 50 100]

/-- Edges start→A, start→B, A→C. -/
def topoEdges : List FlowEdge :=
  [⟨['e', '1'], startNodeId, ['A']⟩, ⟨['e', '2'], startNodeId, ['B']⟩,
   ⟨['e', '3'], ['A'], ['C']⟩]

/-- One group with a message step carrying a stale slot, a wait step
with no slot, a second message step, and an annotation. -/
def demoBubbles : List BubbleData :=
  [⟨['b', '1'], .message, { supabaseColumn := some ['M', '5'] }⟩,
   ⟨['b', '2'], .time, {}⟩,
   ⟨['b', '3'], .message, {}⟩,
   ⟨['b', '4'], .note, {}⟩]

def demoNodes : List FlowNode :=
  [{ id := ['G'], type := .group, position := ⟨0, 0⟩,
     data := { label := ['G'], bubbles := some demoBubbles } }]

/-- One group at a half-integer canvas position. -/
def c2Nodes : List FlowNode :=
  [{ id := ['G'], type := .group, position := ⟨1/2, 0⟩,
     data := { label := ['G'], bubbles := some [] } }]

/-- The single step of the snapshot round-trip demo flow. -/
def c2DemoBubbles : List BubbleData :=
  [⟨['b'], .message, { supabaseColumn := some ['M', '1'] }⟩]

/-- A one-group, one-bubble, one-edge flow at integer positions. -/
def c2DemoNodes : List FlowNode :=
  [{ id := ['G'], type := .group, position := ⟨10, 20⟩,
     data := { label := ['G'], bubbles := some c2DemoBubbles } }]

def c2DemoEdges : List FlowEdge := [⟨['e'], startNodeId, ['G']⟩]

/-- A message step in slot M1 (deleted in the C6 scenario). -/
def c6b1 : BubbleData := ⟨['1'], .message, { supabaseColumn := some ['M', '1'] }⟩

/-- A message step in slot M2. -/
def c6b2 : BubbleData := ⟨['2'], .message, { supabaseColumn := some ['M', '2'] }⟩

/-- An annotation bubble carrying a stale parseable column string. -/
def c6b3 : BubbleData := ⟨['3'], .note, { supabaseColumn := some ['M', '3'] }⟩

def c6Bubbles : List BubbleData := [c6b1, c6b2, c6b3]

/-- One group: two message steps in canonical slots plus the stale-column
annotation; the flow is a fixed point of full normalization. -/
def c6Nodes : List FlowNode :=
  [{ id := ['G'], type := .group, position := ⟨0, 0⟩,
     data := { label := ['G'], bubbles := some c6Bubbles } }]

def c6BubblesDel : List BubbleData := [c6b2, c6b3]

/-- The same flow after the M1 step is deleted. -/
def c6NodesDel : List FlowNode :=
  [{ id := ['G'], type := .group, position := ⟨0, 0⟩,
     data := { label := ['G'], bubbles := some c6BubblesDel } }]

/-- A normalized two-step flow with no annotation columns (the amended
delete-shift equivalence holds on it). -/
def c6wNodes : List FlowNode :=
  [{ id := ['G'], type := .group, position := ⟨0, 0⟩,
     data := { label := ['G'], bubbles := some [c6b1, c6b2] } }]

/-- The per-bubble emission of `reorganizeColumnsAfterDeletion`'s loop,
for a deleted slot `(dk, di)`. -/
def shiftEntry (dk : ColumnKind) (di : Nat) (b : BubbleData) : List (Str × Str) :=
  match b.data.supabaseColumn with
  | none => []
  | some cur =>
    match parseColumn cur with
    | none => []
    | some (k, i) => if k = dk ∧ i > di then [(b.id, buildColumn dk (i - 1))] else []

/-- A plain message step whose content begins with the `UTM-` marker. -/
def c1Bubble : BubbleData := ⟨['b'], .message, { content := some ("UTM-x".toList) }⟩

/-- A media time rule at the claim's boundary window. -/
def c1DemoRule : TimeMediaRule :=
  ⟨"00:00".toList, "23:59".toList, "http://img".toList, none⟩

/-- A single timer step with no stored column. -/
def c8Bubble : BubbleData := ⟨['b'], .time, {}⟩

/-- One group holding only `c8Bubble`. -/
def c8Nodes : List FlowNode :=
  [{ id := ['G'], type := .group, position := ⟨0, 0⟩,
     data := { label := ['G'], bubbles := some [c8Bubble] } }]

/-! ## The canonical two-counter walk and its properties -/

/-- The kind of the slot a bubble occupies. -/
def bubbleKind (b : BubbleData) : ColumnKind := getColumnKindForBubble b.type

/-- The canonical slot targets assigned by the two-counter walk. -/
def walkTargets : List ColumnKind → Nat → Nat → List (ColumnKind × Nat)
  | [], _, _ => []
  | k :: ks, m, t =>
    match k with
    | .M => (ColumnKind.M, m + 1) :: walkTargets ks (m + 1) t
    | .T => (ColumnKind.T, t + 1) :: walkTargets ks m (t + 1)

/-- `{ b with supabaseColumn := c }`. -/
def setColumn (c : Str) (b : BubbleData) : BubbleData :=
  { b with data := { b.data with supabaseColumn := some c } }

/-- The canonical per-bubble result of the walk: a bubble is kept when its
current normalized column already equals the fresh one, and receives the
fresh column otherwise. -/
def applyWalk : List BubbleData → Nat → Nat → List BubbleData
  | [], _, _ => []
  | b :: bs, mC, tC =>
    let kind := getColumnKindForBubble b.type
    let mC' := if kind = ColumnKind.M then mC + 1 else mC
    let tC' := if kind = ColumnKind.T then tC + 1 else tC
    let next := buildColumn kind (if kind = ColumnKind.M then mC' else tC')
    (if currentNormalizedCol b = some next then b else setColumn next b) ::
      applyWalk bs mC' tC'

/-- The node rewrite of `applyColumnUpdates`, as a single-node function. -/
def applyNodeU (u : List (Str × Str)) (n : FlowNode) : FlowNode :=
  if n.type = .group then
    { n with
      data := { n.data with
        bubbles := some ((n.data.bubbles.getD []).map (updFun u)) } }
  else n

/-- Strip the slot column of a non-annotation step (annotation steps and
every other field are kept). -/
def stripBubble (b : BubbleData) : BubbleData :=
  if isVisualOnlyBubble b.type then b
  else { b with data := { b.data with supabaseColumn := none } }

/-- Strip the slot columns of one node: a group node's non-annotation
steps lose their column (absent step lists normalized to the empty list);
every other node is kept as-is. -/
def stripNode (n : FlowNode) : FlowNode :=
  if n.type = .group then
    { n with data := { n.data with
        bubbles := some ((n.data.bubbles.getD []).map stripBubble) } }
  else n

/-- `stripNode` over the whole flow. -/
def stripSlots (nodes : List FlowNode) : List FlowNode :=
  nodes.map stripNode

def delNodeF (gid bid : Str) (n : FlowNode) : FlowNode :=
  if n.id = gid ∧ n.type = .group then
    { n with data := { n.data with
        bubbles := some ((n.data.bubbles.getD []).filter fun b => b.id ≠ bid) } }
  else n

/-! ## Theorems -/

theorem splitCh_ne_nil (sep : Char) (s : Str) : splitCh sep s ≠ [] := by
  cases s with
  | nil => simp [splitCh]
  | cons c cs =>
    simp only [splitCh]
    split
    · simp
    · split <;> simp

theorem joinCh_splitCh (sep : Char) (s : Str) : joinCh sep (splitCh sep s) = s := by
  induction s with
  | nil => rfl
  | cons c cs ih =>
    simp only [splitCh]
    split
    · subst_eqs
      rw [show joinCh sep ([] :: splitCh sep cs) = [] ++ sep :: joinCh sep (splitCh sep cs) by
        cases h : splitCh sep cs with
        | nil => exact absurd h (splitCh_ne_nil sep cs)
        | cons p ps => rfl]
      rw [ih]; rfl
    · cases h : splitCh sep cs with
      | nil => exact absurd h (splitCh_ne_nil sep cs)
      | cons p ps =>
        rw [h] at ih
        cases ps with
        | nil => simpa [joinCh] using congrArg (c :: ·) ih
        | cons q qs => simpa [joinCh] using congrArg (c :: ·) ih

theorem splitCh_of_not_mem {sep : Char} {s : Str} (h : sep ∉ s) :
    splitCh sep s = [s] := by
  induction s with
  | nil => rfl
  | cons c cs ih =>
    simp only [List.mem_cons, not_or] at h
    simp only [splitCh, ih h.2]
    rw [if_neg (show ¬c = sep from fun hh => h.1 hh.symm)]

theorem splitCh_append_sep (sep : Char) (a b : Str) :
    splitCh sep (a ++ sep :: b) = splitCh sep a ++ splitCh sep b := by
  induction a with
  | nil => simp [splitCh]
  | cons c cs ih =>
    by_cases hc : c = sep
    · subst hc
      simp [splitCh, ih]
    · obtain ⟨p, ps, hps⟩ : ∃ p ps, splitCh sep cs = p :: ps := by
        cases h : splitCh sep cs with
        | nil => exact absurd h (splitCh_ne_nil sep cs)
        | cons p ps => exact ⟨p, ps, rfl⟩
      show splitCh sep (c :: (cs ++ sep :: b)) = splitCh sep (c :: cs) ++ splitCh sep b
      simp only [splitCh, if_neg hc, ih, hps, List.cons_append]

theorem natDigits_one : natDigits 1 = ['1'] := by
  unfold natDigits
  rw [dif_pos (by norm_num)]
  rfl

theorem digitChar_toNat {d : Nat} (h : d < 10) :
    (Nat.digitChar d).toNat - 48 = d := by
  interval_cases d <;> decide

theorem digitChar_isDigit {d : Nat} (h : d < 10) :
    (Nat.digitChar d).isDigit = true := by
  interval_cases d <;> decide

theorem digitsToNat_aux (s : Str) (a : Nat) :
    s.foldl (fun a c => a * 10 + (c.toNat - 48)) a =
      a * 10 ^ s.length + digitsToNat s := by
  induction s generalizing a with
  | nil => simp [digitsToNat]
  | cons c cs ih =>
    have h1 : digitsToNat (c :: cs) =
        cs.foldl (fun a c => a * 10 + (c.toNat - 48)) (0 * 10 + (c.toNat - 48)) := rfl
    rw [List.foldl_cons, ih, h1, ih, List.length_cons]
    ring

theorem digitsToNat_natDigits (n : Nat) : digitsToNat (natDigits n) = n := by
  induction n using Nat.strong_induction_on with
  | _ n ih =>
    rw [natDigits]
    split
    · simp only [digitsToNat, List.foldl_cons, List.foldl_nil, Nat.zero_mul,
        Nat.zero_add, digitChar_toNat ‹n < 10›]
    · rename_i h
      have hd : n / 10 < n := Nat.div_lt_self (by omega) (by omega)
      simp only [digitsToNat, List.foldl_append, List.foldl_cons, List.foldl_nil]
      have := digitsToNat_aux (natDigits (n / 10)) 0
      rw [show (natDigits (n/10)).foldl (fun a c => a * 10 + (c.toNat - 48)) 0 =
            digitsToNat (natDigits (n/10)) from rfl, ih _ hd,
          digitChar_toNat (Nat.mod_lt n (by omega))]
      omega

theorem natDigits_ne_nil (n : Nat) : natDigits n ≠ [] := by
  rw [natDigits]; split <;> simp

theorem natDigits_all_digit (n : Nat) : (natDigits n).all Char.isDigit = true := by
  induction n using Nat.strong_induction_on with
  | _ n ih =>
    rw [natDigits]
    split
    · simp [digitChar_isDigit ‹n < 10›]
    · rename_i h
      have hd : n / 10 < n := Nat.div_lt_self (by omega) (by omega)
      simp only [List.all_append, ih _ hd, List.all_cons, List.all_nil,
        digitChar_isDigit (Nat.mod_lt n (by omega)), Bool.and_self]

theorem natDigits_length_le {n bound : Nat} (hb : 1 ≤ bound)
    (h : n < 10 ^ bound) : (natDigits n).length ≤ bound := by
  induction n using Nat.strong_induction_on generalizing bound with
  | _ n ih =>
    rw [natDigits]
    split
    · simpa using hb
    · rename_i hn
      have hd : n / 10 < n := Nat.div_lt_self (by omega) (by omega)
      have hb2 : 2 ≤ bound := by
        by_contra hc
        have : bound = 1 := by omega
        subst this; simp at h; omega
      have : n / 10 < 10 ^ (bound - 1) := by
        have : n < 10 ^ (bound - 1) * 10 := by
          have : 10 ^ (bound - 1) * 10 = 10 ^ bound := by
            rw [← pow_succ]; congr 1; omega
          omega
        omega
      have := ih _ hd (show 1 ≤ bound - 1 by omega) this
      simp only [List.length_append, List.length_cons, List.length_nil]
      omega

theorem no_hyphen_natDigits (n : Nat) : '-' ∉ natDigits n := by
  intro hmem
  have := natDigits_all_digit n
  rw [List.all_eq_true] at this
  have := this _ hmem
  simp [Char.isDigit] at this

theorem no_semi_natDigits (n : Nat) : ';' ∉ natDigits n := by
  intro hmem
  have := natDigits_all_digit n
  rw [List.all_eq_true] at this
  have := this _ hmem
  simp [Char.isDigit] at this

/-! ### Character facts -/

theorem char_toNat_ofNat {m : Nat} (h : m < 55296) : (Char.ofNat m).toNat = m := by
  rw [Char.ofNat, dif_pos (Or.inl h)]
  simp [Char.ofNatAux, Char.toNat, UInt32.toNat]

theorem char_eq_iff_toNat {c d : Char} : c = d ↔ c.toNat = d.toNat :=
  ⟨fun h => by rw [h], fun h => Char.ext (UInt32.ext h)⟩

theorem char_isDigit_iff (c : Char) : c.isDigit = true ↔ 48 ≤ c.toNat ∧ c.toNat ≤ 57 := by
  rw [Char.isDigit]
  simp only [Bool.and_eq_true, decide_eq_true_eq, Char.le_def, UInt32.le_def,
    BitVec.le_def]
  have h1 : (48 : UInt32).toBitVec.toNat = 48 := rfl
  have h2 : (57 : UInt32).toBitVec.toNat = 57 := rfl
  simp [Char.toNat, UInt32.toNat, h1, h2, ge_iff_le]

theorem toUpper_eq_of_not_lower {c : Char} (h : ¬(97 ≤ c.toNat ∧ c.toNat ≤ 122)) :
    c.toUpper = c := by
  rw [Char.toUpper]
  split
  · rename_i hcond
    exact absurd (by simpa [ge_iff_le] using hcond) h
  · rfl

theorem toUpper_toNat_of_lower {c : Char} (h : 97 ≤ c.toNat ∧ c.toNat ≤ 122) :
    c.toUpper.toNat = c.toNat - 32 := by
  rw [Char.toUpper]
  split
  · exact char_toNat_ofNat (by omega)
  · rename_i hcond
    simp [ge_iff_le] at hcond
    omega

theorem isJsSpace_toUpper (c : Char) : isJsSpace c.toUpper = isJsSpace c := by
  by_cases h : 97 ≤ c.toNat ∧ c.toNat ≤ 122
  · have := toUpper_toNat_of_lower h
    simp only [isJsSpace, this]
    have h1 : (c.toNat - 32 = 32) = False := by simp; omega
    have h2 : (c.toNat - 32 = 9) = False := by simp; omega
    have h3 : (c.toNat - 32 = 10) = False := by simp; omega
    have h4 : (c.toNat - 32 = 13) = False := by simp; omega
    have h5 : (c.toNat = 32) = False := by simp; omega
    have h6 : (c.toNat = 9) = False := by simp; omega
    have h7 : (c.toNat = 10) = False := by simp; omega
    have h8 : (c.toNat = 13) = False := by simp; omega
    simp [h1, h2, h3, h4, h5, h6, h7, h8]
  · rw [toUpper_eq_of_not_lower h]

theorem toUpper_idem (c : Char) : c.toUpper.toUpper = c.toUpper := by
  by_cases h : 97 ≤ c.toNat ∧ c.toNat ≤ 122
  · have hn := toUpper_toNat_of_lower h
    apply toUpper_eq_of_not_lower
    omega
  · rw [toUpper_eq_of_not_lower h, toUpper_eq_of_not_lower h]

theorem toUpper_of_digit {c : Char} (h : c.isDigit = true) : c.toUpper = c := by
  rw [char_isDigit_iff] at h
  exact toUpper_eq_of_not_lower (by omega)

theorem isJsSpace_of_digit {c : Char} (h : c.isDigit = true) : isJsSpace c = false := by
  rw [char_isDigit_iff] at h
  simp only [isJsSpace]
  have h1 : (c.toNat = 32) = False := by simp; omega
  have h2 : (c.toNat = 9) = False := by simp; omega
  have h3 : (c.toNat = 10) = False := by simp; omega
  have h4 : (c.toNat = 13) = False := by simp; omega
  simp [h1, h2, h3, h4]

theorem digitsToNat_lt {s : Str} (h : s.all Char.isDigit = true) :
    digitsToNat s < 10 ^ s.length := by
  induction s with
  | nil => simp [digitsToNat]
  | cons c cs ih =>
    simp only [List.all_cons, Bool.and_eq_true] at h
    have h1 : digitsToNat (c :: cs) =
        cs.foldl (fun a c => a * 10 + (c.toNat - 48)) (0 * 10 + (c.toNat - 48)) := rfl
    rw [h1, digitsToNat_aux]
    have hc : c.toNat - 48 ≤ 9 := by
      have := (char_isDigit_iff c).mp h.1
      omega
    have hih := ih h.2
    have hlen : 10 ^ (c :: cs).length = 10 * 10 ^ cs.length := by
      rw [List.length_cons, pow_succ]; ring
    rw [hlen]
    simp only [Nat.zero_mul, Nat.zero_add]
    have hstep : (c.toNat - 48) * 10 ^ cs.length + digitsToNat cs <
        ((c.toNat - 48) + 1) * 10 ^ cs.length := by
      rw [Nat.succ_mul]
      omega
    have h9 : ((c.toNat - 48) + 1) * 10 ^ cs.length ≤ 10 * 10 ^ cs.length :=
      Nat.mul_le_mul_right _ (by omega)
    omega

/-! ### Trim and uppercase normalization -/

theorem dropWhile_dropWhile (p : Char → Bool) (l : Str) :
    (l.dropWhile p).dropWhile p = l.dropWhile p := by
  induction l with
  | nil => rfl
  | cons c cs ih =>
    by_cases h : p c
    · simp [List.dropWhile_cons, h, ih]
    · simp [List.dropWhile_cons, h]

theorem dropWhile_head_not {p : Char → Bool} {l : Str} {c : Char} {cs : Str}
    (h : l.dropWhile p = c :: cs) : p c = false := by
  induction l with
  | nil => simp at h
  | cons x xs ih =>
    rw [List.dropWhile_cons] at h
    split at h
    · exact ih h
    · rename_i hx
      cases h
      simpa using hx

theorem trimStr_idem (s : Str) : trimStr (trimStr s) = trimStr s := by
  unfold trimStr
  set a := s.dropWhile isJsSpace with ha
  set b := a.reverse.dropWhile isJsSpace with hb
  have hb2 : b.reverse.reverse = b := by rw [List.reverse_reverse]
  have step1 : b.reverse.dropWhile isJsSpace = b.reverse := by
    cases hc : b.reverse with
    | nil => rfl
    | cons c cs =>
      have hpre : b.reverse <+: a := by
        rw [← List.reverse_suffix, List.reverse_reverse]
        rw [hb]
        exact List.dropWhile_suffix _
      obtain ⟨t, ht⟩ := hpre
      rw [hc] at ht
      have : isJsSpace c = false := by
        apply @dropWhile_head_not isJsSpace s c (cs ++ t)
        rw [← ha, ← ht, List.cons_append]
      rw [List.dropWhile_cons, this]
      simp
  rw [step1, hb2, hb, dropWhile_dropWhile]

theorem dropWhile_map_toUpper (l : Str) :
    (l.map Char.toUpper).dropWhile isJsSpace =
      (l.dropWhile isJsSpace).map Char.toUpper := by
  induction l with
  | nil => rfl
  | cons c cs ih =>
    simp only [List.map_cons, List.dropWhile_cons, isJsSpace_toUpper]
    by_cases h : isJsSpace c
    · simp [h, ih]
    · simp only [Bool.not_eq_true] at h
      simp [h]

theorem trimStr_upperStr (s : Str) : trimStr (upperStr s) = upperStr (trimStr s) := by
  unfold trimStr upperStr
  rw [dropWhile_map_toUpper, ← List.map_reverse, dropWhile_map_toUpper, List.map_reverse]

theorem upperStr_idem (s : Str) : upperStr (upperStr s) = upperStr s := by
  unfold upperStr
  rw [List.map_map]
  apply List.map_congr_left
  intro c _
  exact toUpper_idem c

theorem upperStr_trim_norm (s : Str) :
    upperStr (trimStr (upperStr (trimStr s))) = upperStr (trimStr s) := by
  rw [trimStr_upperStr, trimStr_idem, upperStr_idem]

theorem trimStr_eq_self_of_no_space {s : Str}
    (h : ∀ c ∈ s, isJsSpace c = false) : trimStr s = s := by
  unfold trimStr
  have h1 : s.dropWhile isJsSpace = s := by
    cases hs : s with
    | nil => rfl
    | cons c cs =>
      rw [List.dropWhile_cons, h c (by rw [hs]; simp)]
      simp
  rw [h1]
  have h2 : s.reverse.dropWhile isJsSpace = s.reverse := by
    cases hs : s.reverse with
    | nil => rfl
    | cons c cs =>
      rw [List.dropWhile_cons, h c (by rw [← List.mem_reverse, hs]; simp)]
      simp
  rw [h2, List.reverse_reverse]

theorem upperStr_eq_self {s : Str} (h : ∀ c ∈ s, c.toUpper = c) :
    upperStr s = s := by
  unfold upperStr
  rw [List.map_congr_left h]
  exact List.map_id s

theorem mapGet_nil {α : Type} (k : Str) : mapGet ([] : List (Str × α)) k = none := rfl

theorem mapGet_append {α : Type} (l₁ l₂ : List (Str × α)) (k : Str) :
    mapGet (l₁ ++ l₂) k = (mapGet l₂ k).or (mapGet l₁ k) := by
  simp only [mapGet, List.filter_append, List.getLast?_append]
  cases h : (l₂.filter (fun p => p.1 = k)).getLast? with
  | none => simp [Option.or]
  | some v => simp [Option.or]

theorem mapGet_single_eq {α : Type} (k : Str) (v : α) :
    mapGet [(k, v)] k = some v := by simp [mapGet]

theorem mapGet_single_ne {α : Type} {k k' : Str} (h : k' ≠ k) (v : α) :
    mapGet [(k', v)] k = none := by simp [mapGet, h]

theorem mapGet_not_mem_keys {α : Type} {entries : List (Str × α)} {k : Str}
    (h : k ∉ entries.map (·.1)) : mapGet entries k = none := by
  have hf : entries.filter (fun p => p.1 = k) = [] := by
    rw [List.filter_eq_nil_iff]
    intro p hp
    simp only [decide_eq_true_eq]
    intro hk
    exact h (List.mem_map.mpr ⟨p, hp, hk⟩)
  simp [mapGet, hf]

theorem isPrefixOf_length_le {p s : Str} (h : p.isPrefixOf s = true) :
    p.length ≤ s.length := by
  rw [List.isPrefixOf_iff_prefix] at h
  exact h.length_le

theorem lastIndexOf_none_of_short {pat s : Str} (h : s.length < pat.length) :
    lastIndexOf? pat s = none := by
  induction s with
  | nil =>
    simp only [lastIndexOf?]
    rw [if_neg]
    intro hp
    have h2 := isPrefixOf_length_le hp
    simp only [List.length_nil] at h2 h
    omega
  | cons c cs ih =>
    simp only [lastIndexOf?]
    rw [ih (by simp at h ⊢; omega)]
    rw [if_neg]
    intro hp
    have h2 := isPrefixOf_length_le hp
    simp only [List.length_cons] at h2 h
    omega

theorem isPrefixOf_append_self (p s : Str) : p.isPrefixOf (p ++ s) = true := by
  rw [List.isPrefixOf_iff_prefix]
  exact List.prefix_append p s

theorem lastIndexOf_append_self {pat : Str} (hne : pat ≠ []) (d : Str) :
    lastIndexOf? pat (d ++ pat) = some d.length := by
  induction d with
  | nil =>
    cases pat with
    | nil => exact absurd rfl hne
    | cons c cs =>
      have h1 : lastIndexOf? (c :: cs) cs = none :=
        lastIndexOf_none_of_short (by simp)
      simp only [List.nil_append, lastIndexOf?, h1]
      rw [if_pos (by simpa using isPrefixOf_append_self (c :: cs) [])]
      simp
  | cons c d ih =>
    simp only [List.cons_append, lastIndexOf?, List.append_eq, ih, List.length_cons]

theorem tryTimeMatch_long {c1 c2 c3 c4 c5 c6 c7 : Char} (rest : Str) :
    tryTimeMatch (c1 :: c2 :: c3 :: c4 :: c5 :: c6 :: c7 :: rest) = none := rfl

theorem tryTimeMatch_two_digit {a b c d : Char}
    (ha : a.isDigit = true) (hb : b.isDigit = true) (hc : c.isDigit = true)
    (hd : d.isDigit = true) :
    tryTimeMatch ['-', a, b, ':', c, d] = some ([a, b], [c, d]) := by
  simp [tryTimeMatch, ha, hb, hc, hd]

theorem findTimeMatch_append {a b c e : Char} (d : Str)
    (ha : a.isDigit = true) (hb : b.isDigit = true) (hc : c.isDigit = true)
    (he : e.isDigit = true) :
    findTimeMatch (d ++ '-' :: a :: b :: ':' :: c :: e :: []) = some ([a, b], [c, e]) := by
  induction d with
  | nil =>
    show findTimeMatch ['-', a, b, ':', c, e] = _
    simp only [findTimeMatch, tryTimeMatch_two_digit ha hb hc he]
  | cons x d ih =>
    show findTimeMatch (x :: (d ++ '-' :: a :: b :: ':' :: c :: e :: [])) = _
    simp only [findTimeMatch]
    have hlong : tryTimeMatch (x :: (d ++ '-' :: a :: b :: ':' :: c :: e :: [])) = none := by
      obtain ⟨y1, y2, y3, y4, y5, y6, t, ht⟩ :
          ∃ y1 y2 y3 y4 y5 y6 t, d ++ '-' :: a :: b :: ':' :: c :: e :: [] =
            y1 :: y2 :: y3 :: y4 :: y5 :: y6 :: t := by
        cases d with
        | nil => exact ⟨'-', a, b, ':', c, e, [], rfl⟩
        | cons z zs =>
          refine ⟨z, ?_⟩
          rcases hzs : zs ++ '-' :: a :: b :: ':' :: c :: e :: [] with _ | ⟨w1, _ | ⟨w2, _ | ⟨w3, _ | ⟨w4, _ | ⟨w5, t⟩⟩⟩⟩⟩ <;>
            first
              | (exfalso
                 have := congrArg List.length hzs
                 simp only [List.length_append, List.length_cons, List.length_nil] at this
                 omega)
              | (exact ⟨w1, w2, w3, w4, w5, t, by simp [hzs]⟩)
      rw [ht]
      exact tryTimeMatch_long t
    rw [hlong]
    exact ih

/-! ## Facts about `buildColumn` and `parseColumn` -/

theorem kindChar_toNat (k : ColumnKind) : (kindChar k).toNat = 77 ∨ (kindChar k).toNat = 84 := by
  cases k <;> simp [kindChar] <;> decide

theorem buildColumn_norm (k : ColumnKind) (i : Nat) :
    upperStr (trimStr (buildColumn k i)) = buildColumn k i := by
  have hd := natDigits_all_digit i
  rw [List.all_eq_true] at hd
  rw [trimStr_eq_self_of_no_space, upperStr_eq_self]
  · intro c hc
    rcases List.mem_cons.mp hc with h | h
    · subst h
      rcases kindChar_toNat k with h | h <;> exact toUpper_eq_of_not_lower (by omega)
    · exact toUpper_of_digit (by simpa using hd c h)
  · intro c hc
    rcases List.mem_cons.mp hc with h | h
    · subst h
      rcases kindChar_toNat k with h | h <;> (simp only [isJsSpace]; simp [h])
    · exact isJsSpace_of_digit (by simpa using hd c h)

theorem parseColumn_buildColumn {k : ColumnKind} {i : Nat} (h1 : 1 ≤ i) (h2 : i ≤ 50) :
    parseColumn (buildColumn k i) = some (k, i) := by
  unfold parseColumn
  rw [buildColumn_norm k i,
    show buildColumn k i = kindChar k :: natDigits i from rfl]
  have hne : natDigits i ≠ [] := natDigits_ne_nil i
  have hlen : (natDigits i).length ≤ 2 :=
    natDigits_length_le (by omega) (by omega)
  have hdig := natDigits_all_digit i
  have hval := digitsToNat_natDigits i
  cases k <;>
    simp [kindChar, hne, hlen, hdig, hval, COLUMN_LIMIT, h1, h2]

theorem parseColumn_buildColumn_big {k : ColumnKind} {i : Nat} (h : 50 < i) :
    parseColumn (buildColumn k i) = none := by
  unfold parseColumn
  rw [buildColumn_norm k i,
    show buildColumn k i = kindChar k :: natDigits i from rfl]
  by_cases hbig : i ≤ 99
  · have hne : natDigits i ≠ [] := natDigits_ne_nil i
    have hlen : (natDigits i).length ≤ 2 :=
      natDigits_length_le (by omega) (by omega)
    have hdig := natDigits_all_digit i
    have hval := digitsToNat_natDigits i
    cases k <;>
      simp [kindChar, hne, hlen, hdig, hval, COLUMN_LIMIT]
    · omega
    · omega
  · have hlen : ¬ (natDigits i).length ≤ 2 := by
      intro hle
      have := digitsToNat_lt (natDigits_all_digit i)
      rw [digitsToNat_natDigits] at this
      have : i < 10 ^ 2 := lt_of_lt_of_le this (Nat.pow_le_pow_right (by omega) hle)
      omega
    cases k <;> simp [kindChar, hlen]

theorem buildColumn_inj {k k' : ColumnKind} {i i' : Nat}
    (h : buildColumn k i = buildColumn k' i') : k = k' ∧ i = i' := by
  unfold buildColumn at h
  injection h with h1 h2
  constructor
  · cases k <;> cases k' <;> simp_all [kindChar]
  · have := congrArg digitsToNat h2
    rwa [digitsToNat_natDigits, digitsToNat_natDigits] at this

theorem parseColumn_norm (c : Str) :
    parseColumn (upperStr (trimStr c)) = parseColumn c := by
  unfold parseColumn
  rw [upperStr_trim_norm]

/-- `currentNormalizedCol` in terms of a direct parse of the stored
column. -/
theorem currentNormalizedCol_eq (b : BubbleData) :
    currentNormalizedCol b =
      (b.data.supabaseColumn.bind parseColumn).map fun p => buildColumn p.1 p.2 := by
  unfold currentNormalizedCol
  cases b.data.supabaseColumn with
  | none => rfl
  | some c => simp [parseColumn_norm]

theorem normLoop_cons_M {b : BubbleData} (h : getColumnKindForBubble b.type = .M)
    (bs : List BubbleData) (mC tC : Nat) :
    normLoop (b :: bs) mC tC =
      (if currentNormalizedCol b = some (buildColumn .M (mC + 1)) then []
       else [(b.id, buildColumn .M (mC + 1))]) ++ normLoop bs (mC + 1) tC := by
  simp only [normLoop, h]
  rfl

theorem normLoop_cons_T {b : BubbleData} (h : getColumnKindForBubble b.type = .T)
    (bs : List BubbleData) (mC tC : Nat) :
    normLoop (b :: bs) mC tC =
      (if currentNormalizedCol b = some (buildColumn .T (tC + 1)) then []
       else [(b.id, buildColumn .T (tC + 1))]) ++ normLoop bs mC (tC + 1) := by
  simp only [normLoop, h]
  rfl

theorem normLoop_keys {bs : List BubbleData} {mC tC : Nat} :
    ∀ k ∈ (normLoop bs mC tC).map (·.1), k ∈ bs.map (·.id) := by
  induction bs generalizing mC tC with
  | nil => simp [normLoop]
  | cons b bs ih =>
    intro k hk
    rcases hkind : getColumnKindForBubble b.type with hM | hT
    · rw [normLoop_cons_M hkind] at hk
      simp only [List.map_append, List.mem_append] at hk
      rcases hk with hk | hk
      · split at hk <;> simp_all
      · simp only [List.map_cons, List.mem_cons]
        exact Or.inr (ih k hk)
    · rw [normLoop_cons_T hkind] at hk
      simp only [List.map_append, List.mem_append] at hk
      rcases hk with hk | hk
      · split at hk <;> simp_all
      · simp only [List.map_cons, List.mem_cons]
        exact Or.inr (ih k hk)

theorem applyWalk_cons_M {b : BubbleData} (h : getColumnKindForBubble b.type = .M)
    (bs : List BubbleData) (mC tC : Nat) :
    applyWalk (b :: bs) mC tC =
      (if currentNormalizedCol b = some (buildColumn .M (mC + 1)) then b
       else setColumn (buildColumn .M (mC + 1)) b) :: applyWalk bs (mC + 1) tC := by
  simp only [applyWalk, h]
  rfl

theorem applyWalk_cons_T {b : BubbleData} (h : getColumnKindForBubble b.type = .T)
    (bs : List BubbleData) (mC tC : Nat) :
    applyWalk (b :: bs) mC tC =
      (if currentNormalizedCol b = some (buildColumn .T (tC + 1)) then b
       else setColumn (buildColumn .T (tC + 1)) b) :: applyWalk bs mC (tC + 1) := by
  simp only [applyWalk, h]
  rfl

theorem setColumn_type (c : Str) (b : BubbleData) : (setColumn c b).type = b.type := rfl

theorem setColumn_id (c : Str) (b : BubbleData) : (setColumn c b).id = b.id := rfl

theorem setColumn_setColumn (c : Str) (b : BubbleData) :
    setColumn c (setColumn c b) = setColumn c b := rfl

theorem currentNormalizedCol_setColumn (c : Str) (b : BubbleData) :
    currentNormalizedCol (setColumn c b) =
      (parseColumn c).map fun p => buildColumn p.1 p.2 := by
  unfold currentNormalizedCol setColumn
  simp only [Option.map_some', Option.some_bind]
  rw [parseColumn_norm]

theorem applyWalk_ids : ∀ (bs : List BubbleData) (mC tC : Nat),
    (applyWalk bs mC tC).map (·.id) = bs.map (·.id) := by
  intro bs
  induction bs with
  | nil => intro mC tC; rfl
  | cons b bs ih =>
    intro mC tC
    rcases hkind : getColumnKindForBubble b.type with _ | _
    case M =>
      rw [applyWalk_cons_M hkind]
      simp only [List.map_cons, ih]
      congr 1
      split <;> rfl
    case T =>
      rw [applyWalk_cons_T hkind]
      simp only [List.map_cons, ih]
      congr 1
      split <;> rfl

theorem applyWalk_kinds : ∀ (bs : List BubbleData) (mC tC : Nat),
    (applyWalk bs mC tC).map bubbleKind = bs.map bubbleKind := by
  intro bs
  induction bs with
  | nil => intro mC tC; rfl
  | cons b bs ih =>
    intro mC tC
    rcases hkind : getColumnKindForBubble b.type with _ | _
    case M =>
      rw [applyWalk_cons_M hkind]
      simp only [List.map_cons, ih]
      congr 1
      split
      · rfl
      · simp [bubbleKind, setColumn_type]
    case T =>
      rw [applyWalk_cons_T hkind]
      simp only [List.map_cons, ih]
      congr 1
      split
      · rfl
      · simp [bubbleKind, setColumn_type]

/-- Applying the update map produced by the walk rewrites the walked
bubbles to exactly the canonical walk result (distinct ids assumed). -/
theorem updFun_normLoop {bs : List BubbleData} (hnd : (bs.map (·.id)).Nodup) :
    ∀ mC tC, bs.map (updFun (normLoop bs mC tC)) = applyWalk bs mC tC := by
  induction bs with
  | nil => intro mC tC; rfl
  | cons b bs ih =>
    intro mC tC
    simp only [List.map_cons, List.nodup_cons] at hnd
    obtain ⟨hb_notin, hnd_tl⟩ := hnd
    rcases hkind : getColumnKindForBubble b.type with _ | _
    case M =>
      rw [normLoop_cons_M hkind, applyWalk_cons_M hkind]
      set next := buildColumn ColumnKind.M (mC + 1) with hnext
      set ub : List (Str × Str) :=
        (if currentNormalizedCol b = some next then [] else [(b.id, next)]) with hub
      have hrest : mapGet (normLoop bs (mC + 1) tC) b.id = none := by
        apply mapGet_not_mem_keys
        intro hmem
        exact hb_notin (normLoop_keys _ hmem)
      have hhead : updFun (ub ++ normLoop bs (mC + 1) tC) b =
          (if currentNormalizedCol b = some next then b else setColumn next b) := by
        unfold updFun
        rw [mapGet_append, hrest, Option.none_or]
        by_cases hcur : currentNormalizedCol b = some next
        · rw [hub, if_pos hcur, if_pos hcur, mapGet_nil]
        · rw [hub, if_neg hcur, if_neg hcur, mapGet_single_eq]
          rfl
      have htail : bs.map (updFun (ub ++ normLoop bs (mC + 1) tC)) =
          bs.map (updFun (normLoop bs (mC + 1) tC)) := by
        apply List.map_congr_left
        intro x hx
        have hxid : mapGet ub x.id = none := by
          rw [hub]
          split
          · rfl
          · apply mapGet_single_ne
            intro heq
            exact hb_notin (heq ▸ List.mem_map_of_mem (·.id) hx)
        unfold updFun
        rw [mapGet_append, hxid, Option.or_none]
      simp only [List.map_cons, hhead, htail, ih hnd_tl (mC + 1) tC]
    case T =>
      rw [normLoop_cons_T hkind, applyWalk_cons_T hkind]
      set next := buildColumn ColumnKind.T (tC + 1) with hnext
      set ub : List (Str × Str) :=
        (if currentNormalizedCol b = some next then [] else [(b.id, next)]) with hub
      have hrest : mapGet (normLoop bs mC (tC + 1)) b.id = none := by
        apply mapGet_not_mem_keys
        intro hmem
        exact hb_notin (normLoop_keys _ hmem)
      have hhead : updFun (ub ++ normLoop bs mC (tC + 1)) b =
          (if currentNormalizedCol b = some next then b else setColumn next b) := by
        unfold updFun
        rw [mapGet_append, hrest, Option.none_or]
        by_cases hcur : currentNormalizedCol b = some next
        · rw [hub, if_pos hcur, if_pos hcur, mapGet_nil]
        · rw [hub, if_neg hcur, if_neg hcur, mapGet_single_eq]
          rfl
      have htail : bs.map (updFun (ub ++ normLoop bs mC (tC + 1))) =
          bs.map (updFun (normLoop bs mC (tC + 1))) := by
        apply List.map_congr_left
        intro x hx
        have hxid : mapGet ub x.id = none := by
          rw [hub]
          split
          · rfl
          · apply mapGet_single_ne
            intro heq
            exact hb_notin (heq ▸ List.mem_map_of_mem (·.id) hx)
        unfold updFun
        rw [mapGet_append, hxid, Option.or_none]
      simp only [List.map_cons, hhead, htail, ih hnd_tl mC (tC + 1)]

/-- The slot parse of a keep-case bubble: its current normalized column is
the fresh column, so its stored column parses to the fresh pair. -/
theorem keep_case_parse {b : BubbleData} {k : ColumnKind} {i : Nat}
    (hcur : currentNormalizedCol b = some (buildColumn k i)) :
    b.data.supabaseColumn.bind parseColumn = parseColumn (buildColumn k i) := by
  rw [currentNormalizedCol_eq] at hcur
  cases hcol : b.data.supabaseColumn.bind parseColumn with
  | none => rw [hcol] at hcur; simp at hcur
  | some p =>
    rw [hcol] at hcur
    have hbuild : buildColumn p.1 p.2 = buildColumn k i := by
      simpa using hcur
    have hle : p.2 ≤ 50 ∧ 1 ≤ p.2 := by
      rcases hpc : b.data.supabaseColumn with _ | c
      · rw [hpc] at hcol; simp at hcol
      · rw [hpc] at hcol
        rw [show (some c).bind parseColumn = parseColumn c from rfl] at hcol
        unfold parseColumn at hcol
        cases hsc : upperStr (trimStr c) with
        | nil => rw [hsc] at hcol; simp at hcol
        | cons x ds =>
          rw [hsc] at hcol
          simp only at hcol
          split at hcol
          · split at hcol
            · split at hcol
              · rename_i hrange
                cases hcol
                simpa [COLUMN_LIMIT] using ⟨hrange.2, hrange.1⟩
              · simp at hcol
            · simp at hcol
          · simp at hcol
    obtain ⟨hk, hi⟩ := buildColumn_inj hbuild
    rw [parseColumn_buildColumn (by omega) (by omega)]
    exact congrArg some (Prod.ext hk hi)

/-- After the walk, each walked bubble's stored column parses to exactly
its canonical slot target. -/
theorem applyWalk_slots : ∀ (bs : List BubbleData) (mC tC : Nat),
    (applyWalk bs mC tC).map (fun b => b.data.supabaseColumn.bind parseColumn) =
      (walkTargets (bs.map bubbleKind) mC tC).map
        (fun p => parseColumn (buildColumn p.1 p.2)) := by
  intro bs
  induction bs with
  | nil => intro mC tC; rfl
  | cons b bs ih =>
    intro mC tC
    rcases hkind : getColumnKindForBubble b.type with _ | _
    case M =>
      rw [applyWalk_cons_M hkind]
      rw [show walkTargets ((b :: bs).map bubbleKind) mC tC =
            (ColumnKind.M, mC + 1) :: walkTargets (bs.map bubbleKind) (mC + 1) tC by
          simp only [List.map_cons, walkTargets, bubbleKind, hkind]]
      simp only [List.map_cons, ih (mC + 1) tC]
      congr 1
      by_cases hcur : currentNormalizedCol b = some (buildColumn ColumnKind.M (mC + 1))
      · rw [if_pos hcur]
        exact keep_case_parse hcur
      · rw [if_neg hcur]
        rfl
    case T =>
      rw [applyWalk_cons_T hkind]
      rw [show walkTargets ((b :: bs).map bubbleKind) mC tC =
            (ColumnKind.T, tC + 1) :: walkTargets (bs.map bubbleKind) mC (tC + 1) by
          simp only [List.map_cons, walkTargets, bubbleKind, hkind]]
      simp only [List.map_cons, ih mC (tC + 1)]
      congr 1
      by_cases hcur : currentNormalizedCol b = some (buildColumn ColumnKind.T (tC + 1))
      · rw [if_pos hcur]
        exact keep_case_parse hcur
      · rw [if_neg hcur]
        rfl

/-- The canonical walk is idempotent. -/
theorem applyWalk_idem : ∀ (bs : List BubbleData) (mC tC : Nat),
    applyWalk (applyWalk bs mC tC) mC tC = applyWalk bs mC tC := by
  intro bs
  induction bs with
  | nil => intro mC tC; rfl
  | cons b bs ih =>
    intro mC tC
    rcases hkind : getColumnKindForBubble b.type with _ | _
    case M =>
      rw [applyWalk_cons_M hkind]
      by_cases hcur : currentNormalizedCol b = some (buildColumn ColumnKind.M (mC + 1))
      · rw [if_pos hcur, applyWalk_cons_M hkind, if_pos hcur, ih (mC + 1) tC]
      · rw [if_neg hcur]
        have hknd : getColumnKindForBubble (setColumn (buildColumn ColumnKind.M (mC + 1)) b).type =
            ColumnKind.M := by rw [setColumn_type]; exact hkind
        rw [applyWalk_cons_M hknd, ih (mC + 1) tC]
        congr 1
        rw [currentNormalizedCol_setColumn]
        by_cases hle : mC + 1 ≤ 50
        · rw [parseColumn_buildColumn (by omega) hle]
          simp
        · rw [parseColumn_buildColumn_big (by omega)]
          rw [if_neg (by simp)]
          rw [setColumn_setColumn]
    case T =>
      rw [applyWalk_cons_T hkind]
      by_cases hcur : currentNormalizedCol b = some (buildColumn ColumnKind.T (tC + 1))
      · rw [if_pos hcur, applyWalk_cons_T hkind, if_pos hcur, ih mC (tC + 1)]
      · rw [if_neg hcur]
        have hknd : getColumnKindForBubble (setColumn (buildColumn ColumnKind.T (tC + 1)) b).type =
            ColumnKind.T := by rw [setColumn_type]; exact hkind
        rw [applyWalk_cons_T hknd, ih mC (tC + 1)]
        congr 1
        rw [currentNormalizedCol_setColumn]
        by_cases hle : tC + 1 ≤ 50
        · rw [parseColumn_buildColumn (by omega) hle]
          simp
        · rw [parseColumn_buildColumn_big (by omega)]
          rw [if_neg (by simp)]
          rw [setColumn_setColumn]

theorem walkTargets_mem_gt {ks : List ColumnKind} {m t : Nat} :
    ∀ p ∈ walkTargets ks m t, (p.1 = ColumnKind.M → m < p.2) ∧
      (p.1 = ColumnKind.T → t < p.2) := by
  induction ks generalizing m t with
  | nil => simp [walkTargets]
  | cons k ks ih =>
    intro p hp
    cases k with
    | M =>
      rcases List.mem_cons.mp hp with rfl | hp
      · exact ⟨fun _ => by omega, fun h => by simp at h⟩
      · have := ih p hp
        exact ⟨fun h => by have := this.1 h; omega, this.2⟩
    | T =>
      rcases List.mem_cons.mp hp with rfl | hp
      · exact ⟨fun h => by simp at h, fun _ => by omega⟩
      · have := ih p hp
        exact ⟨this.1, fun h => by have := this.2 h; omega⟩

theorem walkTargets_mem_le {ks : List ColumnKind} {m t : Nat} :
    ∀ p ∈ walkTargets ks m t, (p.1 = ColumnKind.M → p.2 ≤ m + ks.count ColumnKind.M) ∧
      (p.1 = ColumnKind.T → p.2 ≤ t + ks.count ColumnKind.T) := by
  induction ks generalizing m t with
  | nil => simp [walkTargets]
  | cons k ks ih =>
    intro p hp
    cases k with
    | M =>
      have hcM : (ColumnKind.M :: ks).count ColumnKind.M = ks.count ColumnKind.M + 1 := by
        simp [List.count_cons]
      have hcT : (ColumnKind.M :: ks).count ColumnKind.T = ks.count ColumnKind.T := by
        simp [List.count_cons]
      rcases List.mem_cons.mp hp with rfl | hp
      · exact ⟨fun _ => by omega, fun h => by simp at h⟩
      · obtain ⟨h1, h2⟩ := ih p hp
        exact ⟨fun h => by have := h1 h; omega, fun h => by have := h2 h; omega⟩
    | T =>
      have hcM : (ColumnKind.T :: ks).count ColumnKind.M = ks.count ColumnKind.M := by
        simp [List.count_cons]
      have hcT : (ColumnKind.T :: ks).count ColumnKind.T = ks.count ColumnKind.T + 1 := by
        simp [List.count_cons]
      rcases List.mem_cons.mp hp with rfl | hp
      · exact ⟨fun h => by simp at h, fun _ => by omega⟩
      · obtain ⟨h1, h2⟩ := ih p hp
        exact ⟨fun h => by have := h1 h; omega, fun h => by have := h2 h; omega⟩

theorem walkTargets_nodup (ks : List ColumnKind) :
    ∀ m t, (walkTargets ks m t).Nodup := by
  induction ks with
  | nil => intro m t; simp [walkTargets]
  | cons k ks ih =>
    intro m t
    cases k with
    | M =>
      rw [show walkTargets (ColumnKind.M :: ks) m t =
        (ColumnKind.M, m + 1) :: walkTargets ks (m + 1) t from rfl]
      refine List.nodup_cons.mpr ⟨?_, ih (m + 1) t⟩
      intro hmem
      have := (walkTargets_mem_gt _ hmem).1 rfl
      omega
    | T =>
      rw [show walkTargets (ColumnKind.T :: ks) m t =
        (ColumnKind.T, t + 1) :: walkTargets ks m (t + 1) from rfl]
      refine List.nodup_cons.mpr ⟨?_, ih m (t + 1)⟩
      intro hmem
      have := (walkTargets_mem_gt _ hmem).2 rfl
      omega

theorem walkTargets_filter_M (ks : List ColumnKind) :
    ∀ m t, ((walkTargets ks m t).filter (fun p => p.1 = ColumnKind.M)).map (·.2) =
      List.range' (m + 1) (ks.count ColumnKind.M) := by
  induction ks with
  | nil => intro m t; simp [walkTargets]
  | cons k ks ih =>
    intro m t
    cases k with
    | M =>
      rw [show walkTargets (ColumnKind.M :: ks) m t =
        (ColumnKind.M, m + 1) :: walkTargets ks (m + 1) t from rfl]
      rw [List.filter_cons_of_pos (by simp), List.map_cons, ih (m + 1) t]
      have : (ColumnKind.M :: ks).count ColumnKind.M = ks.count ColumnKind.M + 1 := by
        simp [List.count_cons]
      rw [this, List.range'_succ]
    | T =>
      rw [show walkTargets (ColumnKind.T :: ks) m t =
        (ColumnKind.T, t + 1) :: walkTargets ks m (t + 1) from rfl]
      rw [List.filter_cons_of_neg (by simp), ih m (t + 1)]
      have : (ColumnKind.T :: ks).count ColumnKind.M = ks.count ColumnKind.M := by
        simp [List.count_cons]
      rw [this]

theorem walkTargets_filter_T (ks : List ColumnKind) :
    ∀ m t, ((walkTargets ks m t).filter (fun p => p.1 = ColumnKind.T)).map (·.2) =
      List.range' (t + 1) (ks.count ColumnKind.T) := by
  induction ks with
  | nil => intro m t; simp [walkTargets]
  | cons k ks ih =>
    intro m t
    cases k with
    | M =>
      rw [show walkTargets (ColumnKind.M :: ks) m t =
        (ColumnKind.M, m + 1) :: walkTargets ks (m + 1) t from rfl]
      rw [List.filter_cons_of_neg (by simp), ih (m + 1) t]
      have : (ColumnKind.M :: ks).count ColumnKind.T = ks.count ColumnKind.T := by
        simp [List.count_cons]
      rw [this]
    | T =>
      rw [show walkTargets (ColumnKind.T :: ks) m t =
        (ColumnKind.T, t + 1) :: walkTargets ks m (t + 1) from rfl]
      rw [List.filter_cons_of_pos (by simp), List.map_cons, ih m (t + 1)]
      have : (ColumnKind.T :: ks).count ColumnKind.T = ks.count ColumnKind.T + 1 := by
        simp [List.count_cons]
      rw [this, List.range'_succ]

/-! ## Structure of the collection pass -/

theorem find?_decomp {α : Type} {p : α → Bool} {l : List α} {q : α}
    (h : l.find? p = some q) :
    ∃ l₁ l₂, l = l₁ ++ q :: l₂ ∧ ∀ x ∈ l₁, p x = false := by
  induction l with
  | nil => simp at h
  | cons a l ih =>
    rw [List.find?_cons] at h
    split at h
    · cases h
      exact ⟨[], l, rfl, by simp⟩
    · obtain ⟨l₁, l₂, rfl, hl⟩ := ih h
      rename_i hpa
      refine ⟨a :: l₁, l₂, rfl, ?_⟩
      intro x hx
      rcases List.mem_cons.mp hx with rfl | hx
      · simpa using hpa
      · exact hl x hx

theorem collectRemaining_append (m₁ m₂ : List (Str × FlowNode)) :
    collectRemaining (m₁ ++ m₂) = collectRemaining m₁ ++ collectRemaining m₂ := by
  simp [collectRemaining]

/-- The collection pass gathers, up to permutation, exactly the non-note
bubbles of all group entries of the node map (assuming distinct keys). -/
theorem processGroupOrder_cons (gid : Str) (rest : List Str)
    (m : List (Str × FlowNode)) :
    processGroupOrder (gid :: rest) m =
      match entryGet m gid with
      | none => processGroupOrder rest m
      | some n =>
        if n.type = .group then
          (collectFromNode n ++ (processGroupOrder rest (m.filter fun p => p.1 ≠ gid)).1,
            (processGroupOrder rest (m.filter fun p => p.1 ≠ gid)).2)
        else processGroupOrder rest m := rfl

/-- The collection pass gathers, up to permutation, exactly the non-note
bubbles of all group entries of the node map (assuming distinct keys). -/
theorem processGroupOrder_perm :
    ∀ (order : List Str) (m : List (Str × FlowNode)), (m.map (·.1)).Nodup →
      ((processGroupOrder order m).1 ++ collectRemaining (processGroupOrder order m).2).Perm
        (collectRemaining m) := by
  intro order
  induction order with
  | nil => intro m _; simp [processGroupOrder]
  | cons gid rest ih =>
    intro m hnd
    rw [processGroupOrder_cons]
    cases hfind : entryGet m gid with
    | none => exact ih m hnd
    | some n =>
      simp only
      by_cases hty : n.type = FlowNodeType.group
      · rw [if_pos hty]
        obtain ⟨q, hq, hq2⟩ : ∃ q, m.find? (fun p => p.1 = gid) = some q ∧ q.2 = n := by
          unfold entryGet at hfind
          cases hf : m.find? fun p => p.1 = gid with
          | none => rw [hf] at hfind; simp at hfind
          | some q =>
            rw [hf] at hfind
            simp only [Option.map_some'] at hfind
            exact ⟨q, rfl, by injection hfind⟩
        have hqkey : q.1 = gid := by
          have := List.find?_some hq
          simpa using this
        obtain ⟨m₁, m₂, hm, hm₁⟩ := find?_decomp hq
        have hm₁' : ∀ x ∈ m₁, x.1 ≠ gid := by
          intro x hx hc
          have := hm₁ x hx
          simp [hc] at this
        have hgid_m₂ : ∀ x ∈ m₂, x.1 ≠ gid := by
          intro x hx hc
          rw [hm] at hnd
          rw [List.map_append, List.map_cons] at hnd
          have hnm := (List.nodup_cons.mp (List.nodup_middle.mp hnd)).1
          apply hnm
          apply List.mem_append.mpr
          right
          rw [hqkey, ← hc]
          exact List.mem_map_of_mem (·.1) hx
        have hfilter : m.filter (fun p => p.1 ≠ gid) = m₁ ++ m₂ := by
          rw [hm, List.filter_append, List.filter_cons]
          rw [if_neg (by simp [hqkey])]
          congr 1
          · apply List.filter_eq_self.mpr
            intro x hx
            simpa using hm₁' x hx
          · apply List.filter_eq_self.mpr
            intro x hx
            simpa using hgid_m₂ x hx
        have hnd' : ((m₁ ++ m₂).map (·.1)).Nodup := by
          rw [hm] at hnd
          rw [List.map_append, List.map_cons] at hnd
          rw [List.map_append]
          exact (List.nodup_cons.mp (List.nodup_middle.mp hnd)).2
        have hihr := ih (m₁ ++ m₂) hnd'
        have hihr' : ((processGroupOrder rest (m₁ ++ m₂)).1 ++
            collectRemaining (processGroupOrder rest (m₁ ++ m₂)).2).Perm
              (collectRemaining m₁ ++ collectRemaining m₂) := by
          rw [← collectRemaining_append]
          exact hihr
        have hCRm : collectRemaining m =
            collectRemaining m₁ ++ (collectFromNode n ++ collectRemaining m₂) := by
          rw [hm, collectRemaining_append]
          congr 1
          rw [show collectRemaining (q :: m₂) =
            (if q.2.type = .group then collectFromNode q.2 else []) ++ collectRemaining m₂ by
              simp [collectRemaining]]
          rw [hq2, if_pos hty]
        rw [hfilter, hCRm, List.append_assoc]
        refine List.Perm.trans (List.Perm.append_left _ hihr') ?_
        rw [← List.append_assoc, ← List.append_assoc]
        exact List.Perm.append_right _ List.perm_append_comm
      · rw [if_neg hty]
        exact ih m hnd

/-- The remaining-pass output is exactly the non-note bubbles of the
flow's group nodes (the full flow collection, in node order). -/
theorem collectRemaining_nodeMap (nodes : List FlowNode) :
    collectRemaining (nodes.map fun n => (n.id, n)) =
      (getAllBubblesFromFlowNodes nodes).filter fun b => ¬ isVisualOnlyBubble b.type := by
  induction nodes with
  | nil => rfl
  | cons n nodes ih =>
    simp only [List.map_cons]
    rw [show collectRemaining ((n.id, n) :: nodes.map fun n => (n.id, n)) =
      (if n.type = .group then collectFromNode n else []) ++
        collectRemaining (nodes.map fun n => (n.id, n)) by simp [collectRemaining]]
    rw [ih]
    rw [show getAllBubblesFromFlowNodes (n :: nodes) =
      (if n.type = .group then n.data.bubbles.getD [] else []) ++
        getAllBubblesFromFlowNodes nodes by simp [getAllBubblesFromFlowNodes]]
    rw [List.filter_append]
    congr 1
    by_cases h : n.type = FlowNodeType.group
    · rw [if_pos h, if_pos h]
      rfl
    · rw [if_neg h, if_neg h]
      rfl

/-- The collected bubbles are a permutation of the flow's non-note
bubbles, for any requested group order (distinct node ids assumed). -/
theorem collect_perm (nodes : List FlowNode) (order : List Str)
    (hnodes : (nodes.map (·.id)).Nodup) :
    (collectBubblesInOrder nodes order).Perm
      ((getAllBubblesFromFlowNodes nodes).filter fun b => ¬ isVisualOnlyBubble b.type) := by
  have hkeys : ((nodes.map fun n => (n.id, n)).map (·.1)).Nodup := by
    rw [List.map_map]
    exact hnodes
  have := processGroupOrder_perm order (nodes.map fun n => (n.id, n)) hkeys
  rw [collectRemaining_nodeMap] at this
  exact this

theorem entryGet_map {f : FlowNode → FlowNode} (m : List (Str × FlowNode)) (k : Str) :
    entryGet (m.map fun p => (p.1, f p.2)) k = (entryGet m k).map f := by
  unfold entryGet
  rw [List.find?_map]
  rw [show ((fun p => decide (p.1 = k)) ∘ fun p => (p.1, f p.2)) =
    (fun p : Str × FlowNode => decide (p.1 = k)) from rfl]
  cases m.find? fun p => p.1 = k <;> rfl

theorem filter_key_map {f : FlowNode → FlowNode} (m : List (Str × FlowNode)) (gid : Str) :
    (m.map fun p => (p.1, f p.2)).filter (fun p => p.1 ≠ gid) =
      (m.filter fun p => p.1 ≠ gid).map fun p => (p.1, f p.2) := by
  rw [List.filter_map]
  rfl

/-- Pushing a node transform through the ordered collection pass: if the
transform preserves ids and types and acts on each group node's collected
bubbles as a fixed list homomorphism `T`, the collected output is `T` of
the original and the leftover map is transformed pointwise. -/
theorem processGroupOrder_map {f : FlowNode → FlowNode} {T : List BubbleData → List BubbleData}
    (hid : ∀ n, (f n).id = n.id) (hty : ∀ n, (f n).type = n.type)
    (hT : ∀ a b, T (a ++ b) = T a ++ T b) (hTnil : T [] = []) :
    ∀ (order : List Str) (m : List (Str × FlowNode)),
      (∀ p ∈ m, p.2.type = .group → collectFromNode (f p.2) = T (collectFromNode p.2)) →
      processGroupOrder order (m.map fun p => (p.1, f p.2)) =
        (T (processGroupOrder order m).1,
          (processGroupOrder order m).2.map fun p => (p.1, f p.2)) := by
  intro order
  induction order with
  | nil =>
    intro m _
    simp [processGroupOrder, hTnil]
  | cons gid rest ih =>
    intro m hcf
    rw [processGroupOrder_cons, processGroupOrder_cons, entryGet_map]
    cases hfind : entryGet m gid with
    | none =>
      simp only [Option.map_none']
      exact ih m hcf
    | some n =>
      simp only [Option.map_some']
      have hmem : ∃ q, q ∈ m ∧ q.2 = n := by
        unfold entryGet at hfind
        cases hf : m.find? fun p => p.1 = gid with
        | none => rw [hf] at hfind; simp at hfind
        | some q =>
          rw [hf] at hfind
          simp only [Option.map_some'] at hfind
          exact ⟨q, List.mem_of_find?_eq_some hf, by injection hfind⟩
      obtain ⟨q, hqm, hqn⟩ := hmem
      by_cases hty' : n.type = FlowNodeType.group
      · rw [if_pos (by rw [hty n]; exact hty'), if_pos hty']
        have hcfn : collectFromNode (f n) = T (collectFromNode n) := by
          subst hqn
          exact hcf q hqm hty'
        rw [filter_key_map]
        rw [ih (m.filter fun p => p.1 ≠ gid)
          (fun p hp hg => hcf p (List.mem_of_mem_filter hp) hg)]
        simp only [hcfn, hT]
      · rw [if_neg (by rw [hty n]; exact hty'), if_neg hty']
        exact ih m hcf

theorem collectRemaining_map {f : FlowNode → FlowNode} {T : List BubbleData → List BubbleData}
    (hty : ∀ n, (f n).type = n.type) (hT : ∀ a b, T (a ++ b) = T a ++ T b)
    (hTnil : T [] = []) :
    ∀ (m : List (Str × FlowNode)),
      (∀ p ∈ m, p.2.type = .group → collectFromNode (f p.2) = T (collectFromNode p.2)) →
      collectRemaining (m.map fun p => (p.1, f p.2)) = T (collectRemaining m) := by
  intro m
  induction m with
  | nil => intro _; simp [collectRemaining, hTnil]
  | cons p m ih =>
    intro hcf
    simp only [List.map_cons]
    rw [show collectRemaining ((p.1, f p.2) :: m.map fun p => (p.1, f p.2)) =
      (if (f p.2).type = .group then collectFromNode (f p.2) else []) ++
        collectRemaining (m.map fun p => (p.1, f p.2)) by simp [collectRemaining]]
    rw [show collectRemaining (p :: m) =
      (if p.2.type = .group then collectFromNode p.2 else []) ++
        collectRemaining m by simp [collectRemaining]]
    rw [hT, ih (fun x hx hg => hcf x (List.mem_cons_of_mem p hx) hg)]
    congr 1
    rw [hty p.2]
    by_cases hg : p.2.type = FlowNodeType.group
    · rw [if_pos hg, if_pos hg, hcf p (List.mem_cons_self p m) hg]
    · rw [if_neg hg, if_neg hg, hTnil]

theorem processGroupOrder_snd_subset :
    ∀ (order : List Str) (m : List (Str × FlowNode)) (p : Str × FlowNode),
      p ∈ (processGroupOrder order m).2 → p ∈ m := by
  intro order
  induction order with
  | nil => intro m p hp; exact hp
  | cons gid rest ih =>
    intro m p hp
    rw [processGroupOrder_cons] at hp
    split at hp
    · exact ih m p hp
    · split at hp
      · exact List.mem_of_mem_filter (ih _ p hp)
      · exact ih m p hp

/-- Pushing a node transform through the full collection. -/
theorem collectBubblesInOrder_map {f : FlowNode → FlowNode}
    {T : List BubbleData → List BubbleData}
    (hid : ∀ n, (f n).id = n.id) (hty : ∀ n, (f n).type = n.type)
    (hT : ∀ a b, T (a ++ b) = T a ++ T b) (hTnil : T [] = [])
    (nodes : List FlowNode) (order : List Str)
    (hcf : ∀ n ∈ nodes, n.type = .group → collectFromNode (f n) = T (collectFromNode n)) :
    collectBubblesInOrder (nodes.map f) order = T (collectBubblesInOrder nodes order) := by
  unfold collectBubblesInOrder
  have hmap : (nodes.map f).map (fun n => (n.id, n)) =
      (nodes.map fun n => (n.id, n)).map fun p => (p.1, f p.2) := by
    rw [List.map_map, List.map_map]
    apply List.map_congr_left
    intro n _
    simp [hid n]
  rw [hmap]
  have hcf' : ∀ p ∈ (nodes.map fun n => (n.id, n)), p.2.type = .group →
      collectFromNode (f p.2) = T (collectFromNode p.2) := by
    intro p hp hg
    obtain ⟨n, hn, rfl⟩ := List.mem_map.mp hp
    exact hcf n hn hg
  rw [processGroupOrder_map hid hty hT hTnil _ _ hcf']
  show T (processGroupOrder order (nodes.map fun n => (n.id, n))).1 ++
      collectRemaining ((processGroupOrder order (nodes.map fun n => (n.id, n))).2.map
        fun p => (p.1, f p.2)) =
    T ((processGroupOrder order (nodes.map fun n => (n.id, n))).1 ++
      collectRemaining (processGroupOrder order (nodes.map fun n => (n.id, n))).2)
  rw [collectRemaining_map hty hT hTnil _ (fun p hp hg =>
    hcf' p (processGroupOrder_snd_subset order _ p hp) hg)]
  rw [hT]

/-- The group order resolver depends only on node ids, types and
positions, so a transform preserving those leaves it unchanged. -/
theorem calculateGroupOrder_map {f : FlowNode → FlowNode}
    (hid : ∀ n, (f n).id = n.id) (hty : ∀ n, (f n).type = n.type)
    (hpos : ∀ n, (f n).position = n.position)
    (nodes : List FlowNode) (edges : List FlowEdge) :
    calculateGroupOrder (nodes.map f) edges = calculateGroupOrder nodes edges := by
  unfold calculateGroupOrder
  have h1 : (nodes.map f).filter (fun n => n.type = FlowNodeType.group) =
      (nodes.filter fun n => n.type = FlowNodeType.group).map f := by
    rw [List.filter_map]
    congr 1
    apply List.filter_congr
    intro n _
    simp [Function.comp, hty n]
  rw [h1]
  have h2 : ((nodes.filter fun n => n.type = FlowNodeType.group).map f).map (·.id) =
      (nodes.filter fun n => n.type = FlowNodeType.group).map (·.id) := by
    rw [List.map_map]
    apply List.map_congr_left
    intro n _
    simp [hid n]
  have h3 : ((nodes.filter fun n => n.type = FlowNodeType.group).map f).map
        (fun n => (n.id, n.position)) =
      (nodes.filter fun n => n.type = FlowNodeType.group).map
        (fun n => (n.id, n.position)) := by
    rw [List.map_map]
    apply List.map_congr_left
    intro n _
    simp [hid n, hpos n]
  have h4 : ((nodes.filter fun n => n.type = FlowNodeType.group).map f).isEmpty =
      (nodes.filter fun n => n.type = FlowNodeType.group).isEmpty := by
    cases nodes.filter fun n => n.type = FlowNodeType.group <;> simp
  simp only [h2, h3, h4]

theorem updFun_type (u : List (Str × Str)) (b : BubbleData) :
    (updFun u b).type = b.type := by
  unfold updFun
  cases mapGet u b.id <;> rfl

theorem updFun_id_eq (u : List (Str × Str)) (b : BubbleData) :
    (updFun u b).id = b.id := by
  unfold updFun
  cases mapGet u b.id <;> rfl

theorem updFun_nil (b : BubbleData) : updFun [] b = b := rfl

theorem applyColumnUpdates_eq_map (nodes : List FlowNode) (u : List (Str × Str)) :
    applyColumnUpdates nodes u = nodes.map (applyNodeU u) := rfl

theorem applyNodeU_id (u : List (Str × Str)) (n : FlowNode) :
    (applyNodeU u n).id = n.id := by
  unfold applyNodeU
  split <;> rfl

theorem applyNodeU_type (u : List (Str × Str)) (n : FlowNode) :
    (applyNodeU u n).type = n.type := by
  unfold applyNodeU
  split <;> rfl

theorem applyNodeU_position (u : List (Str × Str)) (n : FlowNode) :
    (applyNodeU u n).position = n.position := by
  unfold applyNodeU
  split <;> rfl

theorem collectFromNode_applyNodeU (u : List (Str × Str)) (n : FlowNode)
    (hg : n.type = .group) :
    collectFromNode (applyNodeU u n) = (collectFromNode n).map (updFun u) := by
  unfold applyNodeU collectFromNode
  rw [if_pos hg]
  simp only [Option.getD_some]
  rw [List.filter_map]
  congr 1
  apply List.filter_congr
  intro b _
  simp [Function.comp, isVisualOnlyBubble, updFun_type]

/-- Collecting after an update application collects the updated bubbles
in the same order. -/
theorem collect_applyColumnUpdates (nodes : List FlowNode) (u : List (Str × Str))
    (order : List Str) :
    collectBubblesInOrder (applyColumnUpdates nodes u) order =
      (collectBubblesInOrder nodes order).map (updFun u) := by
  rw [applyColumnUpdates_eq_map]
  exact collectBubblesInOrder_map (applyNodeU_id u) (applyNodeU_type u)
    (fun a b => List.map_append _ a b) rfl nodes order
    (fun n _ hg => collectFromNode_applyNodeU u n hg)

theorem applyNormalizationToNodes_def (nodes : List FlowNode) (edges : List FlowEdge) :
    applyNormalizationToNodes nodes edges =
      if (normalizeColumnsWithGroupOrder nodes
          ((calculateGroupOrder nodes edges).map (·.groupId))).isEmpty
      then nodes
      else applyColumnUpdates nodes
        (normalizeColumnsWithGroupOrder nodes
          ((calculateGroupOrder nodes edges).map (·.groupId))) := rfl

theorem collect_ids_nodup (nodes : List FlowNode) (order : List Str)
    (hnodes : (nodes.map (·.id)).Nodup)
    (hbub : ((getAllBubblesFromFlowNodes nodes).map (·.id)).Nodup) :
    ((collectBubblesInOrder nodes order).map (·.id)).Nodup := by
  have hperm := (collect_perm nodes order hnodes).map (·.id)
  rw [List.Perm.nodup_iff hperm]
  apply List.Nodup.sublist _ hbub
  exact List.Sublist.map _ (List.filter_sublist _)

/-- The slot map computed by a full normalization pass, under the flow's
canonical group order, is exactly the canonical two-counter walk result. -/
theorem applyNorm_slots (nodes : List FlowNode) (edges : List FlowEdge)
    (hnodes : (nodes.map (·.id)).Nodup)
    (hbub : ((getAllBubblesFromFlowNodes nodes).map (·.id)).Nodup) :
    (collectBubblesInOrder (applyNormalizationToNodes nodes edges)
        ((calculateGroupOrder (applyNormalizationToNodes nodes edges) edges).map
          (·.groupId))).map
      (fun b => b.data.supabaseColumn.bind parseColumn) =
      (walkTargets ((collectBubblesInOrder nodes
          ((calculateGroupOrder nodes edges).map (·.groupId))).map bubbleKind) 0 0).map
        (fun p => parseColumn (buildColumn p.1 p.2)) := by
  have hnd : ((collectBubblesInOrder nodes
      ((calculateGroupOrder nodes edges).map (·.groupId))).map (·.id)).Nodup :=
    collect_ids_nodup nodes _ hnodes hbub
  rw [applyNormalizationToNodes_def]
  by_cases hemp : (normalizeColumnsWithGroupOrder nodes
      ((calculateGroupOrder nodes edges).map (·.groupId))).isEmpty
  · rw [if_pos hemp]
    have hu : normalizeColumnsWithGroupOrder nodes
        ((calculateGroupOrder nodes edges).map (·.groupId)) = [] := by
      rwa [List.isEmpty_iff] at hemp
    have h1 := updFun_normLoop hnd 0 0
    rw [show normLoop (collectBubblesInOrder nodes
        ((calculateGroupOrder nodes edges).map (·.groupId))) 0 0 =
      normalizeColumnsWithGroupOrder nodes
        ((calculateGroupOrder nodes edges).map (·.groupId)) from rfl, hu] at h1
    have hmapnil : (collectBubblesInOrder nodes
        ((calculateGroupOrder nodes edges).map (·.groupId))).map (updFun []) =
        collectBubblesInOrder nodes
          ((calculateGroupOrder nodes edges).map (·.groupId)) := by
      rw [List.map_congr_left (fun b _ => updFun_nil b)]
      exact List.map_id _
    rw [hmapnil] at h1
    conv_lhs => rw [h1]
    exact applyWalk_slots _ 0 0
  · rw [if_neg hemp]
    have horder : calculateGroupOrder (applyColumnUpdates nodes
        (normalizeColumnsWithGroupOrder nodes
          ((calculateGroupOrder nodes edges).map (·.groupId)))) edges =
        calculateGroupOrder nodes edges := by
      rw [applyColumnUpdates_eq_map]
      exact calculateGroupOrder_map (applyNodeU_id _) (applyNodeU_type _)
        (applyNodeU_position _) nodes edges
    rw [horder, collect_applyColumnUpdates]
    rw [show normalizeColumnsWithGroupOrder nodes
        ((calculateGroupOrder nodes edges).map (·.groupId)) =
      normLoop (collectBubblesInOrder nodes
        ((calculateGroupOrder nodes edges).map (·.groupId))) 0 0 from rfl]
    rw [updFun_normLoop hnd 0 0]
    exact applyWalk_slots _ 0 0

/-- Per-kind bubble count of the collected traversal, as a count over the
full bubble list (distinct node ids assumed). -/
theorem collect_kind_count (k : ColumnKind) (nodes : List FlowNode) (order : List Str)
    (hnodes : (nodes.map (·.id)).Nodup) :
    ((collectBubblesInOrder nodes order).map bubbleKind).count k =
      ((getAllBubblesFromFlowNodes nodes).filter fun b =>
        ¬ isVisualOnlyBubble b.type).countP (fun b => bubbleKind b = k) := by
  rw [List.count_eq_countP, List.countP_map]
  rw [(collect_perm nodes order hnodes).countP_eq]
  apply List.countP_congr
  intro b _
  rfl

/-- The flow produced by a normalization pass collects to exactly the
canonical walk result (distinct node and bubble ids assumed). -/
theorem collect_applyNorm (nodes : List FlowNode) (edges : List FlowEdge)
    (hnodes : (nodes.map (·.id)).Nodup)
    (hbub : ((getAllBubblesFromFlowNodes nodes).map (·.id)).Nodup) :
    collectBubblesInOrder (applyNormalizationToNodes nodes edges)
        ((calculateGroupOrder (applyNormalizationToNodes nodes edges) edges).map
          (·.groupId)) =
      applyWalk (collectBubblesInOrder nodes
        ((calculateGroupOrder nodes edges).map (·.groupId))) 0 0 := by
  have hnd : ((collectBubblesInOrder nodes
      ((calculateGroupOrder nodes edges).map (·.groupId))).map (·.id)).Nodup :=
    collect_ids_nodup nodes _ hnodes hbub
  rw [applyNormalizationToNodes_def]
  by_cases hemp : (normalizeColumnsWithGroupOrder nodes
      ((calculateGroupOrder nodes edges).map (·.groupId))).isEmpty
  · rw [if_pos hemp]
    have hu : normalizeColumnsWithGroupOrder nodes
        ((calculateGroupOrder nodes edges).map (·.groupId)) = [] := by
      rwa [List.isEmpty_iff] at hemp
    have h1 := updFun_normLoop hnd 0 0
    rw [show normLoop (collectBubblesInOrder nodes
        ((calculateGroupOrder nodes edges).map (·.groupId))) 0 0 =
      normalizeColumnsWithGroupOrder nodes
        ((calculateGroupOrder nodes edges).map (·.groupId)) from rfl, hu] at h1
    have hmapnil : (collectBubblesInOrder nodes
        ((calculateGroupOrder nodes edges).map (·.groupId))).map (updFun []) =
        collectBubblesInOrder nodes
          ((calculateGroupOrder nodes edges).map (·.groupId)) := by
      rw [List.map_congr_left (fun b _ => updFun_nil b)]
      exact List.map_id _
    rw [hmapnil] at h1
    exact h1
  · rw [if_neg hemp]
    have horder : calculateGroupOrder (applyColumnUpdates nodes
        (normalizeColumnsWithGroupOrder nodes
          ((calculateGroupOrder nodes edges).map (·.groupId)))) edges =
        calculateGroupOrder nodes edges := by
      rw [applyColumnUpdates_eq_map]
      exact calculateGroupOrder_map (applyNodeU_id _) (applyNodeU_type _)
        (applyNodeU_position _) nodes edges
    rw [horder, collect_applyColumnUpdates]
    rw [show normalizeColumnsWithGroupOrder nodes
        ((calculateGroupOrder nodes edges).map (·.groupId)) =
      normLoop (collectBubblesInOrder nodes
        ((calculateGroupOrder nodes edges).map (·.groupId))) 0 0 from rfl]
    rw [updFun_normLoop hnd 0 0]

/-- Re-running the two-counter walk's update computation on the walk's own
output produces no updates, as long as the fresh indexes stay within the
parse range. -/
theorem normLoop_applyWalk_nil : ∀ (bs : List BubbleData) (mC tC : Nat),
    mC + (bs.map bubbleKind).count ColumnKind.M ≤ 50 →
    tC + (bs.map bubbleKind).count ColumnKind.T ≤ 50 →
    normLoop (applyWalk bs mC tC) mC tC = [] := by
  intro bs
  induction bs with
  | nil => intro mC tC _ _; rfl
  | cons b bs ih =>
    intro mC tC hM hT
    rcases hkind : getColumnKindForBubble b.type with _ | _
    case M =>
      have hcM : ((b :: bs).map bubbleKind).count ColumnKind.M =
          (bs.map bubbleKind).count ColumnKind.M + 1 := by
        simp [List.count_cons, bubbleKind, hkind]
      have hcT : ((b :: bs).map bubbleKind).count ColumnKind.T =
          (bs.map bubbleKind).count ColumnKind.T := by
        simp [List.count_cons, bubbleKind, hkind]
      rw [hcM] at hM
      rw [hcT] at hT
      rw [applyWalk_cons_M hkind]
      by_cases hcur : currentNormalizedCol b = some (buildColumn ColumnKind.M (mC + 1))
      · rw [if_pos hcur, normLoop_cons_M hkind, if_pos hcur,
          ih (mC + 1) tC (by omega) (by omega)]
        rfl
      · rw [if_neg hcur]
        have hknd : getColumnKindForBubble
            (setColumn (buildColumn ColumnKind.M (mC + 1)) b).type = ColumnKind.M := by
          rw [setColumn_type]; exact hkind
        have hcur2 : currentNormalizedCol (setColumn (buildColumn ColumnKind.M (mC + 1)) b) =
            some (buildColumn ColumnKind.M (mC + 1)) := by
          rw [currentNormalizedCol_setColumn,
            parseColumn_buildColumn (by omega) (by omega)]
          rfl
        rw [normLoop_cons_M hknd, if_pos hcur2, ih (mC + 1) tC (by omega) (by omega)]
        rfl
    case T =>
      have hcM : ((b :: bs).map bubbleKind).count ColumnKind.M =
          (bs.map bubbleKind).count ColumnKind.M := by
        simp [List.count_cons, bubbleKind, hkind]
      have hcT : ((b :: bs).map bubbleKind).count ColumnKind.T =
          (bs.map bubbleKind).count ColumnKind.T + 1 := by
        simp [List.count_cons, bubbleKind, hkind]
      rw [hcM] at hM
      rw [hcT] at hT
      rw [applyWalk_cons_T hkind]
      by_cases hcur : currentNormalizedCol b = some (buildColumn ColumnKind.T (tC + 1))
      · rw [if_pos hcur, normLoop_cons_T hkind, if_pos hcur,
          ih mC (tC + 1) (by omega) (by omega)]
        rfl
      · rw [if_neg hcur]
        have hknd : getColumnKindForBubble
            (setColumn (buildColumn ColumnKind.T (tC + 1)) b).type = ColumnKind.T := by
          rw [setColumn_type]; exact hkind
        have hcur2 : currentNormalizedCol (setColumn (buildColumn ColumnKind.T (tC + 1)) b) =
            some (buildColumn ColumnKind.T (tC + 1)) := by
          rw [currentNormalizedCol_setColumn,
            parseColumn_buildColumn (by omega) (by omega)]
          rfl
        rw [normLoop_cons_T hknd, if_pos hcur2, ih mC (tC + 1) (by omega) (by omega)]
        rfl

theorem walkTargets_countP_M (ks : List ColumnKind) (m t : Nat) :
    (walkTargets ks m t).countP (fun p => p.1 = ColumnKind.M) = ks.count ColumnKind.M := by
  rw [List.countP_eq_length_filter]
  have := congrArg List.length (walkTargets_filter_M ks m t)
  simpa using this

theorem walkTargets_countP_T (ks : List ColumnKind) (m t : Nat) :
    (walkTargets ks m t).countP (fun p => p.1 = ColumnKind.T) = ks.count ColumnKind.T := by
  rw [List.countP_eq_length_filter]
  have := congrArg List.length (walkTargets_filter_T ks m t)
  simpa using this

/-- C4: for every flow (with distinct node and step ids, within the data
model's 50-slots-per-kind budget), after full normalization
(`normalizeColumnsWithGroupOrder` applied through
`applyNormalizationToNodes` under the flow's canonical group order) every
non-annotation step carries a valid slot, no two non-annotation steps
carry the same (kind, index) slot, and the assigned indexes of each kind
are gapless 1..n in traversal order. -/
theorem c4_slot_uniqueness_gapless (nodes : List FlowNode) (edges : List FlowEdge)
    (hnodes : (nodes.map (·.id)).Nodup)
    (hbub : ((getAllBubblesFromFlowNodes nodes).map (·.id)).Nodup)
    (hM : ((getAllBubblesFromFlowNodes nodes).filter fun b =>
        ¬ isVisualOnlyBubble b.type).countP (fun b => bubbleKind b = ColumnKind.M) ≤ 50)
    (hT : ((getAllBubblesFromFlowNodes nodes).filter fun b =>
        ¬ isVisualOnlyBubble b.type).countP (fun b => bubbleKind b = ColumnKind.T) ≤ 50) :
    ∀ slots, slots = (collectBubblesInOrder (applyNormalizationToNodes nodes edges)
        ((calculateGroupOrder (applyNormalizationToNodes nodes edges) edges).map
          (·.groupId))).map (fun b => b.data.supabaseColumn.bind parseColumn) →
      (∀ s ∈ slots, s.isSome = true) ∧ slots.Nodup ∧
      ((slots.filterMap id).filter (fun p => p.1 = ColumnKind.M)).map (·.2) =
        List.range' 1 ((slots.filterMap id).countP fun p => p.1 = ColumnKind.M) ∧
      ((slots.filterMap id).filter (fun p => p.1 = ColumnKind.T)).map (·.2) =
        List.range' 1 ((slots.filterMap id).countP fun p => p.1 = ColumnKind.T) := by
  intro slots hslots
  set bs := collectBubblesInOrder nodes
    ((calculateGroupOrder nodes edges).map (·.groupId)) with hbs
  set ks := bs.map bubbleKind with hks
  have hcntM : ks.count ColumnKind.M ≤ 50 := by
    rw [hks, List.count_eq_countP, List.countP_map]
    have hperm := collect_perm nodes ((calculateGroupOrder nodes edges).map (·.groupId)) hnodes
    rw [hperm.countP_eq]
    calc ((getAllBubblesFromFlowNodes nodes).filter fun b =>
          ¬ isVisualOnlyBubble b.type).countP ((fun k => k = ColumnKind.M) ∘ bubbleKind)
        = ((getAllBubblesFromFlowNodes nodes).filter fun b =>
          ¬ isVisualOnlyBubble b.type).countP (fun b => bubbleKind b = ColumnKind.M) := by
          apply List.countP_congr
          intro b _
          rfl
      _ ≤ 50 := hM
  have hcntT : ks.count ColumnKind.T ≤ 50 := by
    rw [hks, List.count_eq_countP, List.countP_map]
    have hperm := collect_perm nodes ((calculateGroupOrder nodes edges).map (·.groupId)) hnodes
    rw [hperm.countP_eq]
    calc ((getAllBubblesFromFlowNodes nodes).filter fun b =>
          ¬ isVisualOnlyBubble b.type).countP ((fun k => k = ColumnKind.T) ∘ bubbleKind)
        = ((getAllBubblesFromFlowNodes nodes).filter fun b =>
          ¬ isVisualOnlyBubble b.type).countP (fun b => bubbleKind b = ColumnKind.T) := by
          apply List.countP_congr
          intro b _
          rfl
      _ ≤ 50 := hT
  have hmain : slots = (walkTargets ks 0 0).map fun p => parseColumn (buildColumn p.1 p.2) :=
    hslots.trans (applyNorm_slots nodes edges hnodes hbub)
  have hsome : slots = (walkTargets ks 0 0).map some := by
    rw [hmain]
    apply List.map_congr_left
    intro p hp
    have hgt := walkTargets_mem_gt p hp
    have hle := walkTargets_mem_le p hp
    rcases hpk : p.1 with _ | _
    case M =>
      have h1 := hgt.1 hpk
      have h2 := hle.1 hpk
      rw [parseColumn_buildColumn (by omega) (by omega)]
      exact congrArg some (Prod.ext hpk.symm rfl)
    case T =>
      have h1 := hgt.2 hpk
      have h2 := hle.2 hpk
      rw [parseColumn_buildColumn (by omega) (by omega)]
      exact congrArg some (Prod.ext hpk.symm rfl)
  have hfm : slots.filterMap id = walkTargets ks 0 0 := by
    rw [hsome, List.filterMap_map]
    simpa using List.filterMap_some (walkTargets ks 0 0)
  refine ⟨?_, ?_, ?_, ?_⟩
  · intro s hs
    rw [hsome] at hs
    obtain ⟨p, _, rfl⟩ := List.mem_map.mp hs
    rfl
  · rw [hsome]
    exact (walkTargets_nodup ks 0 0).map (Option.some_injective _)
  · rw [hfm, walkTargets_countP_M, walkTargets_filter_M]
  · rw [hfm, walkTargets_countP_T, walkTargets_filter_T]

/-- Witness for C4 on the concrete one-group, four-step flow `demoNodes`. -/
theorem c4_slot_uniqueness_gapless_witness :
    (demoNodes.map (·.id)).Nodup ∧
    ((getAllBubblesFromFlowNodes demoNodes).map (·.id)).Nodup ∧
    ((getAllBubblesFromFlowNodes demoNodes).filter fun b =>
        ¬ isVisualOnlyBubble b.type).countP (fun b => bubbleKind b = ColumnKind.M) ≤ 50 ∧
    ((getAllBubblesFromFlowNodes demoNodes).filter fun b =>
        ¬ isVisualOnlyBubble b.type).countP (fun b => bubbleKind b = ColumnKind.T) ≤ 50 ∧
    (∀ slots, slots = (collectBubblesInOrder (applyNormalizationToNodes demoNodes [])
        ((calculateGroupOrder (applyNormalizationToNodes demoNodes []) []).map
          (·.groupId))).map (fun b => b.data.supabaseColumn.bind parseColumn) →
      (∀ s ∈ slots, s.isSome = true) ∧ slots.Nodup ∧
      ((slots.filterMap id).filter (fun p => p.1 = ColumnKind.M)).map (·.2) =
        List.range' 1 ((slots.filterMap id).countP fun p => p.1 = ColumnKind.M) ∧
      ((slots.filterMap id).filter (fun p => p.1 = ColumnKind.T)).map (·.2) =
        List.range' 1 ((slots.filterMap id).countP fun p => p.1 = ColumnKind.T)) :=
  ⟨by decide, by decide, by decide, by decide,
   c4_slot_uniqueness_gapless demoNodes [] (by decide) (by decide) (by decide) (by decide)⟩

/-- C5: normalization is idempotent.  For every flow (with distinct node
and step ids, within the 50-slots-per-kind budget), re-running
`normalizeColumnsWithGroupOrder` on the output of
`applyNormalizationToNodes` under its canonical group order produces an
empty update map, and hence a second `applyNormalizationToNodes` pass
returns the once-normalized nodes unchanged. -/
theorem c5_normalization_idempotent (nodes : List FlowNode) (edges : List FlowEdge)
    (hnodes : (nodes.map (·.id)).Nodup)
    (hbub : ((getAllBubblesFromFlowNodes nodes).map (·.id)).Nodup)
    (hM : ((getAllBubblesFromFlowNodes nodes).filter fun b =>
        ¬ isVisualOnlyBubble b.type).countP (fun b => bubbleKind b = ColumnKind.M) ≤ 50)
    (hT : ((getAllBubblesFromFlowNodes nodes).filter fun b =>
        ¬ isVisualOnlyBubble b.type).countP (fun b => bubbleKind b = ColumnKind.T) ≤ 50) :
    normalizeColumnsWithGroupOrder (applyNormalizationToNodes nodes edges)
      ((calculateGroupOrder (applyNormalizationToNodes nodes edges) edges).map
        (·.groupId)) = [] ∧
    applyNormalizationToNodes (applyNormalizationToNodes nodes edges) edges =
      applyNormalizationToNodes nodes edges := by
  have hcM : ((collectBubblesInOrder nodes
      ((calculateGroupOrder nodes edges).map (·.groupId))).map bubbleKind).count
        ColumnKind.M ≤ 50 := by
    rw [collect_kind_count ColumnKind.M nodes _ hnodes]
    exact hM
  have hcT : ((collectBubblesInOrder nodes
      ((calculateGroupOrder nodes edges).map (·.groupId))).map bubbleKind).count
        ColumnKind.T ≤ 50 := by
    rw [collect_kind_count ColumnKind.T nodes _ hnodes]
    exact hT
  have hz : normalizeColumnsWithGroupOrder (applyNormalizationToNodes nodes edges)
      ((calculateGroupOrder (applyNormalizationToNodes nodes edges) edges).map
        (·.groupId)) = [] := by
    rw [show normalizeColumnsWithGroupOrder (applyNormalizationToNodes nodes edges)
        ((calculateGroupOrder (applyNormalizationToNodes nodes edges) edges).map
          (·.groupId)) =
      normLoop (collectBubblesInOrder (applyNormalizationToNodes nodes edges)
        ((calculateGroupOrder (applyNormalizationToNodes nodes edges) edges).map
          (·.groupId))) 0 0 from rfl]
    rw [collect_applyNorm nodes edges hnodes hbub]
    exact normLoop_applyWalk_nil _ 0 0 (by omega) (by omega)
  refine ⟨hz, ?_⟩
  rw [applyNormalizationToNodes_def (applyNormalizationToNodes nodes edges) edges, hz]
  rfl

/-- Witness for C5 on the concrete one-group, four-step flow `demoNodes`. -/
theorem c5_normalization_idempotent_witness :
    (demoNodes.map (·.id)).Nodup ∧
    ((getAllBubblesFromFlowNodes demoNodes).map (·.id)).Nodup ∧
    ((getAllBubblesFromFlowNodes demoNodes).filter fun b =>
        ¬ isVisualOnlyBubble b.type).countP (fun b => bubbleKind b = ColumnKind.M) ≤ 50 ∧
    ((getAllBubblesFromFlowNodes demoNodes).filter fun b =>
        ¬ isVisualOnlyBubble b.type).countP (fun b => bubbleKind b = ColumnKind.T) ≤ 50 ∧
    (normalizeColumnsWithGroupOrder (applyNormalizationToNodes demoNodes [])
      ((calculateGroupOrder (applyNormalizationToNodes demoNodes []) []).map
        (·.groupId)) = [] ∧
    applyNormalizationToNodes (applyNormalizationToNodes demoNodes []) [] =
      applyNormalizationToNodes demoNodes []) :=
  ⟨by decide, by decide, by decide, by decide,
   c5_normalization_idempotent demoNodes [] (by decide) (by decide) (by decide) (by decide)⟩

theorem stripBubble_updFun (u : List (Str × Str)) (b : BubbleData)
    (hnote : isVisualOnlyBubble b.type = true → mapGet u b.id = none) :
    stripBubble (updFun u b) = stripBubble b := by
  by_cases hv : isVisualOnlyBubble b.type = true
  · unfold updFun
    rw [hnote hv]
  · unfold updFun
    cases hm : mapGet u b.id with
    | none => rfl
    | some c =>
      show stripBubble { b with data := { b.data with supabaseColumn := some c } } =
        stripBubble b
      unfold stripBubble
      rw [if_neg hv, if_neg hv]

theorem stripNode_applyNodeU (u : List (Str × Str)) (n : FlowNode)
    (hnote : n.type = FlowNodeType.group → ∀ b ∈ n.data.bubbles.getD [],
      isVisualOnlyBubble b.type = true → mapGet u b.id = none) :
    stripNode (applyNodeU u n) = stripNode n := by
  by_cases hg : n.type = FlowNodeType.group
  · have hb : ((n.data.bubbles.getD []).map (updFun u)).map stripBubble =
        (n.data.bubbles.getD []).map stripBubble := by
      rw [List.map_map]
      exact List.map_congr_left fun b hb => stripBubble_updFun u b (hnote hg b hb)
    simp only [applyNodeU, stripNode, hg, if_true, Option.getD_some]
    rw [hb]
  · unfold applyNodeU
    rw [if_neg hg]

/-- C10: normalization is a frame on everything but the slot columns of
non-annotation steps.  For every flow with distinct node and step ids,
stripping those columns before and after `applyNormalizationToNodes`
yields identical node lists: node ids, types, positions, sizes, group
titles, step order, step ids, kinds and payloads, and annotation nodes
and annotation steps (including their stored columns) are all unchanged;
the edge list is only read. -/
theorem c10_normalization_frame (nodes : List FlowNode) (edges : List FlowEdge)
    (hnodes : (nodes.map (·.id)).Nodup)
    (hbub : ((getAllBubblesFromFlowNodes nodes).map (·.id)).Nodup) :
    stripSlots (applyNormalizationToNodes nodes edges) = stripSlots nodes := by
  rw [applyNormalizationToNodes_def]
  by_cases hemp : (normalizeColumnsWithGroupOrder nodes
      ((calculateGroupOrder nodes edges).map (·.groupId))).isEmpty
  · rw [if_pos hemp]
  · rw [if_neg hemp]
    rw [applyColumnUpdates_eq_map]
    unfold stripSlots
    rw [List.map_map]
    apply List.map_congr_left
    intro n hn
    apply stripNode_applyNodeU
    intro hg b hb hv
    apply mapGet_not_mem_keys
    intro hmem
    have hkeys := normLoop_keys _ hmem
    obtain ⟨c, hc, hcid⟩ := List.mem_map.mp hkeys
    have hcmem := (collect_perm nodes
      ((calculateGroupOrder nodes edges).map (·.groupId)) hnodes).mem_iff.mp hc
    have hcfilter := List.mem_filter.mp hcmem
    have hcnot : ¬ isVisualOnlyBubble c.type = true := by
      simpa using hcfilter.2
    have hbget : b ∈ getAllBubblesFromFlowNodes nodes := by
      unfold getAllBubblesFromFlowNodes
      exact List.mem_flatMap.mpr ⟨n, hn, by rw [if_pos hg]; exact hb⟩
    have hbc : b = c :=
      List.inj_on_of_nodup_map hbub hbget hcfilter.1 hcid.symm
    exact hcnot (hbc ▸ hv)

/-- Witness for C10 on the concrete one-group, four-step flow
`demoNodes`. -/
theorem c10_normalization_frame_witness :
    (demoNodes.map (·.id)).Nodup ∧
    ((getAllBubblesFromFlowNodes demoNodes).map (·.id)).Nodup ∧
    stripSlots (applyNormalizationToNodes demoNodes []) = stripSlots demoNodes :=
  ⟨by decide, by decide, c10_normalization_frame demoNodes [] (by decide) (by decide)⟩

/-- The duplicate test holds exactly when some other step's stored column
normalizes to the requested slot. -/
theorem slotDupCheck_iff (allB : List BubbleData) (bubbleId normalized : Str) :
    slotDupCheck allB bubbleId normalized = true ↔
      ∃ b ∈ allB, b.id ≠ bubbleId ∧
        (b.data.supabaseColumn.bind parseColumn).map (fun p => buildColumn p.1 p.2) =
          some normalized := by
  unfold slotDupCheck
  rw [List.any_eq_true]
  constructor
  · rintro ⟨b, hb, hf⟩
    refine ⟨b, hb, ?_⟩
    by_cases hid : b.id = bubbleId
    · rw [if_pos hid] at hf
      cases hf
    · rw [if_neg hid] at hf
      refine ⟨hid, ?_⟩
      cases hc : b.data.supabaseColumn with
      | none => rw [hc] at hf; cases hf
      | some col =>
        rw [hc] at hf
        have hf2 : (match parseColumn col with
            | none => false
            | some p => decide (buildColumn p.1 p.2 = normalized)) = true := hf
        cases hpc : parseColumn col with
        | none => rw [hpc] at hf2; cases hf2
        | some p =>
          rw [hpc] at hf2
          have hbp := of_decide_eq_true hf2
          simp only [Option.some_bind]
          rw [hpc]
          simp only [Option.map_some']
          rw [hbp]
  · rintro ⟨b, hb, hid, hcol⟩
    refine ⟨b, hb, ?_⟩
    rw [if_neg hid]
    cases hc : b.data.supabaseColumn with
    | none => rw [hc] at hcol; simp at hcol
    | some col =>
      rw [hc] at hcol
      simp only [Option.some_bind] at hcol
      show (match parseColumn col with
        | none => false
        | some p => decide (buildColumn p.1 p.2 = normalized)) = true
      cases hpc : parseColumn col with
      | none => rw [hpc] at hcol; simp at hcol
      | some p =>
        rw [hpc] at hcol
        simp only [Option.map_some', Option.some.injEq] at hcol
        exact decide_eq_true hcol

/-- After a successful parse, the handler is the duplicate test followed
by the bubble lookup. -/
theorem handleChange_eq (allB : List BubbleData) (nodes : List FlowNode)
    (nodeId bubbleId column : Str) (k : ColumnKind) (i : Nat)
    (hp : parseColumn column = some (k, i)) :
    handleChangeBubbleColumn allB nodes nodeId bubbleId column =
      if slotDupCheck allB bubbleId (buildColumn k i)
      then ChangeColumnResult.duplicate (buildColumn k i)
      else
        match findTargetBubble nodes nodeId bubbleId with
        | none => ChangeColumnResult.notFound
        | some b => ChangeColumnResult.applied nodeId bubbleId
            { b.data with supabaseColumn := some (buildColumn k i) } := by
  unfold handleChangeBubbleColumn slotDupCheck findTargetBubble
  rw [hp]

/-- C8, counterexample: the handler has no kind-letter check.  The timer
step `c8Bubble` (slot kind `T`) requests the content slot `"M1"`; the
request parses, is no duplicate, and is applied rather than rejected,
contradicting the claim that a wrong-kind letter is rejected. -/
theorem c8_claim_counterexample :
    getColumnKindForBubble c8Bubble.type = ColumnKind.T ∧
    parseColumn ['M', '1'] = some (ColumnKind.M, 1) ∧
    handleChangeBubbleColumn [c8Bubble] c8Nodes ['G'] ['b'] ['M', '1'] =
      ChangeColumnResult.applied ['G'] ['b']
        { c8Bubble.data with supabaseColumn := some ['M', '1'] } := by
  have hbc : buildColumn ColumnKind.M 1 = ['M', '1'] := by
    rw [show buildColumn ColumnKind.M 1 = 'M' :: natDigits 1 from rfl, natDigits_one]
  refine ⟨by decide, by decide, ?_⟩
  rw [handleChange_eq [c8Bubble] c8Nodes ['G'] ['b'] ['M', '1'] ColumnKind.M 1 (by decide),
    hbc]
  decide

/-- C8, amended: a manual slot request is rejected as `invalidColumn`
exactly when the string fails the format (one `M`/`T` letter, one or two
digits, index in `[1, 50]`, after trim and uppercase); a parsed request
is rejected as `duplicate` exactly when another step's stored column
normalizes to the requested slot; a parsed, non-duplicate request whose
addressed bubble exists is applied — with no check that the kind letter
matches the step's slot kind. -/
theorem c8_amended_validation (allB : List BubbleData) (nodes : List FlowNode)
    (nodeId bubbleId column : Str) :
    (handleChangeBubbleColumn allB nodes nodeId bubbleId column =
        ChangeColumnResult.invalidColumn ↔ parseColumn column = none) ∧
    ∀ k i, parseColumn column = some (k, i) →
      ((handleChangeBubbleColumn allB nodes nodeId bubbleId column =
          ChangeColumnResult.duplicate (buildColumn k i)) ↔
        ∃ b ∈ allB, b.id ≠ bubbleId ∧
          (b.data.supabaseColumn.bind parseColumn).map (fun p => buildColumn p.1 p.2) =
            some (buildColumn k i)) ∧
      ∀ (b : BubbleData), (¬ ∃ b ∈ allB, b.id ≠ bubbleId ∧
            (b.data.supabaseColumn.bind parseColumn).map (fun p => buildColumn p.1 p.2) =
              some (buildColumn k i)) →
        findTargetBubble nodes nodeId bubbleId = some b →
        handleChangeBubbleColumn allB nodes nodeId bubbleId column =
          ChangeColumnResult.applied nodeId bubbleId
            { b.data with supabaseColumn := some (buildColumn k i) } := by
  refine ⟨?_, ?_⟩
  · cases hp : parseColumn column with
    | none =>
      have hres : handleChangeBubbleColumn allB nodes nodeId bubbleId column =
          ChangeColumnResult.invalidColumn := by
        unfold handleChangeBubbleColumn
        rw [hp]
      exact ⟨fun _ => rfl, fun _ => hres⟩
    | some p =>
      obtain ⟨k, i⟩ := p
      rw [handleChange_eq allB nodes nodeId bubbleId column k i hp]
      constructor
      · intro hres
        exfalso
        split at hres
        · cases hres
        · split at hres <;> cases hres
      · intro h
        exact Option.noConfusion h
  · intro k i hpk
    rw [handleChange_eq allB nodes nodeId bubbleId column k i hpk]
    constructor
    · constructor
      · intro hres
        by_cases hA : slotDupCheck allB bubbleId (buildColumn k i) = true
        · exact (slotDupCheck_iff allB bubbleId (buildColumn k i)).mp hA
        · exfalso
          rw [if_neg hA] at hres
          split at hres <;> cases hres
      · intro hex
        rw [if_pos ((slotDupCheck_iff allB bubbleId (buildColumn k i)).mpr hex)]
    · intro b hnotdup hfind
      have hA : ¬ slotDupCheck allB bubbleId (buildColumn k i) = true :=
        fun h => hnotdup ((slotDupCheck_iff allB bubbleId (buildColumn k i)).mp h)
      rw [if_neg hA, hfind]

/-- Witness for the amended C8 statement, instantiated at the timer step
requesting slot `"M1"`. -/
theorem c8_amended_validation_witness :
    ((handleChangeBubbleColumn [c8Bubble] c8Nodes ['G'] ['b'] ['M', '1'] =
        ChangeColumnResult.duplicate (buildColumn ColumnKind.M 1)) ↔
      ∃ b ∈ [c8Bubble], b.id ≠ ['b'] ∧
        (b.data.supabaseColumn.bind parseColumn).map (fun p => buildColumn p.1 p.2) =
          some (buildColumn ColumnKind.M 1)) ∧
    ∀ (b : BubbleData), (¬ ∃ b ∈ [c8Bubble], b.id ≠ ['b'] ∧
          (b.data.supabaseColumn.bind parseColumn).map (fun p => buildColumn p.1 p.2) =
            some (buildColumn ColumnKind.M 1)) →
      findTargetBubble c8Nodes ['G'] ['b'] = some b →
      handleChangeBubbleColumn [c8Bubble] c8Nodes ['G'] ['b'] ['M', '1'] =
        ChangeColumnResult.applied ['G'] ['b']
          { b.data with supabaseColumn := some (buildColumn ColumnKind.M 1) } :=
  (c8_amended_validation [c8Bubble] c8Nodes ['G'] ['b'] ['M', '1']).2 ColumnKind.M 1
    (by decide)

/-- C9: a `null`/empty or whitespace-only cell decodes to no step, and
every other cell whose trimmed string matches none of the recognized
prefixes (or exact strings) decodes to a plain message step whose content
is the whole trimmed string — never an error. -/
theorem c9_unrecognized_fallback (value columnName : Str) :
    (parseColumnValue value columnName = none ↔ trimStr value = []) ∧
    (trimStr value ≠ [] → matchesKnownPrefix (trimStr value) = false →
      parseColumnValue value columnName = some ⟨[], NodeType.message,
        { label := NODE_LABELS NodeType.message,
          supabaseColumn := some (upperStr columnName),
          content := some (trimStr value) }⟩) := by
  constructor
  · by_cases hv : value = []
    · subst hv
      have ht : trimStr ([] : Str) = [] := rfl
      simp [parseColumnValue, ht]
    · by_cases ht : trimStr value = []
      · simp [parseColumnValue, hv, ht]
      · simp [parseColumnValue, hv, ht]
  · intro ht hpfx
    have hv : value ≠ [] := fun h => ht (by rw [h]; rfl)
    rw [parseColumnValue, if_neg hv, if_neg ht]
    congr 1
    simp only [matchesKnownPrefix, Bool.or_eq_false_iff] at hpfx
    obtain ⟨⟨⟨⟨⟨⟨⟨⟨⟨⟨⟨⟨⟨⟨⟨⟨⟨⟨⟨⟨h1, h2⟩, h3⟩, h4⟩, h5⟩, h6⟩, h7⟩, h8⟩, h9⟩,
      h10⟩, h11⟩, h12⟩, h13⟩, h14⟩, h15⟩, h16⟩, h17⟩, h18⟩, h19⟩, h20⟩, h21⟩ := hpfx
    have h14n := of_decide_eq_false h14
    have h15n := of_decide_eq_false h15
    simp only [parseColumnValueCore, h1, h2, h3, h4, h5, h6, h7, h8, h9, h10, h11,
      h12, h13, h14n, h15n, h16, h17, h18, h19, h20, h21, Bool.false_eq_true,
      if_false]

/-- Witness for C9 on the unrecognized cell string `"hello"`. -/
theorem c9_unrecognized_fallback_witness :
    trimStr ("hello".toList) ≠ [] ∧
    matchesKnownPrefix (trimStr ("hello".toList)) = false ∧
    parseColumnValue ("hello".toList) ("a1".toList) = some ⟨[], NodeType.message,
      { label := NODE_LABELS NodeType.message,
        supabaseColumn := some (upperStr ("a1".toList)),
        content := some (trimStr ("hello".toList)) }⟩ :=
  ⟨by decide, by decide,
   (c9_unrecognized_fallback ("hello".toList) ("a1".toList)).2 (by decide) (by decide)⟩

/-! ## Codec round-trip infrastructure (C1) -/

theorem isPrefixOf_append_left (p s t : Str) :
    (p ++ s).isPrefixOf (p ++ t) = s.isPrefixOf t := by
  induction p with
  | nil => rfl
  | cons c cs ih =>
    show (c == c && (cs ++ s).isPrefixOf (cs ++ t)) = s.isPrefixOf t
    rw [beq_self_eq_true, Bool.true_and, ih]

theorem isPrefixOf_append_eq_false {p q : Str} (h1 : p.isPrefixOf q = false)
    (h2 : q.isPrefixOf p = false) (rest : Str) : p.isPrefixOf (q ++ rest) = false := by
  by_contra hc
  have hp : p <+: q ++ rest := by
    rw [← List.isPrefixOf_iff_prefix]
    cases hpp : p.isPrefixOf (q ++ rest) with
    | true => rfl
    | false => exact absurd hpp hc
  have hq : q <+: q ++ rest := List.prefix_append q rest
  rcases List.prefix_or_prefix_of_prefix hp hq with h | h
  · rw [← List.isPrefixOf_iff_prefix, h1] at h
    exact Bool.false_ne_true h
  · rw [← List.isPrefixOf_iff_prefix, h2] at h
    exact Bool.false_ne_true h

theorem isPrefixOf_false_mono {p q s : Str} (hpq : p.isPrefixOf q = true)
    (h : p.isPrefixOf s = false) : q.isPrefixOf s = false := by
  by_contra hc
  have hq : q <+: s := by
    rw [← List.isPrefixOf_iff_prefix]
    cases hqq : q.isPrefixOf s with
    | true => rfl
    | false => exact absurd hqq hc
  rw [List.isPrefixOf_iff_prefix] at hpq
  have hp : p <+: s := hpq.trans hq
  rw [← List.isPrefixOf_iff_prefix, h] at hp
  exact Bool.false_ne_true hp

theorem append_ne_of_not_self {q lit : Str} (h : q.isPrefixOf lit = false)
    (rest : Str) : q ++ rest ≠ lit := by
  intro he
  have hq : q <+: lit := he ▸ List.prefix_append q rest
  rw [← List.isPrefixOf_iff_prefix, h] at hq
  exact Bool.false_ne_true hq

theorem splitCh_joinCh {sep : Char} :
    ∀ {ls : List Str}, ls ≠ [] → (∀ s ∈ ls, sep ∉ s) →
      splitCh sep (joinCh sep ls) = ls := by
  intro ls
  induction ls with
  | nil => intro h; exact absurd rfl h
  | cons x xs ih =>
    intro _ h
    cases xs with
    | nil =>
      show splitCh sep (joinCh sep [x]) = [x]
      rw [show joinCh sep [x] = x from rfl]
      exact splitCh_of_not_mem (h x (by simp))
    | cons y ys =>
      rw [show joinCh sep (x :: y :: ys) = x ++ sep :: joinCh sep (y :: ys) from rfl]
      rw [splitCh_append_sep]
      rw [splitCh_of_not_mem (h x (by simp))]
      rw [ih (by simp) fun s hs => h s (List.mem_cons_of_mem x hs)]
      rfl

theorem dropWhile_length_le (p : Char → Bool) (l : Str) :
    (l.dropWhile p).length ≤ l.length :=
  (List.dropWhile_suffix p).length_le

theorem trimStr_length_le (s : Str) : (trimStr s).length ≤ s.length := by
  unfold trimStr
  calc ((s.dropWhile isJsSpace).reverse.dropWhile isJsSpace).reverse.length
      = ((s.dropWhile isJsSpace).reverse.dropWhile isJsSpace).length := by
        rw [List.length_reverse]
    _ ≤ (s.dropWhile isJsSpace).reverse.length := dropWhile_length_le _ _
    _ = (s.dropWhile isJsSpace).length := by rw [List.length_reverse]
    _ ≤ s.length := dropWhile_length_le _ _

theorem trimStr_eq_self_of_ends {s : Str}
    (h1 : ∀ x, s.head? = some x → isJsSpace x = false)
    (h2 : ∀ x, s.getLast? = some x → isJsSpace x = false) : trimStr s = s := by
  unfold trimStr
  have hd : s.dropWhile isJsSpace = s := by
    cases s with
    | nil => rfl
    | cons c cs =>
      rw [List.dropWhile_cons, h1 c rfl]
      simp
  rw [hd]
  have hr : s.reverse.dropWhile isJsSpace = s.reverse := by
    cases hrev : s.reverse with
    | nil => rfl
    | cons c cs =>
      have hlast : s.getLast? = some c := by
        rw [← List.head?_reverse, hrev]
        rfl
      rw [List.dropWhile_cons, h2 c hlast]
      simp
  rw [hr, List.reverse_reverse]

theorem head_not_space_of_trim {s : Str} (h : trimStr s = s) :
    ∀ x, s.head? = some x → isJsSpace x = false := by
  intro x hx
  cases s with
  | nil => cases hx
  | cons c cs =>
    cases hx
    by_contra hsp
    have hsp2 : isJsSpace x = true := by
      cases hb : isJsSpace x with
      | true => rfl
      | false => exact absurd hb hsp
    have hlt : (trimStr (x :: cs)).length < (x :: cs).length := by
      unfold trimStr
      rw [List.dropWhile_cons, hsp2]
      simp only [if_true, List.length_reverse]
      calc (cs.dropWhile isJsSpace |>.reverse.dropWhile isJsSpace).length
          ≤ (cs.dropWhile isJsSpace).reverse.length := dropWhile_length_le _ _
        _ = (cs.dropWhile isJsSpace).length := by rw [List.length_reverse]
        _ ≤ cs.length := dropWhile_length_le _ _
        _ < (x :: cs).length := by simp
    rw [h] at hlt
    omega

theorem last_not_space_of_trim {s : Str} (h : trimStr s = s) :
    ∀ x, s.getLast? = some x → isJsSpace x = false := by
  intro x hx
  have hu : s.dropWhile isJsSpace = s := by
    have hlen1 : (trimStr s).length ≤ (s.dropWhile isJsSpace).length := by
      unfold trimStr
      rw [List.length_reverse]
      calc ((s.dropWhile isJsSpace).reverse.dropWhile isJsSpace).length
          ≤ (s.dropWhile isJsSpace).reverse.length := dropWhile_length_le _ _
        _ = (s.dropWhile isJsSpace).length := by rw [List.length_reverse]
    rw [h] at hlen1
    have hsfx : s.dropWhile isJsSpace <:+ s := List.dropWhile_suffix _
    exact hsfx.eq_of_length (le_antisymm hsfx.length_le hlen1)
  have h2 : s.reverse.dropWhile isJsSpace = s.reverse := by
    have := congrArg List.reverse h
    conv at this =>
      lhs
      unfold trimStr
    rw [hu, List.reverse_reverse] at this
    exact this
  by_contra hsp
  have hsp2 : isJsSpace x = true := by
    cases hb : isJsSpace x with
    | true => rfl
    | false => exact absurd hb hsp
  obtain ⟨c, cs, hrev⟩ : ∃ c cs, s.reverse = c :: cs := by
    cases hr : s.reverse with
    | nil =>
      have : s = [] := by simpa using congrArg List.reverse hr
      subst this
      cases hx
    | cons c cs => exact ⟨c, cs, rfl⟩
  have hc : c = x := by
    have hh := List.head?_reverse s
    rw [hrev, hx] at hh
    simpa using hh
  subst hc
  rw [hrev, List.dropWhile_cons, hsp2, if_pos rfl] at h2
  have := congrArg List.length h2
  have hle := dropWhile_length_le isJsSpace cs
  simp only [List.length_cons] at this
  omega

theorem natDigits_no_space (n : Nat) : ∀ c ∈ natDigits n, isJsSpace c = false := by
  intro c hc
  have := natDigits_all_digit n
  rw [List.all_eq_true] at this
  exact isJsSpace_of_digit (this c hc)

theorem digitsToNat_cons_zero (s : Str) : digitsToNat ('0' :: s) = digitsToNat s := rfl

theorem padStart2_natDigits {n : Nat} (h : n ≤ 99) :
    ∃ a b, padStart2 (natDigits n) = [a, b] ∧ a.isDigit = true ∧ b.isDigit = true ∧
      digitsToNat [a, b] = n := by
  have hlen : (natDigits n).length ≤ 2 :=
    natDigits_length_le (by norm_num) (by omega)
  have hne := natDigits_ne_nil n
  have hall := natDigits_all_digit n
  rw [List.all_eq_true] at hall
  cases hd : natDigits n with
  | nil => exact absurd hd hne
  | cons a rest =>
    cases rest with
    | nil =>
      refine ⟨'0', a, ?_, by decide, ?_, ?_⟩
      · rw [padStart2]
        rfl
      · exact hall a (by rw [hd]; simp)
      · rw [digitsToNat_cons_zero, ← hd, digitsToNat_natDigits]
    | cons b rest2 =>
      cases rest2 with
      | nil =>
        refine ⟨a, b, ?_, ?_, ?_, ?_⟩
        · rw [padStart2]
          rfl
        · exact hall a (by rw [hd]; simp)
        · exact hall b (by rw [hd]; simp)
        · rw [← hd, digitsToNat_natDigits]
      | cons x xs =>
        rw [hd] at hlen
        simp at hlen

theorem jsToNumber_natDigits (n : Nat) : jsToNumber (natDigits n) = some n := by
  unfold jsToNumber
  rw [trimStr_eq_self_of_no_space (natDigits_no_space n)]
  rw [if_neg (natDigits_ne_nil n), if_pos (natDigits_all_digit n), digitsToNat_natDigits]

/-- Decoding a nonempty, trim-stable cell goes straight to the prefix
chain. -/
theorem parseColumnValue_of_stable {value : Str} (col : Str) (hne : value ≠ [])
    (htr : trimStr value = value) :
    parseColumnValue value col = some (parseColumnValueCore value col) := by
  unfold parseColumnValue
  rw [if_neg hne, htr, if_neg hne]

theorem append_ne_nil_left {p : Str} (h : p ≠ []) (rest : Str) : p ++ rest ≠ [] := by
  intro he
  rcases List.append_eq_nil.mp he with ⟨h1, _⟩
  exact h h1

theorem ne_true_of_eq_false {b : Bool} (h : b = false) : ¬ b = true := by
  rw [h]
  exact Bool.false_ne_true

theorem drop_len_append {p : Str} {n : Nat} (h : p.length = n) (rest : Str) :
    (p ++ rest).drop n = rest := by
  subst h
  exact List.drop_left p rest

theorem c1rt_message (flows : List FlowInfo) (col id content : Str)
    (h1 : ("UTM-".toList).isPrefixOf content = false)
    (h2 : ("TEMPO-".toList).isPrefixOf content = false)
    (htr : trimStr ("MSG-".toList ++ content) = "MSG-".toList ++ content) :
    parseColumnValue
      (buildSupabaseValueForBubble flows ⟨id, .message, { content := some content }⟩)
      col =
      some ⟨[], .message,
        { label := NODE_LABELS .message, supabaseColumn := some (upperStr col),
          content := some content }⟩ := by
  have henc : buildSupabaseValueForBubble flows
      ⟨id, .message, { content := some content }⟩ = "MSG-".toList ++ content := rfl
  rw [henc]
  rw [parseColumnValue_of_stable col (append_ne_nil_left (by decide) content) htr]
  congr 1
  have hc1 : ("MSG-UTM-".toList).isPrefixOf ("MSG-".toList ++ content) = false := by
    rw [show "MSG-UTM-".toList = "MSG-".toList ++ "UTM-".toList from rfl,
      isPrefixOf_append_left]
    exact h1
  have hc2 : ("MSG-TEMPO-".toList).isPrefixOf ("MSG-".toList ++ content) = false := by
    rw [show "MSG-TEMPO-".toList = "MSG-".toList ++ "TEMPO-".toList from rfl,
      isPrefixOf_append_left]
    exact h2
  have hc3 : ("MSG-".toList).isPrefixOf ("MSG-".toList ++ content) = true :=
    isPrefixOf_append_self _ _
  simp only [parseColumnValueCore, hc1, hc2, hc3, Bool.false_eq_true, if_false,
    eq_self_iff_true, if_true]
  rw [drop_len_append (by decide) content]

theorem c1rt_messageUtm (flows : List FlowInfo) (col id content utm : Str)
    (hcne : content ≠ []) (hspu : ' ' ∉ utm)
    (htrIn : trimStr (content ++ ' ' :: utm) = content ++ ' ' :: utm)
    (htr : trimStr ("MSG-UTM-".toList ++ (content ++ ' ' :: utm)) =
      "MSG-UTM-".toList ++ (content ++ ' ' :: utm)) :
    parseColumnValue
      (buildSupabaseValueForBubble flows
        ⟨id, .messageUtm, { content := some content, utm := some utm }⟩) col =
      some ⟨[], .messageUtm,
        { label := NODE_LABELS .messageUtm, supabaseColumn := some (upperStr col),
          content := some content, utm := some utm }⟩ := by
  have henc : buildSupabaseValueForBubble flows
      ⟨id, .messageUtm, { content := some content, utm := some utm }⟩ =
      "MSG-UTM-".toList ++ trimStr (content ++ ' ' :: utm) := rfl
  rw [henc, htrIn]
  rw [parseColumnValue_of_stable col (append_ne_nil_left (by decide) _) htr]
  congr 1
  have hc1 : ("MSG-UTM-".toList).isPrefixOf
      ("MSG-UTM-".toList ++ (content ++ ' ' :: utm)) = true :=
    isPrefixOf_append_self _ _
  simp only [parseColumnValueCore, hc1, if_true]
  rw [drop_len_append (by decide) _]
  rw [splitCh_append_sep, splitCh_of_not_mem hspu]
  rw [List.dropLast_concat, joinCh_splitCh]
  rw [show jsOr content (content ++ ' ' :: utm) = content from by
    rw [jsOr, if_neg hcne]]
  have hlen : 1 < (splitCh ' ' content ++ [utm]).length := by
    have hpos : 0 < (splitCh ' ' content).length :=
      List.length_pos.mpr (splitCh_ne_nil ' ' content)
    simp only [List.length_append, List.length_cons, List.length_nil]
    omega
  rw [if_pos hlen, List.getLast?_concat]
  rfl

theorem c1rt_photo (flows : List FlowInfo) (col id url : Str)
    (hC : ("C-".toList).isPrefixOf url = false)
    (htr : trimStr ("FT-".toList ++ url) = "FT-".toList ++ url) :
    parseColumnValue
      (buildSupabaseValueForBubble flows ⟨id, .photo, { mediaUrl := some url }⟩) col =
      some ⟨[], .photo,
        { label := NODE_LABELS .photo, supabaseColumn := some (upperStr col),
          mediaUrl := some url }⟩ := by
  have henc : buildSupabaseValueForBubble flows
      ⟨id, .photo, { mediaUrl := some url }⟩ = "FT-".toList ++ url := rfl
  rw [henc]
  rw [parseColumnValue_of_stable col (append_ne_nil_left (by decide) url) htr]
  congr 1
  have hc1 := @isPrefixOf_append_eq_false
    ("MSG-UTM-".toList) ("FT-".toList) (by decide) (by decide) url
  have hc2 := @isPrefixOf_append_eq_false
    ("MSG-TEMPO-".toList) ("FT-".toList) (by decide) (by decide) url
  have hc3 := @isPrefixOf_append_eq_false
    ("MSG-".toList) ("FT-".toList) (by decide) (by decide) url
  have hc4 : ("FT-C-T;".toList).isPrefixOf ("FT-".toList ++ url) = false := by
    rw [show "FT-C-T;".toList = "FT-".toList ++ "C-T;".toList from rfl,
      isPrefixOf_append_left]
    exact isPrefixOf_false_mono (by decide) hC
  have hc5 : ("FT-C-T-".toList).isPrefixOf ("FT-".toList ++ url) = false := by
    rw [show "FT-C-T-".toList = "FT-".toList ++ "C-T-".toList from rfl,
      isPrefixOf_append_left]
    exact isPrefixOf_false_mono (by decide) hC
  have hc6 := @isPrefixOf_append_eq_false
    ("VD-C-T;".toList) ("FT-".toList) (by decide) (by decide) url
  have hc7 := @isPrefixOf_append_eq_false
    ("VD-C-T-".toList) ("FT-".toList) (by decide) (by decide) url
  have hc8 : ("FT-C-".toList).isPrefixOf ("FT-".toList ++ url) = false := by
    rw [show "FT-C-".toList = "FT-".toList ++ "C-".toList from rfl,
      isPrefixOf_append_left]
    exact hC
  have hc9 : ("FT-".toList).isPrefixOf ("FT-".toList ++ url) = true :=
    isPrefixOf_append_self _ _
  simp only [parseColumnValueCore, hc1, hc2, hc3, hc4, hc5, hc6, hc7, hc8, hc9,
    Bool.false_eq_true, if_false, if_true]
  rw [drop_len_append (by decide) url]

theorem c1rt_video (flows : List FlowInfo) (col id url : Str)
    (hC : ("C-".toList).isPrefixOf url = false)
    (htr : trimStr ("VD-".toList ++ url) = "VD-".toList ++ url) :
    parseColumnValue
      (buildSupabaseValueForBubble flows ⟨id, .video, { mediaUrl := some url }⟩) col =
      some ⟨[], .video,
        { label := NODE_LABELS .video, supabaseColumn := some (upperStr col),
          mediaUrl := some url }⟩ := by
  have henc : buildSupabaseValueForBubble flows
      ⟨id, .video, { mediaUrl := some url }⟩ = "VD-".toList ++ url := rfl
  rw [henc]
  rw [parseColumnValue_of_stable col (append_ne_nil_left (by decide) url) htr]
  congr 1
  have hc1 := @isPrefixOf_append_eq_false
    ("MSG-UTM-".toList) ("VD-".toList) (by decide) (by decide) url
  have hc2 := @isPrefixOf_append_eq_false
    ("MSG-TEMPO-".toList) ("VD-".toList) (by decide) (by decide) url
  have hc3 := @isPrefixOf_append_eq_false
    ("MSG-".toList) ("VD-".toList) (by decide) (by decide) url
  have hc4 := @isPrefixOf_append_eq_false
    ("FT-C-T;".toList) ("VD-".toList) (by decide) (by decide) url
  have hc5 := @isPrefixOf_append_eq_false
    ("FT-C-T-".toList) ("VD-".toList) (by decide) (by decide) url
  have hc6 : ("VD-C-T;".toList).isPrefixOf ("VD-".toList ++ url) = false := by
    rw [show "VD-C-T;".toList = "VD-".toList ++ "C-T;".toList from rfl,
      isPrefixOf_append_left]
    exact isPrefixOf_false_mono (by decide) hC
  have hc7 : ("VD-C-T-".toList).isPrefixOf ("VD-".toList ++ url) = false := by
    rw [show "VD-C-T-".toList = "VD-".toList ++ "C-T-".toList from rfl,
      isPrefixOf_append_left]
    exact isPrefixOf_false_mono (by decide) hC
  have hc8 := @isPrefixOf_append_eq_false
    ("FT-C-".toList) ("VD-".toList) (by decide) (by decide) url
  have hc9 := @isPrefixOf_append_eq_false
    ("FT-".toList) ("VD-".toList) (by decide) (by decide) url
  have hc10 : ("VD-C-".toList).isPrefixOf ("VD-".toList ++ url) = false := by
    rw [show "VD-C-".toList = "VD-".toList ++ "C-".toList from rfl,
      isPrefixOf_append_left]
    exact hC
  have hc11 : ("VD-".toList).isPrefixOf ("VD-".toList ++ url) = true :=
    isPrefixOf_append_self _ _
  simp only [parseColumnValueCore, hc1, hc2, hc3, hc4, hc5, hc6, hc7, hc8, hc9,
    hc10, hc11, Bool.false_eq_true, if_false, if_true]
  rw [drop_len_append (by decide) url]

theorem c1rt_audio (flows : List FlowInfo) (col id url : Str)
    (htr : trimStr ("AU-".toList ++ url) = "AU-".toList ++ url) :
    parseColumnValue
      (buildSupabaseValueForBubble flows ⟨id, .audio, { mediaUrl := some url }⟩) col =
      some ⟨[], .audio,
        { label := NODE_LABELS .audio, supabaseColumn := some (upperStr col),
          mediaUrl := some url }⟩ := by
  have henc : buildSupabaseValueForBubble flows
      ⟨id, .audio, { mediaUrl := some url }⟩ = "AU-".toList ++ url := rfl
  rw [henc]
  rw [parseColumnValue_of_stable col (append_ne_nil_left (by decide) url) htr]
  congr 1
  have hc1 := @isPrefixOf_append_eq_false
    ("MSG-UTM-".toList) ("AU-".toList) (by decide) (by decide) url
  have hc2 := @isPrefixOf_append_eq_false
    ("MSG-TEMPO-".toList) ("AU-".toList) (by decide) (by decide) url
  have hc3 := @isPrefixOf_append_eq_false
    ("MSG-".toList) ("AU-".toList) (by decide) (by decide) url
  have hc4 := @isPrefixOf_append_eq_false
    ("FT-C-T;".toList) ("AU-".toList) (by decide) (by decide) url
  have hc5 := @isPrefixOf_append_eq_false
    ("FT-C-T-".toList) ("AU-".toList) (by decide) (by decide) url
  have hc6 := @isPrefixOf_append_eq_false
    ("VD-C-T;".toList) ("AU-".toList) (by decide) (by decide) url
  have hc7 := @isPrefixOf_append_eq_false
    ("VD-C-T-".toList) ("AU-".toList) (by decide) (by decide) url
  have hc8 := @isPrefixOf_append_eq_false
    ("FT-C-".toList) ("AU-".toList) (by decide) (by decide) url
  have hc9 := @isPrefixOf_append_eq_false
    ("FT-".toList) ("AU-".toList) (by decide) (by decide) url
  have hc10 := @isPrefixOf_append_eq_false
    ("VD-C-".toList) ("AU-".toList) (by decide) (by decide) url
  have hc11 := @isPrefixOf_append_eq_false
    ("VD-".toList) ("AU-".toList) (by decide) (by decide) url
  have hc12 : ("AU-".toList).isPrefixOf ("AU-".toList ++ url) = true :=
    isPrefixOf_append_self _ _
  simp only [parseColumnValueCore, hc1, hc2, hc3, hc4, hc5, hc6, hc7, hc8, hc9,
    hc10, hc11, hc12, Bool.false_eq_true, if_false, if_true]
  rw [drop_len_append (by decide) url]

theorem c1rt_time (flows : List FlowInfo) (col id : Str) (mn mx : Nat) :
    parseColumnValue
      (buildSupabaseValueForBubble flows
        ⟨id, .time, { timeMin := some mn, timeMax := some mx }⟩) col =
      some ⟨[], .time,
        { label := NODE_LABELS .time, supabaseColumn := some (upperStr col),
          timeMin := some mn, timeMax := some mx }⟩ := by
  have henc : buildSupabaseValueForBubble flows
      ⟨id, .time, { timeMin := some mn, timeMax := some mx }⟩ =
      "T-".toList ++ (natDigits mn ++ '-' :: natDigits mx) := by
    show "T-".toList ++ natDigits mn ++ '-' :: natDigits mx = _
    rw [List.append_assoc]
  have htr : trimStr ("T-".toList ++ (natDigits mn ++ '-' :: natDigits mx)) =
      "T-".toList ++ (natDigits mn ++ '-' :: natDigits mx) := by
    apply trimStr_eq_self_of_no_space
    intro c hc
    rcases List.mem_append.mp hc with h | h
    · rcases List.mem_cons.mp h with h | h
      · subst h; decide
      · rcases List.mem_cons.mp h with h | h
        · subst h; decide
        · exact absurd h (List.not_mem_nil c)
    · rcases List.mem_append.mp h with h | h
      · exact natDigits_no_space mn c h
      · rcases List.mem_cons.mp h with h | h
        · subst h; decide
        · exact natDigits_no_space mx c h
  rw [henc]
  rw [parseColumnValue_of_stable col (append_ne_nil_left (by decide) _) htr]
  congr 1
  have hc1 := @isPrefixOf_append_eq_false
    ("MSG-UTM-".toList) ("T-".toList) (by decide) (by decide)
    (natDigits mn ++ '-' :: natDigits mx)
  have hc2 := @isPrefixOf_append_eq_false
    ("MSG-TEMPO-".toList) ("T-".toList) (by decide) (by decide)
    (natDigits mn ++ '-' :: natDigits mx)
  have hc3 := @isPrefixOf_append_eq_false
    ("MSG-".toList) ("T-".toList) (by decide) (by decide)
    (natDigits mn ++ '-' :: natDigits mx)
  have hc4 := @isPrefixOf_append_eq_false
    ("FT-C-T;".toList) ("T-".toList) (by decide) (by decide)
    (natDigits mn ++ '-' :: natDigits mx)
  have hc5 := @isPrefixOf_append_eq_false
    ("FT-C-T-".toList) ("T-".toList) (by decide) (by decide)
    (natDigits mn ++ '-' :: natDigits mx)
  have hc6 := @isPrefixOf_append_eq_false
    ("VD-C-T;".toList) ("T-".toList) (by decide) (by decide)
    (natDigits mn ++ '-' :: natDigits mx)
  have hc7 := @isPrefixOf_append_eq_false
    ("VD-C-T-".toList) ("T-".toList) (by decide) (by decide)
    (natDigits mn ++ '-' :: natDigits mx)
  have hc8 := @isPrefixOf_append_eq_false
    ("FT-C-".toList) ("T-".toList) (by decide) (by decide)
    (natDigits mn ++ '-' :: natDigits mx)
  have hc9 := @isPrefixOf_append_eq_false
    ("FT-".toList) ("T-".toList) (by decide) (by decide)
    (natDigits mn ++ '-' :: natDigits mx)
  have hc10 := @isPrefixOf_append_eq_false
    ("VD-C-".toList) ("T-".toList) (by decide) (by decide)
    (natDigits mn ++ '-' :: natDigits mx)
  have hc11 := @isPrefixOf_append_eq_false
    ("VD-".toList) ("T-".toList) (by decide) (by decide)
    (natDigits mn ++ '-' :: natDigits mx)
  have hc12 := @isPrefixOf_append_eq_false
    ("AU-".toList) ("T-".toList) (by decide) (by decide)
    (natDigits mn ++ '-' :: natDigits mx)
  have hc13 : ("T-".toList).isPrefixOf
      ("T-".toList ++ (natDigits mn ++ '-' :: natDigits mx)) = true :=
    isPrefixOf_append_self _ _
  simp only [parseColumnValueCore, hc1, hc2, hc3, hc4, hc5, hc6, hc7, hc8, hc9,
    hc10, hc11, hc12, hc13, Bool.false_eq_true, if_false, if_true]
  rw [drop_len_append (by decide) _]
  rw [splitCh_append_sep, splitCh_of_not_mem (no_hyphen_natDigits mn),
    splitCh_of_not_mem (no_hyphen_natDigits mx)]
  simp only [List.map_cons, List.map_nil, jsToNumber_natDigits, List.singleton_append,
    List.getD_cons_zero, List.getD_cons_succ, Option.getD_some]

theorem c1rt_leadRespond (flows : List FlowInfo) (col id : Str) :
    parseColumnValue
      (buildSupabaseValueForBubble flows ⟨id, .leadRespond, {}⟩) col =
      some ⟨[], .leadRespond,
        { label := NODE_LABELS .leadRespond,
          supabaseColumn := some (upperStr col) }⟩ := by
  have henc : buildSupabaseValueForBubble flows ⟨id, .leadRespond, {}⟩ =
      "LD".toList := rfl
  rw [henc]
  rw [parseColumnValue_of_stable col (by decide) (by decide)]
  rfl

theorem c1rt_linkPix (flows : List FlowInfo) (col id : Str) :
    parseColumnValue
      (buildSupabaseValueForBubble flows ⟨id, .linkPix, {}⟩) col =
      some ⟨[], .linkPix,
        { label := NODE_LABELS .linkPix,
          supabaseColumn := some (upperStr col) }⟩ := by
  have henc : buildSupabaseValueForBubble flows ⟨id, .linkPix, {}⟩ =
      "LK-PIX".toList := rfl
  rw [henc]
  rw [parseColumnValue_of_stable col (by decide) (by decide)]
  rfl

theorem replaceSemis_of_no_semi {s : Str} (h : ';' ∉ s) : replaceSemis s = s := by
  unfold replaceSemis
  rw [List.map_congr_left fun c hc =>
    if_neg fun he : c = ';' => h (he ▸ hc)]
  exact List.map_id s

theorem c1rt_photoCaption (flows : List FlowInfo) (col id url cap : Str)
    (hu2 : ' ' ∉ url)
    (hT1 : ("T;".toList).isPrefixOf (url ++ ' ' :: cap) = false)
    (hT2 : ("T-".toList).isPrefixOf (url ++ ' ' :: cap) = false)
    (htrIn : trimStr (url ++ ' ' :: cap) = url ++ ' ' :: cap)
    (htr : trimStr ("FT-C-".toList ++ (url ++ ' ' :: cap)) =
      "FT-C-".toList ++ (url ++ ' ' :: cap)) :
    parseColumnValue
      (buildSupabaseValueForBubble flows
        ⟨id, .photoCaption, { mediaUrl := some url, caption := some cap }⟩) col =
      some ⟨[], .photoCaption,
        { label := NODE_LABELS .photoCaption, supabaseColumn := some (upperStr col),
          caption := some cap, mediaUrl := some url }⟩ := by
  have henc : buildSupabaseValueForBubble flows
      ⟨id, .photoCaption, { mediaUrl := some url, caption := some cap }⟩ =
      "FT-C-".toList ++ trimStr (url ++ ' ' :: cap) := rfl
  rw [henc, htrIn]
  rw [parseColumnValue_of_stable col (append_ne_nil_left (by decide) _) htr]
  congr 1
  have hc1 := @isPrefixOf_append_eq_false
    ("MSG-UTM-".toList) ("FT-C-".toList) (by decide) (by decide)
    (url ++ ' ' :: cap)
  have hc2 := @isPrefixOf_append_eq_false
    ("MSG-TEMPO-".toList) ("FT-C-".toList) (by decide) (by decide)
    (url ++ ' ' :: cap)
  have hc3 := @isPrefixOf_append_eq_false
    ("MSG-".toList) ("FT-C-".toList) (by decide) (by decide)
    (url ++ ' ' :: cap)
  have hc4 : ("FT-C-T;".toList).isPrefixOf ("FT-C-".toList ++ (url ++ ' ' :: cap)) =
      false := by
    rw [show "FT-C-T;".toList = "FT-C-".toList ++ "T;".toList from rfl,
      isPrefixOf_append_left]
    exact hT1
  have hc5 : ("FT-C-T-".toList).isPrefixOf ("FT-C-".toList ++ (url ++ ' ' :: cap)) =
      false := by
    rw [show "FT-C-T-".toList = "FT-C-".toList ++ "T-".toList from rfl,
      isPrefixOf_append_left]
    exact hT2
  have hc6 := @isPrefixOf_append_eq_false
    ("VD-C-T;".toList) ("FT-C-".toList) (by decide) (by decide)
    (url ++ ' ' :: cap)
  have hc7 := @isPrefixOf_append_eq_false
    ("VD-C-T-".toList) ("FT-C-".toList) (by decide) (by decide)
    (url ++ ' ' :: cap)
  have hc8 : ("FT-C-".toList).isPrefixOf ("FT-C-".toList ++ (url ++ ' ' :: cap)) =
      true := isPrefixOf_append_self _ _
  simp only [parseColumnValueCore, hc1, hc2, hc3, hc4, hc5, hc6, hc7, hc8,
    Bool.false_eq_true, if_false, if_true]
  rw [drop_len_append (by decide) _]
  rw [splitCh_append_sep, splitCh_of_not_mem hu2]
  simp only [List.singleton_append, List.getD_cons_zero, List.drop_succ_cons,
    List.drop_zero]
  rw [joinCh_splitCh]

theorem c1rt_videoCaption (flows : List FlowInfo) (col id url cap : Str)
    (hu2 : ' ' ∉ url)
    (hT1 : ("T;".toList).isPrefixOf (url ++ ' ' :: cap) = false)
    (hT2 : ("T-".toList).isPrefixOf (url ++ ' ' :: cap) = false)
    (htrIn : trimStr (url ++ ' ' :: cap) = url ++ ' ' :: cap)
    (htr : trimStr ("VD-C-".toList ++ (url ++ ' ' :: cap)) =
      "VD-C-".toList ++ (url ++ ' ' :: cap)) :
    parseColumnValue
      (buildSupabaseValueForBubble flows
        ⟨id, .videoCaption, { mediaUrl := some url, caption := some cap }⟩) col =
      some ⟨[], .videoCaption,
        { label := NODE_LABELS .videoCaption, supabaseColumn := some (upperStr col),
          caption := some cap, mediaUrl := some url }⟩ := by
  have henc : buildSupabaseValueForBubble flows
      ⟨id, .videoCaption, { mediaUrl := some url, caption := some cap }⟩ =
      "VD-C-".toList ++ trimStr (url ++ ' ' :: cap) := rfl
  rw [henc, htrIn]
  rw [parseColumnValue_of_stable col (append_ne_nil_left (by decide) _) htr]
  congr 1
  have hc1 := @isPrefixOf_append_eq_false
    ("MSG-UTM-".toList) ("VD-C-".toList) (by decide) (by decide)
    (url ++ ' ' :: cap)
  have hc2 := @isPrefixOf_append_eq_false
    ("MSG-TEMPO-".toList) ("VD-C-".toList) (by decide) (by decide)
    (url ++ ' ' :: cap)
  have hc3 := @isPrefixOf_append_eq_false
    ("MSG-".toList) ("VD-C-".toList) (by decide) (by decide)
    (url ++ ' ' :: cap)
  have hc4 := @isPrefixOf_append_eq_false
    ("FT-C-T;".toList) ("VD-C-".toList) (by decide) (by decide)
    (url ++ ' ' :: cap)
  have hc5 := @isPrefixOf_append_eq_false
    ("FT-C-T-".toList) ("VD-C-".toList) (by decide) (by decide)
    (url ++ ' ' :: cap)
  have hc6 : ("VD-C-T;".toList).isPrefixOf ("VD-C-".toList ++ (url ++ ' ' :: cap)) =
      false := by
    rw [show "VD-C-T;".toList = "VD-C-".toList ++ "T;".toList from rfl,
      isPrefixOf_append_left]
    exact hT1
  have hc7 : ("VD-C-T-".toList).isPrefixOf ("VD-C-".toList ++ (url ++ ' ' :: cap)) =
      false := by
    rw [show "VD-C-T-".toList = "VD-C-".toList ++ "T-".toList from rfl,
      isPrefixOf_append_left]
    exact hT2
  have hc8 := @isPrefixOf_append_eq_false
    ("FT-C-".toList) ("VD-C-".toList) (by decide) (by decide)
    (url ++ ' ' :: cap)
  have hc9 := @isPrefixOf_append_eq_false
    ("FT-".toList) ("VD-C-".toList) (by decide) (by decide)
    (url ++ ' ' :: cap)
  have hc10 : ("VD-C-".toList).isPrefixOf ("VD-C-".toList ++ (url ++ ' ' :: cap)) =
      true := isPrefixOf_append_self _ _
  simp only [parseColumnValueCore, hc1, hc2, hc3, hc4, hc5, hc6, hc7, hc8, hc9,
    hc10, Bool.false_eq_true, if_false, if_true]
  rw [drop_len_append (by decide) _]
  rw [splitCh_append_sep, splitCh_of_not_mem hu2]
  simp only [List.singleton_append, List.getD_cons_zero, List.drop_succ_cons,
    List.drop_zero]
  rw [joinCh_splitCh]

theorem c1rt_messageTime (flows : List FlowInfo) (col id : Str)
    (rules : List TimeMessageRule) (hne : rules ≠ [])
    (hr : ∀ r ∈ rules, r.startTime ≠ [] ∧ '-' ∉ r.startTime ∧ ';' ∉ r.startTime ∧
      r.endTime ≠ [] ∧ '-' ∉ r.endTime ∧ ';' ∉ r.endTime ∧ ';' ∉ r.content)
    (htr : trimStr ("MSG-TEMPO-".toList ++ joinCh ';' (rules.map fun r =>
        r.startTime ++ '-' :: r.endTime ++ '-' :: replaceSemis r.content)) =
      "MSG-TEMPO-".toList ++ joinCh ';' (rules.map fun r =>
        r.startTime ++ '-' :: r.endTime ++ '-' :: replaceSemis r.content)) :
    parseColumnValue
      (buildSupabaseValueForBubble flows
        ⟨id, .messageTime, { timeMessageRules := some rules }⟩) col =
      some ⟨[], .messageTime,
        { label := NODE_LABELS .messageTime, supabaseColumn := some (upperStr col),
          timeMessageRules := some rules }⟩ := by
  set J := joinCh ';' (rules.map fun r =>
    r.startTime ++ '-' :: r.endTime ++ '-' :: replaceSemis r.content) with hJ
  have henc : buildSupabaseValueForBubble flows
      ⟨id, .messageTime, { timeMessageRules := some rules }⟩ =
      "MSG-TEMPO-".toList ++ J := rfl
  rw [henc]
  rw [parseColumnValue_of_stable col (append_ne_nil_left (by decide) _) htr]
  congr 1
  have hc1 : ("MSG-UTM-".toList).isPrefixOf ("MSG-TEMPO-".toList ++ J) = false := by
    rw [show "MSG-UTM-".toList = "MSG-".toList ++ "UTM-".toList from rfl,
      show ("MSG-TEMPO-".toList ++ J) = "MSG-".toList ++ ("TEMPO-".toList ++ J)
        from rfl,
      isPrefixOf_append_left]
    exact isPrefixOf_append_eq_false (by decide) (by decide) J
  have hc2 : ("MSG-TEMPO-".toList).isPrefixOf ("MSG-TEMPO-".toList ++ J) = true :=
    isPrefixOf_append_self _ _
  simp only [parseColumnValueCore, hc1, hc2, Bool.false_eq_true, if_false, if_true]
  rw [drop_len_append (by decide) J]
  rw [hJ]
  rw [splitCh_joinCh (by simpa using hne) ?hsemi]
  case hsemi =>
    intro s hs
    obtain ⟨r, hrin, rfl⟩ := List.mem_map.mp hs
    obtain ⟨_, _, h3, _, _, h6, h7⟩ := hr r hrin
    intro hmem
    rcases List.mem_append.mp hmem with h | h
    · rcases List.mem_append.mp h with h | h
      · exact h3 h
      · rcases List.mem_cons.mp h with h | h
        · cases h
        · exact h6 h
    · rcases List.mem_cons.mp h with h | h
      · cases h
      · rw [replaceSemis_of_no_semi h7] at h
        exact h7 h
  have hper : ∀ r ∈ rules, parseTimeMessageRule
      (r.startTime ++ '-' :: r.endTime ++ '-' :: replaceSemis r.content) = r := by
    intro r hrin
    obtain ⟨h1, h2, _, h4, h5, _, h7⟩ := hr r hrin
    unfold parseTimeMessageRule
    rw [replaceSemis_of_no_semi h7]
    rw [splitCh_append_sep, splitCh_append_sep,
      splitCh_of_not_mem h2, splitCh_of_not_mem h5]
    simp only [List.singleton_append, List.cons_append, List.nil_append,
      List.getD_cons_zero, List.getD_cons_succ, List.drop_succ_cons,
      List.drop_zero]
    rw [joinCh_splitCh]
    rw [show jsOr r.startTime ("00:00".toList) = r.startTime from by
      rw [jsOr, if_neg h1]]
    rw [show jsOr r.endTime ("23:59".toList) = r.endTime from by
      rw [jsOr, if_neg h4]]
  have hmap : List.map parseTimeMessageRule (List.map (fun r =>
      r.startTime ++ '-' :: r.endTime ++ '-' :: replaceSemis r.content) rules) =
      rules := by
    rw [List.map_map]
    calc List.map (parseTimeMessageRule ∘ fun r =>
          r.startTime ++ '-' :: r.endTime ++ '-' :: replaceSemis r.content) rules
        = List.map (fun r => r) rules :=
          List.map_congr_left fun r hrin => hper r hrin
      _ = rules := List.map_id' rules
  rw [hmap]

theorem append_cons_ne_nil (l : Str) (c : Char) (l2 : Str) : l ++ c :: l2 ≠ [] := by
  intro he
  rcases List.append_eq_nil.mp he with ⟨_, h2⟩
  cases h2

theorem parsePipeRule_roundtrip (r : TimeMediaRule)
    (h1 : r.startTime ≠ []) (h2 : '|' ∉ r.startTime)
    (h4 : r.endTime ≠ []) (h5 : '|' ∉ r.endTime)
    (h7 : '|' ∉ r.mediaUrl)
    (h9 : r.caption ≠ some []) (h10 : '|' ∉ r.caption.getD []) :
    parsePipeRule (r.startTime ++ '|' :: r.endTime ++ '|' :: r.mediaUrl ++ '|' ::
      r.caption.getD []) = r := by
  obtain ⟨st, en, url, capt⟩ := r
  dsimp only at h1 h2 h4 h5 h7 h9 h10 ⊢
  unfold parsePipeRule
  rw [splitCh_append_sep, splitCh_append_sep, splitCh_append_sep,
    splitCh_of_not_mem h2, splitCh_of_not_mem h5, splitCh_of_not_mem h7,
    splitCh_of_not_mem h10]
  simp only [List.singleton_append, List.cons_append, List.nil_append,
    List.getD_cons_zero, List.getD_cons_succ]
  rw [show jsOr st ("00:00".toList) = st from by rw [jsOr, if_neg h1]]
  rw [show jsOr en ("23:59".toList) = en from by rw [jsOr, if_neg h4]]
  rcases capt with _ | c
  · rfl
  · have hcne : c ≠ [] := fun he => h9 (by rw [he])
    dsimp only [Option.getD_some]
    rw [if_neg hcne]

theorem pipeRules_decode (rules : List TimeMediaRule)
    (hr : ∀ r ∈ rules, r.startTime ≠ [] ∧ '|' ∉ r.startTime ∧ ';' ∉ r.startTime ∧
      r.endTime ≠ [] ∧ '|' ∉ r.endTime ∧ ';' ∉ r.endTime ∧
      '|' ∉ r.mediaUrl ∧ ';' ∉ r.mediaUrl ∧
      r.caption ≠ some [] ∧ '|' ∉ r.caption.getD [] ∧ ';' ∉ r.caption.getD []) :
    ((splitCh ';' (joinCh ';' (rules.map fun r =>
        r.startTime ++ '|' :: r.endTime ++ '|' :: r.mediaUrl ++ '|' ::
          r.caption.getD []))).filter fun s => s ≠ []).map parsePipeRule = rules := by
  cases hrl : rules with
  | nil => rfl
  | cons r0 rest =>
    rw [← hrl]
    have hnem : rules.map (fun r => r.startTime ++ '|' :: r.endTime ++ '|' ::
        r.mediaUrl ++ '|' :: r.caption.getD []) ≠ [] := by
      rw [hrl]
      simp
    rw [splitCh_joinCh hnem ?hsemi]
    case hsemi =>
      intro s hs
      obtain ⟨r, hrin, rfl⟩ := List.mem_map.mp hs
      obtain ⟨_, _, h3, _, _, h6, _, h8, _, _, h11⟩ := hr r hrin
      intro hmem
      rcases List.mem_append.mp hmem with h | h
      · rcases List.mem_append.mp h with h | h
        · rcases List.mem_append.mp h with h | h
          · exact h3 h
          · rcases List.mem_cons.mp h with h | h
            · cases h
            · exact h6 h
        · rcases List.mem_cons.mp h with h | h
          · cases h
          · exact h8 h
      · rcases List.mem_cons.mp h with h | h
        · cases h
        · exact h11 h
    rw [List.filter_eq_self.mpr ?hkeep]
    case hkeep =>
      intro s hs
      obtain ⟨r, hrin, rfl⟩ := List.mem_map.mp hs
      exact decide_eq_true (by
        intro he
        rcases List.append_eq_nil.mp he with ⟨_, h2⟩
        cases h2)
    rw [List.map_map]
    calc List.map (parsePipeRule ∘ fun r => r.startTime ++ '|' :: r.endTime ++ '|' ::
          r.mediaUrl ++ '|' :: r.caption.getD []) rules
        = List.map (fun r => r) rules := by
          apply List.map_congr_left
          intro r hrin
          obtain ⟨h1, h2, _, h4, h5, _, h7, _, h9, h10, _⟩ := hr r hrin
          exact parsePipeRule_roundtrip r h1 h2 h4 h5 h7 h9 h10
      _ = rules := List.map_id' rules

theorem c1rt_photoCaptionTime (flows : List FlowInfo) (col id : Str)
    (rules : List TimeMediaRule)
    (hr : ∀ r ∈ rules, r.startTime ≠ [] ∧ '|' ∉ r.startTime ∧ ';' ∉ r.startTime ∧
      r.endTime ≠ [] ∧ '|' ∉ r.endTime ∧ ';' ∉ r.endTime ∧
      '|' ∉ r.mediaUrl ∧ ';' ∉ r.mediaUrl ∧
      r.caption ≠ some [] ∧ '|' ∉ r.caption.getD [] ∧ ';' ∉ r.caption.getD [])
    (htr : trimStr ("FT-C-T;".toList ++ joinCh ';' (rules.map fun r =>
        r.startTime ++ '|' :: r.endTime ++ '|' :: r.mediaUrl ++ '|' ::
          r.caption.getD [])) =
      "FT-C-T;".toList ++ joinCh ';' (rules.map fun r =>
        r.startTime ++ '|' :: r.endTime ++ '|' :: r.mediaUrl ++ '|' ::
          r.caption.getD [])) :
    parseColumnValue
      (buildSupabaseValueForBubble flows
        ⟨id, .photoCaptionTime, { timeMediaRules := some rules }⟩) col =
      some ⟨[], .photoCaptionTime,
        { label := NODE_LABELS .photoCaptionTime, supabaseColumn := some (upperStr col),
          timeMediaRules := some rules }⟩ := by
  set J := joinCh ';' (rules.map fun r =>
    r.startTime ++ '|' :: r.endTime ++ '|' :: r.mediaUrl ++ '|' ::
      r.caption.getD []) with hJ
  have henc : buildSupabaseValueForBubble flows
      ⟨id, .photoCaptionTime, { timeMediaRules := some rules }⟩ =
      "FT-C-T;".toList ++ J := rfl
  rw [henc]
  rw [parseColumnValue_of_stable col (append_ne_nil_left (by decide) _) htr]
  congr 1
  have hc1 := @isPrefixOf_append_eq_false
    ("MSG-UTM-".toList) ("FT-C-T;".toList) (by decide) (by decide) J
  have hc2 := @isPrefixOf_append_eq_false
    ("MSG-TEMPO-".toList) ("FT-C-T;".toList) (by decide) (by decide) J
  have hc3 := @isPrefixOf_append_eq_false
    ("MSG-".toList) ("FT-C-T;".toList) (by decide) (by decide) J
  have hc4 : ("FT-C-T;".toList).isPrefixOf ("FT-C-T;".toList ++ J) = true :=
    isPrefixOf_append_self _ _
  simp only [parseColumnValueCore, hc1, hc2, hc3, hc4, Bool.false_eq_true,
    if_false, if_true]
  rw [drop_len_append (by decide) J]
  rw [hJ]
  rw [pipeRules_decode rules hr]

theorem c1rt_videoCaptionTime (flows : List FlowInfo) (col id : Str)
    (rules : List TimeMediaRule)
    (hr : ∀ r ∈ rules, r.startTime ≠ [] ∧ '|' ∉ r.startTime ∧ ';' ∉ r.startTime ∧
      r.endTime ≠ [] ∧ '|' ∉ r.endTime ∧ ';' ∉ r.endTime ∧
      '|' ∉ r.mediaUrl ∧ ';' ∉ r.mediaUrl ∧
      r.caption ≠ some [] ∧ '|' ∉ r.caption.getD [] ∧ ';' ∉ r.caption.getD [])
    (htr : trimStr ("VD-C-T;".toList ++ joinCh ';' (rules.map fun r =>
        r.startTime ++ '|' :: r.endTime ++ '|' :: r.mediaUrl ++ '|' ::
          r.caption.getD [])) =
      "VD-C-T;".toList ++ joinCh ';' (rules.map fun r =>
        r.startTime ++ '|' :: r.endTime ++ '|' :: r.mediaUrl ++ '|' ::
          r.caption.getD [])) :
    parseColumnValue
      (buildSupabaseValueForBubble flows
        ⟨id, .videoCaptionTime, { timeMediaRules := some rules }⟩) col =
      some ⟨[], .videoCaptionTime,
        { label := NODE_LABELS .videoCaptionTime, supabaseColumn := some (upperStr col),
          timeMediaRules := some rules }⟩ := by
  set J := joinCh ';' (rules.map fun r =>
    r.startTime ++ '|' :: r.endTime ++ '|' :: r.mediaUrl ++ '|' ::
      r.caption.getD []) with hJ
  have henc : buildSupabaseValueForBubble flows
      ⟨id, .videoCaptionTime, { timeMediaRules := some rules }⟩ =
      "VD-C-T;".toList ++ J := rfl
  rw [henc]
  rw [parseColumnValue_of_stable col (append_ne_nil_left (by decide) _) htr]
  congr 1
  have hc1 := @isPrefixOf_append_eq_false
    ("MSG-UTM-".toList) ("VD-C-T;".toList) (by decide) (by decide) J
  have hc2 := @isPrefixOf_append_eq_false
    ("MSG-TEMPO-".toList) ("VD-C-T;".toList) (by decide) (by decide) J
  have hc3 := @isPrefixOf_append_eq_false
    ("MSG-".toList) ("VD-C-T;".toList) (by decide) (by decide) J
  have hc4 := @isPrefixOf_append_eq_false
    ("FT-C-T;".toList) ("VD-C-T;".toList) (by decide) (by decide) J
  have hc5 := @isPrefixOf_append_eq_false
    ("FT-C-T-".toList) ("VD-C-T;".toList) (by decide) (by decide) J
  have hc6 : ("VD-C-T;".toList).isPrefixOf ("VD-C-T;".toList ++ J) = true :=
    isPrefixOf_append_self _ _
  simp only [parseColumnValueCore, hc1, hc2, hc3, hc4, hc5, hc6, Bool.false_eq_true,
    if_false, if_true]
  rw [drop_len_append (by decide) J]
  rw [hJ]
  rw [pipeRules_decode rules hr]

theorem resolveFlowName_content (flows : List FlowInfo) {c : Str} (hcne : c ≠ [])
    (htc : trimStr c = c) : resolveFlowName flows none (some c) = c := by
  unfold resolveFlowName
  show trimStr (jsOr c []) = c
  rw [show jsOr c [] = c from by rw [jsOr, if_neg hcne]]
  exact htc

theorem c1rt_hook_add (flows : List FlowInfo) (col id c : Str) (hrs mins : Nat)
    (hcne : c ≠ []) (htc : trimStr c = c) (hh : hrs ≤ 99) (hm : mins ≤ 99)
    (htr : trimStr ("GANCHO-".toList ++ (c ++ '-' ::
        (padStart2 (natDigits hrs) ++ ':' :: padStart2 (natDigits mins)))) =
      "GANCHO-".toList ++ (c ++ '-' ::
        (padStart2 (natDigits hrs) ++ ':' :: padStart2 (natDigits mins)))) :
    parseColumnValue
      (buildSupabaseValueForBubble flows
        ⟨id, .hook,
          { content := some c, hookAction := some FlowAction.add,
            hookHours := some hrs, hookMinutes := some mins }⟩) col =
      some ⟨[], .hook,
        { label := NODE_LABELS .hook, supabaseColumn := some (upperStr col),
          content := some c, hookFlowId := some c,
          hookHours := some hrs, hookMinutes := some mins,
          hookAction := some FlowAction.add }⟩ := by
  obtain ⟨a, b, hpadH, hda, hdb, hvH⟩ := padStart2_natDigits hh
  obtain ⟨d, e, hpadM, hdd, hde, hvM⟩ := padStart2_natDigits hm
  have henc : buildSupabaseValueForBubble flows
      ⟨id, .hook,
        { content := some c, hookAction := some FlowAction.add,
          hookHours := some hrs, hookMinutes := some mins }⟩ =
      "GANCHO-".toList ++ (if resolveFlowName flows none (some c) = []
        then padStart2 (natDigits hrs) ++ ':' :: padStart2 (natDigits mins)
        else resolveFlowName flows none (some c) ++ '-' ::
          (padStart2 (natDigits hrs) ++ ':' :: padStart2 (natDigits mins))) := rfl
  rw [henc, resolveFlowName_content flows hcne htc, if_neg hcne]
  rw [parseColumnValue_of_stable col (append_ne_nil_left (by decide) _) htr]
  congr 1
  set X := c ++ '-' :: (padStart2 (natDigits hrs) ++ ':' :: padStart2 (natDigits mins))
    with hX
  have hc1 := @isPrefixOf_append_eq_false
    ("MSG-UTM-".toList) ("GANCHO-".toList) (by decide) (by decide) X
  have hc2 := @isPrefixOf_append_eq_false
    ("MSG-TEMPO-".toList) ("GANCHO-".toList) (by decide) (by decide) X
  have hc3 := @isPrefixOf_append_eq_false
    ("MSG-".toList) ("GANCHO-".toList) (by decide) (by decide) X
  have hc4 := @isPrefixOf_append_eq_false
    ("FT-C-T;".toList) ("GANCHO-".toList) (by decide) (by decide) X
  have hc5 := @isPrefixOf_append_eq_false
    ("FT-C-T-".toList) ("GANCHO-".toList) (by decide) (by decide) X
  have hc6 := @isPrefixOf_append_eq_false
    ("VD-C-T;".toList) ("GANCHO-".toList) (by decide) (by decide) X
  have hc7 := @isPrefixOf_append_eq_false
    ("VD-C-T-".toList) ("GANCHO-".toList) (by decide) (by decide) X
  have hc8 := @isPrefixOf_append_eq_false
    ("FT-C-".toList) ("GANCHO-".toList) (by decide) (by decide) X
  have hc9 := @isPrefixOf_append_eq_false
    ("FT-".toList) ("GANCHO-".toList) (by decide) (by decide) X
  have hc10 := @isPrefixOf_append_eq_false
    ("VD-C-".toList) ("GANCHO-".toList) (by decide) (by decide) X
  have hc11 := @isPrefixOf_append_eq_false
    ("VD-".toList) ("GANCHO-".toList) (by decide) (by decide) X
  have hc12 := @isPrefixOf_append_eq_false
    ("AU-".toList) ("GANCHO-".toList) (by decide) (by decide) X
  have hc13 := @isPrefixOf_append_eq_false
    ("T-".toList) ("GANCHO-".toList) (by decide) (by decide) X
  have hc14 := @append_ne_of_not_self ("GANCHO-".toList)
    ("LD".toList) (by decide) X
  have hc15 := @append_ne_of_not_self ("GANCHO-".toList)
    ("LK-PIX".toList) (by decide) X
  have hc16 := @isPrefixOf_append_eq_false
    ("ADD-ENTREGA-FLUXO-".toList) ("GANCHO-".toList) (by decide) (by decide) X
  have hc17 := @isPrefixOf_append_eq_false
    ("DEL-ENTREGA-FLUXO-".toList) ("GANCHO-".toList) (by decide) (by decide) X
  have hc18 := @isPrefixOf_append_eq_false
    ("ADD-REL-".toList) ("GANCHO-".toList) (by decide) (by decide) X
  have hc19 := @isPrefixOf_append_eq_false
    ("DEL-REL-".toList) ("GANCHO-".toList) (by decide) (by decide) X
  have hc20 := @isPrefixOf_append_eq_false
    ("APAGAR-GANCHO-".toList) ("GANCHO-".toList) (by decide) (by decide) X
  have hc21 : ("GANCHO-".toList).isPrefixOf ("GANCHO-".toList ++ X) = true :=
    isPrefixOf_append_self _ _
  simp only [parseColumnValueCore, hc1, hc2, hc3, hc4, hc5, hc6, hc7, hc8, hc9,
    hc10, hc11, hc12, hc13, hc14, hc15, hc16, hc17, hc18, hc19, hc20, hc21,
    Bool.false_eq_true, if_false, if_true]
  rw [drop_len_append (by decide) X]
  rw [hX, hpadH, hpadM]
  have hfind : findTimeMatch (c ++ '-' :: ([a, b] ++ ':' :: [d, e])) =
      some ([a, b], [d, e]) := findTimeMatch_append c hda hdb hdd hde
  rw [hfind]
  dsimp only
  have hlast : lastIndexOf? ('-' :: ([a, b] ++ ':' :: [d, e]))
      (c ++ '-' :: ([a, b] ++ ':' :: [d, e])) = some c.length :=
    lastIndexOf_append_self (by simp) c
  rw [hlast]
  simp only [Option.getD_some]
  rw [show (c ++ '-' :: ([a, b] ++ ':' :: [d, e])).take c.length = c from
    List.take_left c _]
  rw [hvH, hvM]

theorem c1rt_hook_delete (flows : List FlowInfo) (col id c : Str)
    (hcne : c ≠ []) (htc : trimStr c = c)
    (htr : trimStr ("APAGAR-GANCHO-".toList ++ c) = "APAGAR-GANCHO-".toList ++ c) :
    parseColumnValue
      (buildSupabaseValueForBubble flows
        ⟨id, .hook, { content := some c, hookAction := some .delete }⟩) col =
      some ⟨[], .hook,
        { label := NODE_LABELS .hook, supabaseColumn := some (upperStr col),
          content := some c, hookAction := some .delete }⟩ := by
  have henc : buildSupabaseValueForBubble flows
      ⟨id, .hook, { content := some c, hookAction := some .delete }⟩ =
      "APAGAR-GANCHO-".toList ++ resolveFlowName flows none (some c) := rfl
  rw [henc, resolveFlowName_content flows hcne htc]
  rw [parseColumnValue_of_stable col (append_ne_nil_left (by decide) _) htr]
  congr 1
  have hc1 := @isPrefixOf_append_eq_false
    ("MSG-UTM-".toList) ("APAGAR-GANCHO-".toList) (by decide) (by decide) c
  have hc2 := @isPrefixOf_append_eq_false
    ("MSG-TEMPO-".toList) ("APAGAR-GANCHO-".toList) (by decide) (by decide) c
  have hc3 := @isPrefixOf_append_eq_false
    ("MSG-".toList) ("APAGAR-GANCHO-".toList) (by decide) (by decide) c
  have hc4 := @isPrefixOf_append_eq_false
    ("FT-C-T;".toList) ("APAGAR-GANCHO-".toList) (by decide) (by decide) c
  have hc5 := @isPrefixOf_append_eq_false
    ("FT-C-T-".toList) ("APAGAR-GANCHO-".toList) (by decide) (by decide) c
  have hc6 := @isPrefixOf_append_eq_false
    ("VD-C-T;".toList) ("APAGAR-GANCHO-".toList) (by decide) (by decide) c
  have hc7 := @isPrefixOf_append_eq_false
    ("VD-C-T-".toList) ("APAGAR-GANCHO-".toList) (by decide) (by decide) c
  have hc8 := @isPrefixOf_append_eq_false
    ("FT-C-".toList) ("APAGAR-GANCHO-".toList) (by decide) (by decide) c
  have hc9 := @isPrefixOf_append_eq_false
    ("FT-".toList) ("APAGAR-GANCHO-".toList) (by decide) (by decide) c
  have hc10 := @isPrefixOf_append_eq_false
    ("VD-C-".toList) ("APAGAR-GANCHO-".toList) (by decide) (by decide) c
  have hc11 := @isPrefixOf_append_eq_false
    ("VD-".toList) ("APAGAR-GANCHO-".toList) (by decide) (by decide) c
  have hc12 := @isPrefixOf_append_eq_false
    ("AU-".toList) ("APAGAR-GANCHO-".toList) (by decide) (by decide) c
  have hc13 := @isPrefixOf_append_eq_false
    ("T-".toList) ("APAGAR-GANCHO-".toList) (by decide) (by decide) c
  have hc14 := @append_ne_of_not_self ("APAGAR-GANCHO-".toList)
    ("LD".toList) (by decide) c
  have hc15 := @append_ne_of_not_self ("APAGAR-GANCHO-".toList)
    ("LK-PIX".toList) (by decide) c
  have hc16 := @isPrefixOf_append_eq_false
    ("ADD-ENTREGA-FLUXO-".toList) ("APAGAR-GANCHO-".toList)
    (by decide) (by decide) c
  have hc17 := @isPrefixOf_append_eq_false
    ("DEL-ENTREGA-FLUXO-".toList) ("APAGAR-GANCHO-".toList)
    (by decide) (by decide) c
  have hc18 := @isPrefixOf_append_eq_false
    ("ADD-REL-".toList) ("APAGAR-GANCHO-".toList) (by decide) (by decide) c
  have hc19 := @isPrefixOf_append_eq_false
    ("DEL-REL-".toList) ("APAGAR-GANCHO-".toList) (by decide) (by decide) c
  have hc20 : ("APAGAR-GANCHO-".toList).isPrefixOf ("APAGAR-GANCHO-".toList ++ c) =
      true := isPrefixOf_append_self _ _
  simp only [parseColumnValueCore, hc1, hc2, hc3, hc4, hc5, hc6, hc7, hc8, hc9,
    hc10, hc11, hc12, hc13, hc14, hc15, hc16, hc17, hc18, hc19, hc20,
    Bool.false_eq_true, if_false, if_true]
  rw [drop_len_append (by decide) c]

theorem c1rt_deliverable (flows : List FlowInfo) (col id fid : Str)
    (fl : FlowInfo) (a : FlowAction)
    (hfl : flows.find? (fun f => f.id = fid) = some fl)
    (htc : trimStr fl.name = fl.name)
    (htrA : trimStr ("ADD-ENTREGA-FLUXO-".toList ++ fl.name) =
      "ADD-ENTREGA-FLUXO-".toList ++ fl.name)
    (htrD : trimStr ("DEL-ENTREGA-FLUXO-".toList ++ fl.name) =
      "DEL-ENTREGA-FLUXO-".toList ++ fl.name) :
    parseColumnValue
      (buildSupabaseValueForBubble flows
        ⟨id, .deliverable,
          { deliverableAction := some a, deliverableFlowId := some fid }⟩) col =
      some ⟨[], .deliverable,
        { label := NODE_LABELS .deliverable, supabaseColumn := some (upperStr col),
          content := some fl.name, deliverableAction := some a }⟩ := by
  have henc : buildSupabaseValueForBubble flows
      ⟨id, .deliverable,
        { deliverableAction := some a, deliverableFlowId := some fid }⟩ =
      (if some a = some FlowAction.add then "ADD-ENTREGA-FLUXO-".toList
       else "DEL-ENTREGA-FLUXO-".toList) ++
        trimStr (((flows.find? fun f => f.id = fid).map fun x => x.name).getD []) := rfl
  rw [henc, hfl]
  rw [show (((some fl).map fun x => x.name).getD [] : Str) = fl.name from rfl, htc]
  cases a with
  | add =>
    rw [if_pos rfl]
    rw [parseColumnValue_of_stable col (append_ne_nil_left (by decide) _) htrA]
    congr 1
    have hc1 := @isPrefixOf_append_eq_false
      ("MSG-UTM-".toList) ("ADD-ENTREGA-FLUXO-".toList)
      (by decide) (by decide) fl.name
    have hc2 := @isPrefixOf_append_eq_false
      ("MSG-TEMPO-".toList) ("ADD-ENTREGA-FLUXO-".toList)
      (by decide) (by decide) fl.name
    have hc3 := @isPrefixOf_append_eq_false
      ("MSG-".toList) ("ADD-ENTREGA-FLUXO-".toList)
      (by decide) (by decide) fl.name
    have hc4 := @isPrefixOf_append_eq_false
      ("FT-C-T;".toList) ("ADD-ENTREGA-FLUXO-".toList)
      (by decide) (by decide) fl.name
    have hc5 := @isPrefixOf_append_eq_false
      ("FT-C-T-".toList) ("ADD-ENTREGA-FLUXO-".toList)
      (by decide) (by decide) fl.name
    have hc6 := @isPrefixOf_append_eq_false
      ("VD-C-T;".toList) ("ADD-ENTREGA-FLUXO-".toList)
      (by decide) (by decide) fl.name
    have hc7 := @isPrefixOf_append_eq_false
      ("VD-C-T-".toList) ("ADD-ENTREGA-FLUXO-".toList)
      (by decide) (by decide) fl.name
    have hc8 := @isPrefixOf_append_eq_false
      ("FT-C-".toList) ("ADD-ENTREGA-FLUXO-".toList)
      (by decide) (by decide) fl.name
    have hc9 := @isPrefixOf_append_eq_false
      ("FT-".toList) ("ADD-ENTREGA-FLUXO-".toList)
      (by decide) (by decide) fl.name
    have hc10 := @isPrefixOf_append_eq_false
      ("VD-C-".toList) ("ADD-ENTREGA-FLUXO-".toList)
      (by decide) (by decide) fl.name
    have hc11 := @isPrefixOf_append_eq_false
      ("VD-".toList) ("ADD-ENTREGA-FLUXO-".toList)
      (by decide) (by decide) fl.name
    have hc12 := @isPrefixOf_append_eq_false
      ("AU-".toList) ("ADD-ENTREGA-FLUXO-".toList)
      (by decide) (by decide) fl.name
    have hc13 := @isPrefixOf_append_eq_false
      ("T-".toList) ("ADD-ENTREGA-FLUXO-".toList)
      (by decide) (by decide) fl.name
    have hc14 := @append_ne_of_not_self ("ADD-ENTREGA-FLUXO-".toList)
      ("LD".toList) (by decide) fl.name
    have hc15 := @append_ne_of_not_self ("ADD-ENTREGA-FLUXO-".toList)
      ("LK-PIX".toList) (by decide) fl.name
    have hc16 : ("ADD-ENTREGA-FLUXO-".toList).isPrefixOf
        ("ADD-ENTREGA-FLUXO-".toList ++ fl.name) = true :=
      isPrefixOf_append_self _ _
    simp only [parseColumnValueCore, hc1, hc2, hc3, hc4, hc5, hc6, hc7, hc8, hc9,
      hc10, hc11, hc12, hc13, hc14, hc15, hc16, Bool.false_eq_true, if_false,
      if_true]
    rw [drop_len_append (by decide) fl.name]
  | delete =>
    rw [if_neg (by decide)]
    rw [parseColumnValue_of_stable col (append_ne_nil_left (by decide) _) htrD]
    congr 1
    have hc1 := @isPrefixOf_append_eq_false
      ("MSG-UTM-".toList) ("DEL-ENTREGA-FLUXO-".toList)
      (by decide) (by decide) fl.name
    have hc2 := @isPrefixOf_append_eq_false
      ("MSG-TEMPO-".toList) ("DEL-ENTREGA-FLUXO-".toList)
      (by decide) (by decide) fl.name
    have hc3 := @isPrefixOf_append_eq_false
      ("MSG-".toList) ("DEL-ENTREGA-FLUXO-".toList)
      (by decide) (by decide) fl.name
    have hc4 := @isPrefixOf_append_eq_false
      ("FT-C-T;".toList) ("DEL-ENTREGA-FLUXO-".toList)
      (by decide) (by decide) fl.name
    have hc5 := @isPrefixOf_append_eq_false
      ("FT-C-T-".toList) ("DEL-ENTREGA-FLUXO-".toList)
      (by decide) (by decide) fl.name
    have hc6 := @isPrefixOf_append_eq_false
      ("VD-C-T;".toList) ("DEL-ENTREGA-FLUXO-".toList)
      (by decide) (by decide) fl.name
    have hc7 := @isPrefixOf_append_eq_false
      ("VD-C-T-".toList) ("DEL-ENTREGA-FLUXO-".toList)
      (by decide) (by decide) fl.name
    have hc8 := @isPrefixOf_append_eq_false
      ("FT-C-".toList) ("DEL-ENTREGA-FLUXO-".toList)
      (by decide) (by decide) fl.name
    have hc9 := @isPrefixOf_append_eq_false
      ("FT-".toList) ("DEL-ENTREGA-FLUXO-".toList)
      (by decide) (by decide) fl.name
    have hc10 := @isPrefixOf_append_eq_false
      ("VD-C-".toList) ("DEL-ENTREGA-FLUXO-".toList)
      (by decide) (by decide) fl.name
    have hc11 := @isPrefixOf_append_eq_false
      ("VD-".toList) ("DEL-ENTREGA-FLUXO-".toList)
      (by decide) (by decide) fl.name
    have hc12 := @isPrefixOf_append_eq_false
      ("AU-".toList) ("DEL-ENTREGA-FLUXO-".toList)
      (by decide) (by decide) fl.name
    have hc13 := @isPrefixOf_append_eq_false
      ("T-".toList) ("DEL-ENTREGA-FLUXO-".toList)
      (by decide) (by decide) fl.name
    have hc14 := @append_ne_of_not_self ("DEL-ENTREGA-FLUXO-".toList)
      ("LD".toList) (by decide) fl.name
    have hc15 := @append_ne_of_not_self ("DEL-ENTREGA-FLUXO-".toList)
      ("LK-PIX".toList) (by decide) fl.name
    have hc16 := @isPrefixOf_append_eq_false
      ("ADD-ENTREGA-FLUXO-".toList) ("DEL-ENTREGA-FLUXO-".toList)
      (by decide) (by decide) fl.name
    have hc17 : ("DEL-ENTREGA-FLUXO-".toList).isPrefixOf
        ("DEL-ENTREGA-FLUXO-".toList ++ fl.name) = true :=
      isPrefixOf_append_self _ _
    simp only [parseColumnValueCore, hc1, hc2, hc3, hc4, hc5, hc6, hc7, hc8, hc9,
      hc10, hc11, hc12, hc13, hc14, hc15, hc16, hc17, Bool.false_eq_true,
      if_false, if_true]
    rw [drop_len_append (by decide) fl.name]

theorem c1rt_reminder_add (flows : List FlowInfo) (col id c : Str) (hrs mins : Nat)
    (hcne : c ≠ []) (htc : trimStr c = c) (hh : hrs ≤ 99) (hm : mins ≤ 99)
    (htr : trimStr ("ADD-REL-".toList ++ (c ++ '-' ::
        (padStart2 (natDigits hrs) ++ ':' :: padStart2 (natDigits mins)))) =
      "ADD-REL-".toList ++ (c ++ '-' ::
        (padStart2 (natDigits hrs) ++ ':' :: padStart2 (natDigits mins)))) :
    parseColumnValue
      (buildSupabaseValueForBubble flows
        ⟨id, .reminder,
          { content := some c, reminderAction := some FlowAction.add,
            reminderHours := some hrs, reminderMinutes := some mins }⟩) col =
      some ⟨[], .reminder,
        { label := NODE_LABELS .reminder, supabaseColumn := some (upperStr col),
          content := some c, reminderFlowId := some c,
          reminderHours := some hrs, reminderMinutes := some mins,
          reminderAction := some FlowAction.add }⟩ := by
  obtain ⟨a, b, hpadH, hda, hdb, hvH⟩ := padStart2_natDigits hh
  obtain ⟨d, e, hpadM, hdd, hde, hvM⟩ := padStart2_natDigits hm
  have henc : buildSupabaseValueForBubble flows
      ⟨id, .reminder,
        { content := some c, reminderAction := some FlowAction.add,
          reminderHours := some hrs, reminderMinutes := some mins }⟩ =
      "ADD-REL-".toList ++ (resolveFlowName flows none (some c) ++ '-' ::
        (padStart2 (natDigits hrs) ++ ':' :: padStart2 (natDigits mins))) := by
    have h0 : buildSupabaseValueForBubble flows
        ⟨id, .reminder,
          { content := some c, reminderAction := some FlowAction.add,
            reminderHours := some hrs, reminderMinutes := some mins }⟩ =
        (("ADD-REL-".toList ++ resolveFlowName flows none (some c)) ++
          '-' :: padStart2 (natDigits hrs)) ++ ':' :: padStart2 (natDigits mins) := rfl
    rw [h0]
    rw [List.append_assoc ("ADD-REL-".toList ++ resolveFlowName flows none (some c))
      ('-' :: padStart2 (natDigits hrs)) (':' :: padStart2 (natDigits mins))]
    rw [List.cons_append]
    rw [List.append_assoc]
  rw [henc, resolveFlowName_content flows hcne htc]
  rw [parseColumnValue_of_stable col (append_ne_nil_left (by decide) _) htr]
  congr 1
  set X := c ++ '-' :: (padStart2 (natDigits hrs) ++ ':' :: padStart2 (natDigits mins))
    with hX
  have hc1 := @isPrefixOf_append_eq_false
    ("MSG-UTM-".toList) ("ADD-REL-".toList) (by decide) (by decide) X
  have hc2 := @isPrefixOf_append_eq_false
    ("MSG-TEMPO-".toList) ("ADD-REL-".toList) (by decide) (by decide) X
  have hc3 := @isPrefixOf_append_eq_false
    ("MSG-".toList) ("ADD-REL-".toList) (by decide) (by decide) X
  have hc4 := @isPrefixOf_append_eq_false
    ("FT-C-T;".toList) ("ADD-REL-".toList) (by decide) (by decide) X
  have hc5 := @isPrefixOf_append_eq_false
    ("FT-C-T-".toList) ("ADD-REL-".toList) (by decide) (by decide) X
  have hc6 := @isPrefixOf_append_eq_false
    ("VD-C-T;".toList) ("ADD-REL-".toList) (by decide) (by decide) X
  have hc7 := @isPrefixOf_append_eq_false
    ("VD-C-T-".toList) ("ADD-REL-".toList) (by decide) (by decide) X
  have hc8 := @isPrefixOf_append_eq_false
    ("FT-C-".toList) ("ADD-REL-".toList) (by decide) (by decide) X
  have hc9 := @isPrefixOf_append_eq_false
    ("FT-".toList) ("ADD-REL-".toList) (by decide) (by decide) X
  have hc10 := @isPrefixOf_append_eq_false
    ("VD-C-".toList) ("ADD-REL-".toList) (by decide) (by decide) X
  have hc11 := @isPrefixOf_append_eq_false
    ("VD-".toList) ("ADD-REL-".toList) (by decide) (by decide) X
  have hc12 := @isPrefixOf_append_eq_false
    ("AU-".toList) ("ADD-REL-".toList) (by decide) (by decide) X
  have hc13 := @isPrefixOf_append_eq_false
    ("T-".toList) ("ADD-REL-".toList) (by decide) (by decide) X
  have hc14 := @append_ne_of_not_self ("ADD-REL-".toList)
    ("LD".toList) (by decide) X
  have hc15 := @append_ne_of_not_self ("ADD-REL-".toList)
    ("LK-PIX".toList) (by decide) X
  have hc16 := @isPrefixOf_append_eq_false
    ("ADD-ENTREGA-FLUXO-".toList) ("ADD-REL-".toList)
    (by decide) (by decide) X
  have hc17 := @isPrefixOf_append_eq_false
    ("DEL-ENTREGA-FLUXO-".toList) ("ADD-REL-".toList)
    (by decide) (by decide) X
  have hc18 : ("ADD-REL-".toList).isPrefixOf ("ADD-REL-".toList ++ X) = true :=
    isPrefixOf_append_self _ _
  simp only [parseColumnValueCore, hc1, hc2, hc3, hc4, hc5, hc6, hc7, hc8, hc9,
    hc10, hc11, hc12, hc13, hc14, hc15, hc16, hc17, hc18, Bool.false_eq_true,
    if_false, if_true]
  rw [drop_len_append (by decide) X]
  rw [hX, hpadH, hpadM]
  have hfind : findTimeMatch (c ++ '-' :: ([a, b] ++ ':' :: [d, e])) =
      some ([a, b], [d, e]) := findTimeMatch_append c hda hdb hdd hde
  rw [hfind]
  dsimp only
  have hlast : lastIndexOf? ('-' :: ([a, b] ++ ':' :: [d, e]))
      (c ++ '-' :: ([a, b] ++ ':' :: [d, e])) = some c.length :=
    lastIndexOf_append_self (by simp) c
  rw [hlast]
  simp only [Option.getD_some]
  rw [show (c ++ '-' :: ([a, b] ++ ':' :: [d, e])).take c.length = c from
    List.take_left c _]
  rw [hvH, hvM]

theorem c1rt_reminder_delete (flows : List FlowInfo) (col id c : Str)
    (hcne : c ≠ []) (htc : trimStr c = c)
    (hnm : findTimeMatch c = none)
    (htr : trimStr ("DEL-REL-".toList ++ c) = "DEL-REL-".toList ++ c) :
    parseColumnValue
      (buildSupabaseValueForBubble flows
        ⟨id, .reminder,
          { content := some c, reminderAction := some FlowAction.delete }⟩) col =
      some ⟨[], .reminder,
        { label := NODE_LABELS .reminder, supabaseColumn := some (upperStr col),
          content := some c, reminderFlowId := some c,
          reminderAction := some FlowAction.delete }⟩ := by
  have henc : buildSupabaseValueForBubble flows
      ⟨id, .reminder,
        { content := some c, reminderAction := some FlowAction.delete }⟩ =
      "DEL-REL-".toList ++ resolveFlowName flows none (some c) := rfl
  rw [henc, resolveFlowName_content flows hcne htc]
  rw [parseColumnValue_of_stable col (append_ne_nil_left (by decide) _) htr]
  congr 1
  have hc1 := @isPrefixOf_append_eq_false
    ("MSG-UTM-".toList) ("DEL-REL-".toList) (by decide) (by decide) c
  have hc2 := @isPrefixOf_append_eq_false
    ("MSG-TEMPO-".toList) ("DEL-REL-".toList) (by decide) (by decide) c
  have hc3 := @isPrefixOf_append_eq_false
    ("MSG-".toList) ("DEL-REL-".toList) (by decide) (by decide) c
  have hc4 := @isPrefixOf_append_eq_false
    ("FT-C-T;".toList) ("DEL-REL-".toList) (by decide) (by decide) c
  have hc5 := @isPrefixOf_append_eq_false
    ("FT-C-T-".toList) ("DEL-REL-".toList) (by decide) (by decide) c
  have hc6 := @isPrefixOf_append_eq_false
    ("VD-C-T;".toList) ("DEL-REL-".toList) (by decide) (by decide) c
  have hc7 := @isPrefixOf_append_eq_false
    ("VD-C-T-".toList) ("DEL-REL-".toList) (by decide) (by decide) c
  have hc8 := @isPrefixOf_append_eq_false
    ("FT-C-".toList) ("DEL-REL-".toList) (by decide) (by decide) c
  have hc9 := @isPrefixOf_append_eq_false
    ("FT-".toList) ("DEL-REL-".toList) (by decide) (by decide) c
  have hc10 := @isPrefixOf_append_eq_false
    ("VD-C-".toList) ("DEL-REL-".toList) (by decide) (by decide) c
  have hc11 := @isPrefixOf_append_eq_false
    ("VD-".toList) ("DEL-REL-".toList) (by decide) (by decide) c
  have hc12 := @isPrefixOf_append_eq_false
    ("AU-".toList) ("DEL-REL-".toList) (by decide) (by decide) c
  have hc13 := @isPrefixOf_append_eq_false
    ("T-".toList) ("DEL-REL-".toList) (by decide) (by decide) c
  have hc14 := @append_ne_of_not_self ("DEL-REL-".toList)
    ("LD".toList) (by decide) c
  have hc15 := @append_ne_of_not_self ("DEL-REL-".toList)
    ("LK-PIX".toList) (by decide) c
  have hc16 := @isPrefixOf_append_eq_false
    ("ADD-ENTREGA-FLUXO-".toList) ("DEL-REL-".toList)
    (by decide) (by decide) c
  have hc17 := @isPrefixOf_append_eq_false
    ("DEL-ENTREGA-FLUXO-".toList) ("DEL-REL-".toList)
    (by decide) (by decide) c
  have hc18 := @isPrefixOf_append_eq_false
    ("ADD-REL-".toList) ("DEL-REL-".toList) (by decide) (by decide) c
  have hc19 : ("DEL-REL-".toList).isPrefixOf ("DEL-REL-".toList ++ c) = true :=
    isPrefixOf_append_self _ _
  simp only [parseColumnValueCore, hc1, hc2, hc3, hc4, hc5, hc6, hc7, hc8, hc9,
    hc10, hc11, hc12, hc13, hc14, hc15, hc16, hc17, hc18, hc19,
    Bool.false_eq_true, if_false, if_true]
  rw [drop_len_append (by decide) c]
  rw [hnm]

theorem mapGet_keyed {α β : Type} (key : α → Str) (val : α → β) :
    ∀ (l : List α), ((l.map key).Nodup) → ∀ x ∈ l,
      mapGet (l.map fun a => (key a, val a)) (key x) = some (val x) := by
  intro l
  induction l with
  | nil => intro _ x hx; cases hx
  | cons a as ih =>
    intro hnd x hx
    simp only [List.map_cons, List.nodup_cons] at hnd
    obtain ⟨hna, hnd2⟩ := hnd
    rw [show ((a :: as).map fun a => (key a, val a)) =
      [(key a, val a)] ++ (as.map fun a2 => (key a2, val a2)) from rfl]
    rcases List.mem_cons.mp hx with rfl | hx
    · have h2 : mapGet (as.map fun a2 => (key a2, val a2)) (key x) = none := by
        apply mapGet_not_mem_keys
        rw [List.map_map]
        exact hna
      rw [mapGet_append, h2, Option.none_or, mapGet_single_eq]
    · rw [mapGet_append, ih hnd2 x hx]; rfl

theorem filterMap_all_some {α β : Type} {f : α → Option β} {g : α → β} :
    ∀ {l : List α}, (∀ a ∈ l, f a = some (g a)) → l.filterMap f = l.map g := by
  intro l
  induction l with
  | nil => intro _; rfl
  | cons a as ih =>
    intro h
    rw [List.filterMap_cons, h a (by simp), List.map_cons,
      ih fun x hx => h x (List.mem_cons_of_mem a hx)]

theorem ratFloor_eq_intFloor (q : Rat) : q.floor = ⌊q⌋ := by
  rw [Rat.floor_def', Rat.floor_def]

theorem jsRound_half : jsRound (1/2 : Rat) = 1 := by
  unfold jsRound
  rw [ratFloor_eq_intFloor, Int.floor_eq_iff]
  constructor <;> norm_num

theorem jsRound_zero : jsRound (0 : Rat) = 0 := by
  unfold jsRound
  rw [ratFloor_eq_intFloor, Int.floor_eq_iff]
  constructor <;> norm_num

/-- C2, counterexample: a group at canvas position `(1/2, 0)` comes back
from the snapshot round trip at `(1, 0)` — `Math.round` is applied on
encode, so fractional positions are not reproduced. -/
theorem c2_claim_counterexample :
    (c2Nodes.map fun n => n.position.x) = [1/2] ∧
    (encodePosicaoV2 c2Nodes []).map (fun p =>
      (distributeBubblesByPosicaoV2 (getAllBubblesFromFlowNodes c2Nodes)
        (parsePosicaoV2 p)).map fun g => ((g.x : Rat), (g.y : Rat))) =
      some [(1, 0)] ∧ ((1 : Rat) ≠ 1/2) := by
  refine ⟨rfl, ?_, by norm_num⟩
  have hpipe : (encodePosicaoV2 c2Nodes []).map (fun p =>
      (distributeBubblesByPosicaoV2 (getAllBubblesFromFlowNodes c2Nodes)
        (parsePosicaoV2 p)).map fun g => ((g.x : Rat), (g.y : Rat))) =
      some [((jsRound (1/2) : Rat), (jsRound (0 : Rat) : Rat))] := rfl
  rw [hpipe, jsRound_half, jsRound_zero]
  norm_num

theorem bubbleColKey_of_isSome {b : BubbleData}
    (h : (bubbleColKey b).isSome = true) :
    bubbleColKey b = some (upperStr (b.data.supabaseColumn.getD [])) := by
  cases hc : b.data.supabaseColumn with
  | none =>
    simp only [bubbleColKey, hc, Option.isSome_none, Bool.false_eq_true] at h
  | some c =>
    by_cases he : upperStr c = []
    · simp only [bubbleColKey, hc, if_pos he, Option.isSome_none,
        Bool.false_eq_true] at h
    · simp only [bubbleColKey, hc, if_neg he, Option.getD_some]

theorem allBubbles_groups (nodes : List FlowNode) :
    getAllBubblesFromFlowNodes nodes =
      (nodes.filter fun n => n.type = .group).flatMap
        fun n => n.data.bubbles.getD [] := by
  induction nodes with
  | nil => rfl
  | cons n ns ih =>
    have hcons : getAllBubblesFromFlowNodes (n :: ns) =
        (if n.type = .group then n.data.bubbles.getD [] else []) ++
          getAllBubblesFromFlowNodes ns := by
      simp [getAllBubblesFromFlowNodes]
    rw [hcons, ih, List.filter_cons]
    by_cases h : n.type = .group
    · simp [h]
    · simp [h]

theorem encodePosicaoV2_some (nodes : List FlowNode) (edges : List FlowEdge)
    (h : (nodes.filter fun n => n.type = .group) ≠ []) :
    encodePosicaoV2 nodes edges = some (encodedV2 nodes edges) := by
  have h2 : (nodes.filter fun n => n.type = .group).isEmpty = false := by
    cases hc : nodes.filter fun n => n.type = .group with
    | nil => exact absurd hc h
    | cons a l => rfl
  simp only [encodePosicaoV2, h2, Bool.false_eq_true, if_false]
  rfl

theorem distribute_eq_result (bubbles : List BubbleData)
    (layout : ParsedLayoutV2)
    (h : bubbles.filter (fun b =>
      match bubbleColKey b with
      | some c => decide (¬ (layout.groups.flatMap fun pg =>
          pg.columns.filter fun col =>
            (mapGet (bubbles.filterMap fun b2 =>
              (bubbleColKey b2).map fun c2 => (c2, b2)) col).isSome).contains c)
      | none => false) = []) :
    distributeBubblesByPosicaoV2 bubbles layout =
      layout.groups.map fun pg =>
        (⟨pg.groupId, pg.x, pg.y, pg.title,
          pg.columns.filterMap fun col =>
            mapGet (bubbles.filterMap fun b2 =>
              (bubbleColKey b2).map fun c2 => (c2, b2)) col⟩ : DistGroup) := by
  unfold distributeBubblesByPosicaoV2
  simp only []
  rw [h]
  rw [List.isEmpty_nil, if_pos rfl]

/-- C2, amended: for flows in which every step carries a nonempty slot
name, slot names are globally distinct, group ids are distinct, group
labels are nonempty and every edge joins the start node or a group, the
snapshot round trip reproduces the groups in order with their titles and
their full step lists (hence the per-group slot-name order) and the full
edge set; group positions come back `Math.round`-ed, so they are
reproduced exactly only at integer coordinates. -/
theorem c2_amended_roundtrip (nodes : List FlowNode) (edges : List FlowEdge)
    (hne : (nodes.filter fun n => n.type = .group) ≠ [])
    (hids : ((nodes.filter fun n => n.type = .group).map (·.id)).Nodup)
    (hlab : ∀ n ∈ nodes.filter (fun n => n.type = .group), n.data.label ≠ [])
    (hcol : ∀ b ∈ getAllBubblesFromFlowNodes nodes, (bubbleColKey b).isSome = true)
    (hnd : ((getAllBubblesFromFlowNodes nodes).map fun b =>
      upperStr (b.data.supabaseColumn.getD [])).Nodup)
    (hedge : ∀ e ∈ edges,
      e.source ∈ startNodeId :: (nodes.filter fun n => n.type = .group).map (·.id) ∧
      e.target ∈ startNodeId :: (nodes.filter fun n => n.type = .group).map (·.id)) :
    ∃ p, encodePosicaoV2 nodes edges = some p ∧
      (parsePosicaoV2 p).edges = edges.map (fun e => (e.source, e.target)) ∧
      distributeBubblesByPosicaoV2 (getAllBubblesFromFlowNodes nodes)
          (parsePosicaoV2 p) =
        (nodes.filter fun n => n.type = .group).map (fun n =>
          (⟨n.id, jsRound n.position.x, jsRound n.position.y, n.data.label,
            n.data.bubbles.getD []⟩ : DistGroup)) := by
  have hkey : ∀ b ∈ getAllBubblesFromFlowNodes nodes,
      bubbleColKey b = some (upperStr (b.data.supabaseColumn.getD [])) :=
    fun b hb => bubbleColKey_of_isSome (hcol b hb)
  have hentries : ((getAllBubblesFromFlowNodes nodes).filterMap fun b =>
        (bubbleColKey b).map fun c => (c, b)) =
      (getAllBubblesFromFlowNodes nodes).map fun b =>
        (upperStr (b.data.supabaseColumn.getD []), b) := by
    apply filterMap_all_some
    intro b hb
    rw [hkey b hb]
    rfl
  have hlook : ∀ b ∈ getAllBubblesFromFlowNodes nodes,
      mapGet ((getAllBubblesFromFlowNodes nodes).filterMap fun b2 =>
        (bubbleColKey b2).map fun c2 => (c2, b2))
        (upperStr (b.data.supabaseColumn.getD [])) = some b := by
    intro b hb
    rw [hentries]
    exact mapGet_keyed (fun b2 => upperStr (b2.data.supabaseColumn.getD []))
      (fun b2 => b2) (getAllBubblesFromFlowNodes nodes) hnd b hb
  have hpg : (parsePosicaoV2 (encodedV2 nodes edges)).groups =
      (nodes.filter fun n => n.type = .group).map fun n =>
        (⟨n.id, jsRound n.position.x, jsRound n.position.y,
          jsOr n.data.label ("Group".toList),
          (n.data.bubbles.getD []).filterMap bubbleColKey⟩ : ParsedGroupV2) := by
    show (((nodes.filter fun n => n.type = .group).map (·.id)).filterMap
        fun gid =>
          match mapGet ((nodes.filter fun n => n.type = .group).map fun m =>
              (m.id, (jsRound m.position.x, jsRound m.position.y,
                jsOr m.data.label ("Group".toList),
                (m.data.bubbles.getD []).filterMap bubbleColKey))) gid with
          | some (x, y, title, cols) =>
            some (⟨gid, x, y, title, cols⟩ : ParsedGroupV2)
          | none => none) = _
    rw [List.filterMap_map]
    apply filterMap_all_some
    intro n hn
    have hm := mapGet_keyed (fun m : FlowNode => m.id)
      (fun m => (jsRound m.position.x, jsRound m.position.y,
        jsOr m.data.label ("Group".toList),
        (m.data.bubbles.getD []).filterMap bubbleColKey))
      (nodes.filter fun n2 => n2.type = .group) hids n hn
    simp only [Function.comp_apply]
    rw [show mapGet ((nodes.filter fun n2 => n2.type = .group).map fun m =>
        (m.id, (jsRound m.position.x, jsRound m.position.y,
          jsOr m.data.label ("Group".toList),
          (m.data.bubbles.getD []).filterMap bubbleColKey))) n.id =
      some (jsRound n.position.x, jsRound n.position.y,
        jsOr n.data.label ("Group".toList),
        (n.data.bubbles.getD []).filterMap bubbleColKey) from hm]
  have hun : (getAllBubblesFromFlowNodes nodes).filter (fun b =>
      match bubbleColKey b with
      | some c => decide
          (¬ ((parsePosicaoV2 (encodedV2 nodes edges)).groups.flatMap fun pg =>
            pg.columns.filter fun col =>
              (mapGet ((getAllBubblesFromFlowNodes nodes).filterMap fun b2 =>
                (bubbleColKey b2).map fun c2 => (c2, b2)) col).isSome).contains c)
      | none => false) = [] := by
    rw [List.filter_eq_nil_iff]
    intro b hb
    have hmem : upperStr (b.data.supabaseColumn.getD []) ∈
        ((parsePosicaoV2 (encodedV2 nodes edges)).groups.flatMap fun pg =>
          pg.columns.filter fun col =>
            (mapGet ((getAllBubblesFromFlowNodes nodes).filterMap fun b2 =>
              (bubbleColKey b2).map fun c2 => (c2, b2)) col).isSome) := by
      rw [hpg]
      have hb2 : b ∈ (nodes.filter fun n => n.type = .group).flatMap
          fun n => n.data.bubbles.getD [] := by
        rw [← allBubbles_groups]
        exact hb
      obtain ⟨n, hn, hbn⟩ := List.mem_flatMap.mp hb2
      apply List.mem_flatMap.mpr
      refine ⟨⟨n.id, jsRound n.position.x, jsRound n.position.y,
        jsOr n.data.label ("Group".toList),
        (n.data.bubbles.getD []).filterMap bubbleColKey⟩,
        List.mem_map.mpr ⟨n, hn, rfl⟩, ?_⟩
      apply List.mem_filter.mpr
      refine ⟨List.mem_filterMap.mpr ⟨b, hbn, hkey b hb⟩, ?_⟩
      simp only [hlook b hb, Option.isSome_some]
    have hcont : (((parsePosicaoV2 (encodedV2 nodes edges)).groups.flatMap
        fun pg => pg.columns.filter fun col =>
          (mapGet ((getAllBubblesFromFlowNodes nodes).filterMap fun b2 =>
            (bubbleColKey b2).map fun c2 => (c2, b2)) col).isSome).contains
        (upperStr (b.data.supabaseColumn.getD []))) = true :=
      List.elem_iff.mpr hmem
    simp only [hkey b hb, decide_eq_true_eq]
    exact not_not_intro hcont
  refine ⟨encodedV2 nodes edges, encodePosicaoV2_some nodes edges hne, ?_, ?_⟩
  · show ((edges.filter fun e =>
        decide (e.source ∈ startNodeId ::
          (nodes.filter fun n => n.type = .group).map (·.id)) &&
        decide (e.target ∈ startNodeId ::
          (nodes.filter fun n => n.type = .group).map (·.id))).map
      fun e => (e.source, e.target)) = edges.map fun e => (e.source, e.target)
    congr 1
    rw [List.filter_eq_self]
    intro e he
    simp only [Bool.and_eq_true, decide_eq_true_eq]
    exact hedge e he
  · rw [distribute_eq_result (getAllBubblesFromFlowNodes nodes)
      (parsePosicaoV2 (encodedV2 nodes edges)) hun, hpg, List.map_map]
    apply List.map_congr_left
    intro n hn
    show (⟨n.id, jsRound n.position.x, jsRound n.position.y,
      jsOr n.data.label ("Group".toList),
      ((n.data.bubbles.getD []).filterMap bubbleColKey).filterMap
        fun col => mapGet ((getAllBubblesFromFlowNodes nodes).filterMap fun b2 =>
          (bubbleColKey b2).map fun c2 => (c2, b2)) col⟩ : DistGroup) =
      (⟨n.id, jsRound n.position.x, jsRound n.position.y, n.data.label,
        n.data.bubbles.getD []⟩ : DistGroup)
    have hmemB : ∀ b ∈ n.data.bubbles.getD [],
        b ∈ getAllBubblesFromFlowNodes nodes := by
      intro b hb
      rw [allBubbles_groups]
      exact List.mem_flatMap.mpr ⟨n, hn, hb⟩
    have h1 : (n.data.bubbles.getD []).filterMap bubbleColKey =
        (n.data.bubbles.getD []).map fun b =>
          upperStr (b.data.supabaseColumn.getD []) :=
      filterMap_all_some fun b hb => hkey b (hmemB b hb)
    rw [h1, List.filterMap_map]
    have h2 : (n.data.bubbles.getD []).filterMap
        ((fun col => mapGet ((getAllBubblesFromFlowNodes nodes).filterMap
          fun b2 => (bubbleColKey b2).map fun c2 => (c2, b2)) col) ∘ fun b =>
            upperStr (b.data.supabaseColumn.getD [])) =
        (n.data.bubbles.getD []).map fun b => b :=
      filterMap_all_some fun b hb => hlook b (hmemB b hb)
    rw [h2, List.map_id']
    have h3 : jsOr n.data.label ("Group".toList) = n.data.label := by
      unfold jsOr
      rw [if_neg (hlab n hn)]
    rw [h3]

theorem c2_amended_roundtrip_witness :
    ∃ p, encodePosicaoV2 c2DemoNodes c2DemoEdges = some p ∧
      (parsePosicaoV2 p).edges =
        c2DemoEdges.map (fun e => (e.source, e.target)) ∧
      distributeBubblesByPosicaoV2 (getAllBubblesFromFlowNodes c2DemoNodes)
          (parsePosicaoV2 p) =
        (c2DemoNodes.filter fun n => n.type = .group).map (fun n =>
          (⟨n.id, jsRound n.position.x, jsRound n.position.y, n.data.label,
            n.data.bubbles.getD []⟩ : DistGroup)) :=
  c2_amended_roundtrip c2DemoNodes c2DemoEdges (by decide) (by decide)
    (by decide) (by decide) (by decide) (by decide)

theorem natDigits_two : natDigits 2 = ['2'] := by
  unfold natDigits
  rw [dif_pos (by norm_num)]
  rfl

theorem buildColumn_M1 : buildColumn ColumnKind.M 1 = ['M', '1'] := by
  rw [show buildColumn ColumnKind.M 1 = 'M' :: natDigits 1 from rfl, natDigits_one]

theorem buildColumn_M2 : buildColumn ColumnKind.M 2 = ['M', '2'] := by
  rw [show buildColumn ColumnKind.M 2 = 'M' :: natDigits 2 from rfl, natDigits_two]

/-- C6, counterexample: a flow that is a fixed point of full
normalization but whose annotation bubble stores a stale parseable column
`M3`.  After the `M1` step is deleted, the localized shift also rewrites
the annotation's column (to `M2`), while the full resequence ignores
annotation bubbles, so the two pipelines produce different slot
assignments and different final flows. -/
theorem c6_claim_counterexample :
    applyNormalizationToNodes c6Nodes [] = c6Nodes ∧
    deleteBubbleFromNodes c6Nodes ['G'] ['1'] = c6NodesDel ∧
    mapGet (reorganizeColumnsAfterDeletion c6NodesDel ['M', '1']) ['3'] =
      some ['M', '2'] ∧
    mapGet (normalizeColumnsWithGroupOrder c6NodesDel
      ((calculateGroupOrder c6NodesDel []).map (·.groupId))) ['3'] = none ∧
    deleteBubbleShift c6NodesDel ['M', '1'] ≠
      applyNormalizationToNodes c6NodesDel [] := by
  have hcur1 : currentNormalizedCol c6b1 = some (buildColumn ColumnKind.M 1) := by
    rw [currentNormalizedCol_eq]
    rw [show (c6b1.data.supabaseColumn.bind parseColumn) =
      some (ColumnKind.M, 1) from by decide]
    rfl
  have hcur2 : currentNormalizedCol c6b2 = some (buildColumn ColumnKind.M 2) := by
    rw [currentNormalizedCol_eq]
    rw [show (c6b2.data.supabaseColumn.bind parseColumn) =
      some (ColumnKind.M, 2) from by decide]
    rfl
  have hne2 : ¬ currentNormalizedCol c6b2 = some (buildColumn ColumnKind.M (0 + 1)) := by
    rw [hcur2]
    intro hcontra
    have h2 := (buildColumn_inj (Option.some.inj hcontra)).2
    norm_num at h2
  have hordD : (calculateGroupOrder c6NodesDel []).map (·.groupId) = [['G']] := rfl
  have hnD : normalizeColumnsWithGroupOrder c6NodesDel [['G']] =
      [(['2'], buildColumn ColumnKind.M (0 + 1))] := by
    show normLoop [c6b2] 0 0 = _
    rw [normLoop_cons_M (by decide), if_neg hne2]
    rfl
  have hre : reorganizeColumnsAfterDeletion c6NodesDel ['M', '1'] =
      [(['2'], buildColumn ColumnKind.M 1), (['3'], buildColumn ColumnKind.M 2)] := rfl
  refine ⟨?_, ?_, ?_, ?_, ?_⟩
  · rw [applyNormalizationToNodes_def]
    rw [show (calculateGroupOrder c6Nodes []).map (·.groupId) = [['G']] from rfl]
    have hnn : normalizeColumnsWithGroupOrder c6Nodes [['G']] = [] := by
      show normLoop [c6b1, c6b2] 0 0 = []
      rw [normLoop_cons_M (by decide), if_pos (by rw [hcur1]), List.nil_append,
        normLoop_cons_M (by decide), if_pos (by rw [hcur2]), List.nil_append]
      rfl
    rw [hnn]
    rfl
  · rfl
  · rw [hre]
    rw [show mapGet [(['2'], buildColumn ColumnKind.M 1),
        (['3'], buildColumn ColumnKind.M 2)] ['3'] =
      some (buildColumn ColumnKind.M 2) from rfl]
    rw [buildColumn_M2]
  · rw [hordD, hnD]
    rfl
  · have hshift : deleteBubbleShift c6NodesDel ['M', '1'] =
        applyColumnUpdates c6NodesDel [(['2'], ['M', '1']), (['3'], ['M', '2'])] := by
      show (if (reorganizeColumnsAfterDeletion c6NodesDel ['M', '1']).isEmpty
          then c6NodesDel
          else applyColumnUpdates c6NodesDel
            (reorganizeColumnsAfterDeletion c6NodesDel ['M', '1'])) = _
      rw [hre, buildColumn_M1, buildColumn_M2]
      rfl
    have hnormApp : applyNormalizationToNodes c6NodesDel [] =
        applyColumnUpdates c6NodesDel [(['2'], ['M', '1'])] := by
      rw [applyNormalizationToNodes_def, hordD, hnD]
      rw [show buildColumn ColumnKind.M (0 + 1) = ['M', '1'] from buildColumn_M1]
      rfl
    rw [hshift, hnormApp]
    intro hcontra
    have hcols := congrArg (fun ns =>
      (getAllBubblesFromFlowNodes ns).map fun b => b.data.supabaseColumn) hcontra
    exact absurd hcols (by decide)

theorem walkTargets_length : ∀ (ks : List ColumnKind) (m t : Nat),
    (walkTargets ks m t).length = ks.length := by
  intro ks
  induction ks with
  | nil => intro m t; rfl
  | cons k ks ih =>
    intro m t
    cases k <;> simp [walkTargets, ih]

theorem walkTargets_append : ∀ (a b : List ColumnKind) (m t : Nat),
    walkTargets (a ++ b) m t =
      walkTargets a m t ++
        walkTargets b (m + a.count ColumnKind.M) (t + a.count ColumnKind.T) := by
  intro a
  induction a with
  | nil => intro b m t; simp [walkTargets]
  | cons k ks ih =>
    intro b m t
    cases k with
    | M =>
      have hM : m + (ColumnKind.M :: ks).count ColumnKind.M =
          m + 1 + ks.count ColumnKind.M := by
        rw [List.count_cons_self]; omega
      have hT : t + (ColumnKind.M :: ks).count ColumnKind.T =
          t + ks.count ColumnKind.T := by
        rw [List.count_cons_of_ne (by decide)]
      rw [show ((ColumnKind.M :: ks) ++ b) = ColumnKind.M :: (ks ++ b) from rfl,
        show walkTargets (ColumnKind.M :: (ks ++ b)) m t =
          (ColumnKind.M, m + 1) :: walkTargets (ks ++ b) (m + 1) t from rfl,
        ih b (m + 1) t,
        show walkTargets (ColumnKind.M :: ks) m t =
          (ColumnKind.M, m + 1) :: walkTargets ks (m + 1) t from rfl,
        List.cons_append, hM, hT]
    | T =>
      have hM : m + (ColumnKind.T :: ks).count ColumnKind.M =
          m + ks.count ColumnKind.M := by
        rw [List.count_cons_of_ne (by decide)]
      have hT : t + (ColumnKind.T :: ks).count ColumnKind.T =
          t + 1 + ks.count ColumnKind.T := by
        rw [List.count_cons_self]; omega
      rw [show ((ColumnKind.T :: ks) ++ b) = ColumnKind.T :: (ks ++ b) from rfl,
        show walkTargets (ColumnKind.T :: (ks ++ b)) m t =
          (ColumnKind.T, t + 1) :: walkTargets (ks ++ b) m (t + 1) from rfl,
        ih b m (t + 1),
        show walkTargets (ColumnKind.T :: ks) m t =
          (ColumnKind.T, t + 1) :: walkTargets ks m (t + 1) from rfl,
        List.cons_append, hM, hT]

theorem parseColumn_range {c : Str} {k : ColumnKind} {i : Nat}
    (h : parseColumn c = some (k, i)) : 1 ≤ i ∧ i ≤ 50 := by
  unfold parseColumn at h
  split at h
  · exact Option.noConfusion h
  · rename_i x0 c0 ds0 heq0
    split at h
    · split at h
      · split at h
        · have h2 : (if 1 ≤ digitsToNat ds0 ∧ digitsToNat ds0 ≤ COLUMN_LIMIT then
              some (ColumnKind.M, digitsToNat ds0) else none) = some (k, i) := h
          split at h2
          · rename_i hrange
            injection h2 with h3
            cases h3
            exact hrange
          · exact Option.noConfusion h2
        · have h2 : (if 1 ≤ digitsToNat ds0 ∧ digitsToNat ds0 ≤ COLUMN_LIMIT then
              some (ColumnKind.T, digitsToNat ds0) else none) = some (k, i) := h
          split at h2
          · rename_i hrange
            injection h2 with h3
            cases h3
            exact hrange
          · exact Option.noConfusion h2
      · exact Option.noConfusion h
    · exact Option.noConfusion h

theorem current_some_parse {b : BubbleData} {k : ColumnKind} {i : Nat}
    (h : currentNormalizedCol b = some (buildColumn k i)) :
    ∃ cur, b.data.supabaseColumn = some cur ∧ parseColumn cur = some (k, i) := by
  rw [currentNormalizedCol_eq] at h
  cases hc : b.data.supabaseColumn with
  | none =>
    rw [hc] at h
    exact Option.noConfusion h
  | some cur =>
    rw [hc] at h
    have h2 : (parseColumn cur).map (fun p => buildColumn p.1 p.2) =
        some (buildColumn k i) := h
    cases hp : parseColumn cur with
    | none =>
      rw [hp] at h2
      exact Option.noConfusion h2
    | some q =>
      rw [hp] at h2
      obtain ⟨hk, hi⟩ := buildColumn_inj (Option.some.inj h2)
      refine ⟨cur, rfl, ?_⟩
      rw [hp]
      cases q with
      | mk q1 q2 => rw [show q1 = k from hk, show q2 = i from hi]

theorem mapGet_perm {α : Type} {l l' : List (Str × α)} (hperm : l.Perm l')
    (hnd : (l.map (·.1)).Nodup) (k : Str) : mapGet l k = mapGet l' k := by
  unfold mapGet
  have hf : (l.filter fun p => p.1 = k).Perm (l'.filter fun p => p.1 = k) :=
    hperm.filter _
  have hlen : (l.filter fun p => p.1 = k).length ≤ 1 := by
    by_contra hgt
    push_neg at hgt
    obtain ⟨a, b, rest, hsplit⟩ :
        ∃ a b rest, l.filter (fun p => p.1 = k) = a :: b :: rest := by
      cases hfe : l.filter fun p => p.1 = k with
      | nil => rw [hfe] at hgt; simp at hgt
      | cons a tail =>
        cases tail with
        | nil => rw [hfe] at hgt; simp at hgt
        | cons b rest => exact ⟨a, b, rest, rfl⟩
    have hsub : (a :: b :: rest).Sublist l := hsplit ▸ List.filter_sublist l
    have hnd2 : ((a :: b :: rest).map (·.1)).Nodup := (hsub.map _).nodup hnd
    have ha : a.1 = k := by
      have ham : a ∈ l.filter fun p => p.1 = k := by rw [hsplit]; simp
      exact of_decide_eq_true (List.mem_filter.mp ham).2
    have hb : b.1 = k := by
      have hbm : b ∈ l.filter fun p => p.1 = k := by rw [hsplit]; simp
      exact of_decide_eq_true (List.mem_filter.mp hbm).2
    simp only [List.map_cons, List.nodup_cons, List.mem_cons] at hnd2
    exact hnd2.1 (Or.inl (ha.trans hb.symm))
  have heq : l.filter (fun p => p.1 = k) = l'.filter fun p => p.1 = k := by
    cases hfe : l.filter fun p => p.1 = k with
    | nil =>
      rw [hfe] at hf
      exact hf.nil_eq
    | cons a tail =>
      cases tail with
      | nil =>
        rw [hfe] at hf
        cases hfe' : l'.filter fun p => p.1 = k with
        | nil => rw [hfe'] at hf; exact absurd hf.length_eq (by simp)
        | cons a' tail' =>
          rw [hfe'] at hf
          cases tail' with
          | nil =>
            have := hf.mem_iff.mp (List.mem_singleton_self a)
            simp only [List.mem_singleton] at this
            rw [this]
          | cons x xs => exact absurd hf.length_eq (by simp)
      | cons b rest =>
        rw [hfe] at hlen
        simp at hlen
  rw [heq]

theorem shiftEntry_cases (dk : ColumnKind) (di : Nat) (b : BubbleData) :
    shiftEntry dk di b = [] ∨ ∃ v, shiftEntry dk di b = [(b.id, v)] := by
  unfold shiftEntry
  split
  · exact Or.inl rfl
  · split
    · exact Or.inl rfl
    · split
      · exact Or.inr ⟨_, rfl⟩
      · exact Or.inl rfl

theorem shiftEntry_some {b : BubbleData} {cur : Str} {k : ColumnKind} {i : Nat}
    (hcur : b.data.supabaseColumn = some cur) (hpar : parseColumn cur = some (k, i))
    (dk : ColumnKind) (di : Nat) :
    shiftEntry dk di b =
      if k = dk ∧ i > di then [(b.id, buildColumn dk (i - 1))] else [] := by
  unfold shiftEntry
  rw [hcur]
  show (match parseColumn cur with
    | none => ([] : List (Str × Str))
    | some (k, i) =>
      if k = dk ∧ i > di then [(b.id, buildColumn dk (i - 1))] else []) = _
  rw [hpar]

theorem shiftEntry_keys_sublist (dk : ColumnKind) (di : Nat) :
    ∀ (l : List BubbleData),
      ((l.flatMap (shiftEntry dk di)).map (·.1)).Sublist (l.map (·.id)) := by
  intro l
  induction l with
  | nil => simp
  | cons b bs ih =>
    rw [List.flatMap_cons, List.map_append, List.map_cons]
    rcases shiftEntry_cases dk di b with h | ⟨v, h⟩
    · rw [h]
      exact ih.cons _
    · rw [h]
      exact ih.cons₂ _

theorem flatMap_eq_flatMap_filter {α β : Type} {f : α → List β} {p : α → Bool} :
    ∀ (l : List α), (∀ b ∈ l, p b = false → f b = []) →
      l.flatMap f = (l.filter p).flatMap f := by
  intro l
  induction l with
  | nil => intro _; rfl
  | cons a as ih =>
    intro h
    rw [List.flatMap_cons, List.filter_cons]
    by_cases hp : p a = true
    · rw [if_pos hp, List.flatMap_cons,
        ih fun b hb hpb => h b (List.mem_cons_of_mem a hb) hpb]
    · rw [if_neg hp, h a (List.mem_cons_self a as) (by revert hp; cases p a <;> simp),
        List.nil_append, ih fun b hb hpb => h b (List.mem_cons_of_mem a hb) hpb]

theorem reorganize_eq {delCol : Str} {dk : ColumnKind} {di : Nat}
    (ns : List FlowNode) (h : parseColumn delCol = some (dk, di)) :
    reorganizeColumnsAfterDeletion ns delCol =
      (getAllBubblesFromFlowNodes ns).flatMap (shiftEntry dk di) := by
  unfold reorganizeColumnsAfterDeletion
  rw [h]
  rfl

theorem normLoop_matched_prefix :
    ∀ (l rest : List BubbleData) (m t : Nat),
    l.map currentNormalizedCol =
      (walkTargets (l.map bubbleKind) m t).map (fun p => some (buildColumn p.1 p.2)) →
    normLoop (l ++ rest) m t =
      normLoop rest (m + (l.map bubbleKind).count ColumnKind.M)
        (t + (l.map bubbleKind).count ColumnKind.T) := by
  intro l
  induction l with
  | nil => intro rest m t _; simp
  | cons b bs ih =>
    intro rest m t hmatch
    rcases hkind : getColumnKindForBubble b.type with _ | _
    case M =>
      rw [List.map_cons, List.map_cons, show bubbleKind b = ColumnKind.M from hkind,
        show walkTargets (ColumnKind.M :: bs.map bubbleKind) m t =
          (ColumnKind.M, m + 1) :: walkTargets (bs.map bubbleKind) (m + 1) t from rfl,
        List.map_cons] at hmatch
      simp only [List.cons.injEq] at hmatch
      obtain ⟨hb, hrest⟩ := hmatch
      rw [List.cons_append, normLoop_cons_M hkind, if_pos hb, List.nil_append,
        ih rest (m + 1) t hrest]
      have hcM : ((b :: bs).map bubbleKind).count ColumnKind.M =
          (bs.map bubbleKind).count ColumnKind.M + 1 := by
        rw [List.map_cons, show bubbleKind b = ColumnKind.M from hkind,
          List.count_cons_self]
      have hcT : ((b :: bs).map bubbleKind).count ColumnKind.T =
          (bs.map bubbleKind).count ColumnKind.T := by
        rw [List.map_cons, show bubbleKind b = ColumnKind.M from hkind,
          List.count_cons_of_ne (by decide)]
      rw [hcM, hcT, show m + ((bs.map bubbleKind).count ColumnKind.M + 1) =
        m + 1 + (bs.map bubbleKind).count ColumnKind.M from by omega]
    case T =>
      rw [List.map_cons, List.map_cons, show bubbleKind b = ColumnKind.T from hkind,
        show walkTargets (ColumnKind.T :: bs.map bubbleKind) m t =
          (ColumnKind.T, t + 1) :: walkTargets (bs.map bubbleKind) m (t + 1) from rfl,
        List.map_cons] at hmatch
      simp only [List.cons.injEq] at hmatch
      obtain ⟨hb, hrest⟩ := hmatch
      rw [List.cons_append, normLoop_cons_T hkind, if_pos hb, List.nil_append,
        ih rest m (t + 1) hrest]
      have hcM : ((b :: bs).map bubbleKind).count ColumnKind.M =
          (bs.map bubbleKind).count ColumnKind.M := by
        rw [List.map_cons, show bubbleKind b = ColumnKind.T from hkind,
          List.count_cons_of_ne (by decide)]
      have hcT : ((b :: bs).map bubbleKind).count ColumnKind.T =
          (bs.map bubbleKind).count ColumnKind.T + 1 := by
        rw [List.map_cons, show bubbleKind b = ColumnKind.T from hkind,
          List.count_cons_self]
      rw [hcM, hcT, show t + ((bs.map bubbleKind).count ColumnKind.T + 1) =
        t + 1 + (bs.map bubbleKind).count ColumnKind.T from by omega]

theorem shiftEntry_prefix_nil (dk : ColumnKind) (di : Nat) :
    ∀ (l : List BubbleData) (m t : Nat),
    l.map currentNormalizedCol =
      (walkTargets (l.map bubbleKind) m t).map (fun p => some (buildColumn p.1 p.2)) →
    (if dk = ColumnKind.M then m + (l.map bubbleKind).count ColumnKind.M
     else t + (l.map bubbleKind).count ColumnKind.T) ≤ di →
    l.flatMap (shiftEntry dk di) = [] := by
  intro l
  induction l with
  | nil => intro m t _ _; rfl
  | cons b bs ih =>
    intro m t hmatch hbound
    rcases hkind : getColumnKindForBubble b.type with _ | _
    case M =>
      rw [List.map_cons, List.map_cons, show bubbleKind b = ColumnKind.M from hkind,
        show walkTargets (ColumnKind.M :: bs.map bubbleKind) m t =
          (ColumnKind.M, m + 1) :: walkTargets (bs.map bubbleKind) (m + 1) t from rfl,
        List.map_cons] at hmatch
      simp only [List.cons.injEq] at hmatch
      obtain ⟨hb, hrest⟩ := hmatch
      obtain ⟨cur, hcur, hpar⟩ := current_some_parse hb
      rw [List.map_cons, show bubbleKind b = ColumnKind.M from hkind] at hbound
      rw [List.flatMap_cons]
      cases dk with
      | M =>
        rw [if_pos rfl, List.count_cons_self] at hbound
        have hse : shiftEntry ColumnKind.M di b = [] := by
          rw [shiftEntry_some hcur hpar ColumnKind.M di,
            if_neg (fun hand => absurd hand.2 (by omega))]
        rw [hse, List.nil_append]
        apply ih (m + 1) t hrest
        rw [if_pos rfl]
        omega
      | T =>
        rw [if_neg (by decide), List.count_cons_of_ne (by decide)] at hbound
        have hse : shiftEntry ColumnKind.T di b = [] := by
          rw [shiftEntry_some hcur hpar ColumnKind.T di,
            if_neg (fun hand => ColumnKind.noConfusion hand.1)]
        rw [hse, List.nil_append]
        apply ih (m + 1) t hrest
        rw [if_neg (by decide)]
        exact hbound
    case T =>
      rw [List.map_cons, List.map_cons, show bubbleKind b = ColumnKind.T from hkind,
        show walkTargets (ColumnKind.T :: bs.map bubbleKind) m t =
          (ColumnKind.T, t + 1) :: walkTargets (bs.map bubbleKind) m (t + 1) from rfl,
        List.map_cons] at hmatch
      simp only [List.cons.injEq] at hmatch
      obtain ⟨hb, hrest⟩ := hmatch
      obtain ⟨cur, hcur, hpar⟩ := current_some_parse hb
      rw [List.map_cons, show bubbleKind b = ColumnKind.T from hkind] at hbound
      rw [List.flatMap_cons]
      cases dk with
      | M =>
        rw [if_pos rfl, List.count_cons_of_ne (by decide)] at hbound
        have hse : shiftEntry ColumnKind.M di b = [] := by
          rw [shiftEntry_some hcur hpar ColumnKind.M di,
            if_neg (fun hand => ColumnKind.noConfusion hand.1)]
        rw [hse, List.nil_append]
        apply ih m (t + 1) hrest
        rw [if_pos rfl]
        exact hbound
      | T =>
        rw [if_neg (by decide), List.count_cons_self] at hbound
        have hse : shiftEntry ColumnKind.T di b = [] := by
          rw [shiftEntry_some hcur hpar ColumnKind.T di,
            if_neg (fun hand => absurd hand.2 (by omega))]
        rw [hse, List.nil_append]
        apply ih m (t + 1) hrest
        rw [if_neg (by decide)]
        omega

theorem normLoop_shift_suffix (dk : ColumnKind) (di : Nat) :
    ∀ (l : List BubbleData) (m t : Nat),
    l.map currentNormalizedCol =
      (walkTargets (l.map bubbleKind)
          (if dk = ColumnKind.M then m + 1 else m)
          (if dk = ColumnKind.T then t + 1 else t)).map
        (fun p => some (buildColumn p.1 p.2)) →
    (if dk = ColumnKind.M then di ≤ m + 1 else di ≤ t + 1) →
    normLoop l m t = l.flatMap (shiftEntry dk di) := by
  intro l
  induction l with
  | nil => intro m t _ _; rfl
  | cons b bs ih =>
    intro m t hmatch hd
    cases dk with
    | M =>
      rw [if_pos rfl, if_neg (by decide)] at hmatch
      rw [if_pos rfl] at hd
      rcases hkind : getColumnKindForBubble b.type with _ | _
      case M =>
        rw [List.map_cons, List.map_cons, show bubbleKind b = ColumnKind.M from hkind,
          show walkTargets (ColumnKind.M :: bs.map bubbleKind) (m + 1) t =
            (ColumnKind.M, m + 2) :: walkTargets (bs.map bubbleKind) (m + 2) t from rfl,
          List.map_cons] at hmatch
        simp only [List.cons.injEq] at hmatch
        obtain ⟨hb, hrest⟩ := hmatch
        obtain ⟨cur, hcur, hpar⟩ := current_some_parse hb
        rw [normLoop_cons_M hkind,
          if_neg (by
            rw [hb]
            intro hcontra
            have h2 := (buildColumn_inj (Option.some.inj hcontra)).2
            omega),
          List.flatMap_cons]
        have hse : shiftEntry ColumnKind.M di b =
            [(b.id, buildColumn ColumnKind.M (m + 1))] := by
          rw [shiftEntry_some hcur hpar ColumnKind.M di, if_pos ⟨rfl, by omega⟩]
          rfl
        rw [hse]
        rw [ih (m + 1) t (by rw [if_pos rfl, if_neg (by decide)]; exact hrest)
          (by rw [if_pos rfl]; omega)]
      case T =>
        rw [List.map_cons, List.map_cons, show bubbleKind b = ColumnKind.T from hkind,
          show walkTargets (ColumnKind.T :: bs.map bubbleKind) (m + 1) t =
            (ColumnKind.T, t + 1) :: walkTargets (bs.map bubbleKind) (m + 1) (t + 1)
            from rfl,
          List.map_cons] at hmatch
        simp only [List.cons.injEq] at hmatch
        obtain ⟨hb, hrest⟩ := hmatch
        obtain ⟨cur, hcur, hpar⟩ := current_some_parse hb
        rw [normLoop_cons_T hkind, if_pos hb, List.nil_append, List.flatMap_cons]
        have hse : shiftEntry ColumnKind.M di b = [] := by
          rw [shiftEntry_some hcur hpar ColumnKind.M di,
            if_neg (fun hand => ColumnKind.noConfusion hand.1)]
        rw [hse, List.nil_append]
        exact ih m (t + 1) (by rw [if_pos rfl, if_neg (by decide)]; exact hrest)
          (by rw [if_pos rfl]; exact hd)
    | T =>
      rw [if_neg (by decide), if_pos rfl] at hmatch
      rw [if_neg (by decide)] at hd
      rcases hkind : getColumnKindForBubble b.type with _ | _
      case M =>
        rw [List.map_cons, List.map_cons, show bubbleKind b = ColumnKind.M from hkind,
          show walkTargets (ColumnKind.M :: bs.map bubbleKind) m (t + 1) =
            (ColumnKind.M, m + 1) :: walkTargets (bs.map bubbleKind) (m + 1) (t + 1)
            from rfl,
          List.map_cons] at hmatch
        simp only [List.cons.injEq] at hmatch
        obtain ⟨hb, hrest⟩ := hmatch
        obtain ⟨cur, hcur, hpar⟩ := current_some_parse hb
        rw [normLoop_cons_M hkind, if_pos hb, List.nil_append, List.flatMap_cons]
        have hse : shiftEntry ColumnKind.T di b = [] := by
          rw [shiftEntry_some hcur hpar ColumnKind.T di,
            if_neg (fun hand => ColumnKind.noConfusion hand.1)]
        rw [hse, List.nil_append]
        exact ih (m + 1) t (by rw [if_neg (by decide), if_pos rfl]; exact hrest)
          (by rw [if_neg (by decide)]; exact hd)
      case T =>
        rw [List.map_cons, List.map_cons, show bubbleKind b = ColumnKind.T from hkind,
          show walkTargets (ColumnKind.T :: bs.map bubbleKind) m (t + 1) =
            (ColumnKind.T, t + 2) :: walkTargets (bs.map bubbleKind) m (t + 2) from rfl,
          List.map_cons] at hmatch
        simp only [List.cons.injEq] at hmatch
        obtain ⟨hb, hrest⟩ := hmatch
        obtain ⟨cur, hcur, hpar⟩ := current_some_parse hb
        rw [normLoop_cons_T hkind,
          if_neg (by
            rw [hb]
            intro hcontra
            have h2 := (buildColumn_inj (Option.some.inj hcontra)).2
            omega),
          List.flatMap_cons]
        have hse : shiftEntry ColumnKind.T di b =
            [(b.id, buildColumn ColumnKind.T (t + 1))] := by
          rw [shiftEntry_some hcur hpar ColumnKind.T di, if_pos ⟨rfl, by omega⟩]
          rfl
        rw [hse]
        rw [ih m (t + 1) (by rw [if_neg (by decide), if_pos rfl]; exact hrest)
          (by rw [if_neg (by decide)]; omega)]

theorem getAllBubbles_cons (n : FlowNode) (ns : List FlowNode) :
    getAllBubblesFromFlowNodes (n :: ns) =
      (if n.type = .group then n.data.bubbles.getD [] else []) ++
        getAllBubblesFromFlowNodes ns := by
  simp [getAllBubblesFromFlowNodes]

theorem bubble_unique_chunk {nodes : List FlowNode}
    (hbub : ((getAllBubblesFromFlowNodes nodes).map (·.id)).Nodup)
    {n₀ : FlowNode} (hn₀ : n₀ ∈ nodes) (hg₀ : n₀.type = .group)
    {bdel : BubbleData} (hb₀ : bdel ∈ n₀.data.bubbles.getD []) :
    ∀ n ∈ nodes, n.type = .group → n.id ≠ n₀.id →
      ∀ b ∈ n.data.bubbles.getD [], b.id ≠ bdel.id := by
  intro n hn hg hne b hb heq
  have hmemb : b ∈ getAllBubblesFromFlowNodes nodes :=
    List.mem_flatMap.mpr ⟨n, hn, by rw [if_pos hg]; exact hb⟩
  have hmemd : bdel ∈ getAllBubblesFromFlowNodes nodes :=
    List.mem_flatMap.mpr ⟨n₀, hn₀, by rw [if_pos hg₀]; exact hb₀⟩
  have hbeq : b = bdel := List.inj_on_of_nodup_map hbub hmemb hmemd heq
  rw [← hbeq] at hb₀
  obtain ⟨u, v, rfl⟩ := List.append_of_mem hn
  have hn₀2 : n₀ ∈ u ∨ n₀ ∈ v := by
    rcases List.mem_append.mp hn₀ with h | h
    · exact Or.inl h
    · rcases List.mem_cons.mp h with h2 | h2
      · exact absurd (congrArg (·.id) h2) fun hh => hne hh.symm
      · exact Or.inr h2
  have hsplitAll : getAllBubblesFromFlowNodes (u ++ n :: v) =
      getAllBubblesFromFlowNodes u ++
        (n.data.bubbles.getD [] ++ getAllBubblesFromFlowNodes v) := by
    rw [show getAllBubblesFromFlowNodes (u ++ n :: v) =
      getAllBubblesFromFlowNodes u ++ getAllBubblesFromFlowNodes (n :: v) from by
        unfold getAllBubblesFromFlowNodes
        rw [List.flatMap_append]]
    rw [getAllBubbles_cons, if_pos hg]
  rw [hsplitAll, List.map_append, List.map_append] at hbub
  have hdisj := List.disjoint_of_nodup_append hbub
  rcases hn₀2 with hu | hv
  · have hidU : b.id ∈ (getAllBubblesFromFlowNodes u).map (·.id) :=
      List.mem_map.mpr
        ⟨b, List.mem_flatMap.mpr ⟨n₀, hu, by rw [if_pos hg₀]; exact hb₀⟩, rfl⟩
    have hidC : b.id ∈ (n.data.bubbles.getD []).map (·.id) :=
      List.mem_map.mpr ⟨b, hb, rfl⟩
    exact hdisj hidU (List.mem_append.mpr (Or.inl hidC))
  · have hnd2 := List.Nodup.of_append_right hbub
    have hdisj2 := List.disjoint_of_nodup_append hnd2
    have hidC : b.id ∈ (n.data.bubbles.getD []).map (·.id) :=
      List.mem_map.mpr ⟨b, hb, rfl⟩
    have hidV : b.id ∈ (getAllBubblesFromFlowNodes v).map (·.id) :=
      List.mem_map.mpr
        ⟨b, List.mem_flatMap.mpr ⟨n₀, hv, by rw [if_pos hg₀]; exact hb₀⟩, rfl⟩
    exact hdisj2 hidC hidV

theorem deleteBubbleFromNodes_eq_map (nodes : List FlowNode) (gid bid : Str) :
    deleteBubbleFromNodes nodes gid bid = nodes.map (delNodeF gid bid) := rfl

theorem delNodeF_id (gid bid : Str) (n : FlowNode) :
    (delNodeF gid bid n).id = n.id := by
  unfold delNodeF
  split <;> rfl

theorem delNodeF_type (gid bid : Str) (n : FlowNode) :
    (delNodeF gid bid n).type = n.type := by
  unfold delNodeF
  split <;> rfl

theorem delNodeF_pos {gid bid : Str} {n : FlowNode}
    (hc : n.id = gid ∧ n.type = .group) :
    delNodeF gid bid n =
      { n with data := { n.data with
          bubbles := some ((n.data.bubbles.getD []).filter fun b => b.id ≠ bid) } } := by
  unfold delNodeF
  rw [if_pos hc]

theorem delNodeF_neg {gid bid : Str} {n : FlowNode}
    (hc : ¬ (n.id = gid ∧ n.type = .group)) : delNodeF gid bid n = n := by
  unfold delNodeF
  rw [if_neg hc]

theorem getAllBubbles_delete (gid bid : Str) :
    ∀ (nodes : List FlowNode),
    (∀ n ∈ nodes, n.type = .group → n.id ≠ gid →
      ∀ b ∈ n.data.bubbles.getD [], b.id ≠ bid) →
    getAllBubblesFromFlowNodes (deleteBubbleFromNodes nodes gid bid) =
      (getAllBubblesFromFlowNodes nodes).filter fun b => b.id ≠ bid := by
  intro nodes
  induction nodes with
  | nil => intro _; rfl
  | cons n ns ih =>
    intro hother
    have hih := ih fun n2 h2 => hother n2 (List.mem_cons_of_mem n h2)
    have hdmap : deleteBubbleFromNodes (n :: ns) gid bid =
        delNodeF gid bid n :: deleteBubbleFromNodes ns gid bid := rfl
    by_cases hc : n.id = gid ∧ n.type = .group
    · rw [hdmap, delNodeF_pos hc, getAllBubbles_cons, getAllBubbles_cons,
        List.filter_append, hih,
        if_pos (show ({ n with data := { n.data with
          bubbles := some ((n.data.bubbles.getD []).filter fun b => b.id ≠ bid) } }
            : FlowNode).type = FlowNodeType.group from hc.2),
        if_pos hc.2]
      rfl
    · rw [hdmap, delNodeF_neg hc, getAllBubbles_cons, getAllBubbles_cons,
        List.filter_append, hih]
      by_cases hg : n.type = .group
      · rw [if_pos hg]
        have hne : n.id ≠ gid := fun h => hc ⟨h, hg⟩
        rw [show ((n.data.bubbles.getD []).filter fun b => b.id ≠ bid) =
          n.data.bubbles.getD [] from List.filter_eq_self.mpr fun b hb =>
            decide_eq_true (hother n (List.mem_cons_self n ns) hg hne b hb)]
      · rw [if_neg hg]
        rfl

theorem collect_delete (nodes : List FlowNode) (order : List Str) (gid bid : Str)
    (hother : ∀ n ∈ nodes, n.type = .group → n.id ≠ gid →
      ∀ b ∈ n.data.bubbles.getD [], b.id ≠ bid) :
    collectBubblesInOrder (deleteBubbleFromNodes nodes gid bid) order =
      (collectBubblesInOrder nodes order).filter fun b => b.id ≠ bid := by
  rw [deleteBubbleFromNodes_eq_map]
  refine @collectBubblesInOrder_map (delNodeF gid bid)
    (fun l => l.filter fun b => b.id ≠ bid)
    (delNodeF_id gid bid) (delNodeF_type gid bid)
    (fun a b => List.filter_append a b)
    rfl nodes order ?_
  intro n hn hg
  by_cases hc : n.id = gid ∧ n.type = .group
  · rw [delNodeF_pos hc]
    show ((n.data.bubbles.getD []).filter fun b => b.id ≠ bid).filter
        (fun b => ¬ isVisualOnlyBubble b.type) =
      ((n.data.bubbles.getD []).filter fun b => ¬ isVisualOnlyBubble b.type).filter
        fun b => b.id ≠ bid
    rw [List.filter_filter, List.filter_filter]
    apply List.filter_congr
    intro b _
    rw [Bool.and_comm]
  · rw [delNodeF_neg hc]
    refine (List.filter_eq_self.mpr fun b hb => ?_).symm
    have hne : n.id ≠ gid := fun h => hc ⟨h, hg⟩
    exact decide_eq_true (hother n hn hg hne b (List.mem_of_mem_filter hb))

theorem applyColumnUpdates_congr (ns : List FlowNode) {u u' : List (Str × Str)}
    (h : ∀ s, mapGet u s = mapGet u' s) :
    applyColumnUpdates ns u = applyColumnUpdates ns u' := by
  unfold applyColumnUpdates
  apply List.map_congr_left
  intro n _
  by_cases hg : n.type = .group
  · rw [if_pos hg, if_pos hg]
    have hupd : ∀ b, updFun u b = updFun u' b := by
      intro b
      unfold updFun
      rw [h b.id]
    rw [List.map_congr_left fun b _ => hupd b]
  · rw [if_neg hg, if_neg hg]

theorem shiftEntry_none {b : BubbleData} (h : b.data.supabaseColumn = none)
    (dk : ColumnKind) (di : Nat) : shiftEntry dk di b = [] := by
  unfold shiftEntry
  rw [h]

/-- The common core of the delete-shift equivalence: on a flow whose
collection splits as a canonically-walked prefix `l₁` followed by a
suffix `l₂` walked with the deleted slot's kind counter advanced by one,
the localized shift and the full resequence compute the same slot map and
the same final flow. -/
theorem c6_core (ns2 : List FlowNode) (order : List Str) (delCol : Str)
    (dk : ColumnKind) (di : Nat) (l₁ l₂ : List BubbleData)
    (hnodes2 : (ns2.map (·.id)).Nodup)
    (hbub2 : ((getAllBubblesFromFlowNodes ns2).map (·.id)).Nodup)
    (hnotecol2 : ∀ b ∈ getAllBubblesFromFlowNodes ns2,
      isVisualOnlyBubble b.type = true → b.data.supabaseColumn = none)
    (hcoll2 : collectBubblesInOrder ns2 order = l₁ ++ l₂)
    (hpar : parseColumn delCol = some (dk, di))
    (hm₁ : l₁.map currentNormalizedCol =
      (walkTargets (l₁.map bubbleKind) 0 0).map fun p => some (buildColumn p.1 p.2))
    (hd : if dk = ColumnKind.M then di = (l₁.map bubbleKind).count ColumnKind.M + 1
          else di = (l₁.map bubbleKind).count ColumnKind.T + 1)
    (hm₂ : l₂.map currentNormalizedCol =
      (walkTargets (l₂.map bubbleKind)
        (if dk = ColumnKind.M then (l₁.map bubbleKind).count ColumnKind.M + 1
         else (l₁.map bubbleKind).count ColumnKind.M)
        (if dk = ColumnKind.T then (l₁.map bubbleKind).count ColumnKind.T + 1
         else (l₁.map bubbleKind).count ColumnKind.T)).map
        fun p => some (buildColumn p.1 p.2)) :
    (∀ s, mapGet (reorganizeColumnsAfterDeletion ns2 delCol) s =
        mapGet (normalizeColumnsWithGroupOrder ns2 order) s) ∧
    deleteBubbleShift ns2 delCol =
      (if (normalizeColumnsWithGroupOrder ns2 order).isEmpty then ns2
       else applyColumnUpdates ns2 (normalizeColumnsWithGroupOrder ns2 order)) := by
  have hdle : if dk = ColumnKind.M
      then di ≤ (l₁.map bubbleKind).count ColumnKind.M + 1
      else di ≤ (l₁.map bubbleKind).count ColumnKind.T + 1 := by
    cases dk
    · rw [if_pos rfl] at hd ⊢
      omega
    · rw [if_neg (by decide)] at hd ⊢
      omega
  have hnormlist : normalizeColumnsWithGroupOrder ns2 order =
      l₂.flatMap (shiftEntry dk di) := by
    show normLoop (collectBubblesInOrder ns2 order) 0 0 = _
    rw [hcoll2, normLoop_matched_prefix l₁ l₂ 0 0 hm₁, Nat.zero_add, Nat.zero_add]
    exact normLoop_shift_suffix dk di l₂ _ _ hm₂ hdle
  have hreorg : reorganizeColumnsAfterDeletion ns2 delCol =
      (getAllBubblesFromFlowNodes ns2).flatMap (shiftEntry dk di) :=
    reorganize_eq ns2 hpar
  have hprefix : l₁.flatMap (shiftEntry dk di) = [] := by
    apply shiftEntry_prefix_nil dk di l₁ 0 0 hm₁
    cases dk
    · rw [if_pos rfl] at hd ⊢
      omega
    · rw [if_neg (by decide)] at hd ⊢
      omega
  have hchain : ((getAllBubblesFromFlowNodes ns2).flatMap (shiftEntry dk di)).Perm
      (l₂.flatMap (shiftEntry dk di)) := by
    rw [@flatMap_eq_flatMap_filter BubbleData (Str × Str) (shiftEntry dk di)
      (fun b => ¬ isVisualOnlyBubble b.type) (getAllBubblesFromFlowNodes ns2)
      (fun b hb hno => shiftEntry_none (hnotecol2 b hb (by
        have hno2 : decide (¬ (isVisualOnlyBubble b.type = true)) = false := hno
        cases h2 : isVisualOnlyBubble b.type
        · rw [h2] at hno2
          simp at hno2
        · rfl)) dk di)]
    have h2 : (((getAllBubblesFromFlowNodes ns2).filter
          fun b => ¬ isVisualOnlyBubble b.type).flatMap (shiftEntry dk di)).Perm
        ((collectBubblesInOrder ns2 order).flatMap (shiftEntry dk di)) :=
      List.Perm.flatMap_right _ (collect_perm ns2 order hnodes2).symm
    have h3 : (collectBubblesInOrder ns2 order).flatMap (shiftEntry dk di) =
        l₂.flatMap (shiftEntry dk di) := by
      rw [hcoll2, List.flatMap_append, hprefix, List.nil_append]
    rw [h3] at h2
    exact h2
  have hkeys : (((getAllBubblesFromFlowNodes ns2).flatMap
      (shiftEntry dk di)).map (·.1)).Nodup :=
    List.Nodup.sublist ((shiftEntry_keys_sublist dk di _)) hbub2
  have hpoint : ∀ s, mapGet (reorganizeColumnsAfterDeletion ns2 delCol) s =
      mapGet (normalizeColumnsWithGroupOrder ns2 order) s := by
    intro s
    rw [hreorg, hnormlist]
    exact mapGet_perm hchain hkeys s
  refine ⟨hpoint, ?_⟩
  show (if (reorganizeColumnsAfterDeletion ns2 delCol).isEmpty then ns2
    else applyColumnUpdates ns2 (reorganizeColumnsAfterDeletion ns2 delCol)) = _
  have hlen2 : (reorganizeColumnsAfterDeletion ns2 delCol).length =
      (normalizeColumnsWithGroupOrder ns2 order).length := by
    rw [hreorg, hnormlist]
    exact hchain.length_eq
  have hemp : (reorganizeColumnsAfterDeletion ns2 delCol).isEmpty =
      (normalizeColumnsWithGroupOrder ns2 order).isEmpty := by
    cases hn2 : normalizeColumnsWithGroupOrder ns2 order with
    | nil =>
      have hre : reorganizeColumnsAfterDeletion ns2 delCol = [] := by
        apply List.length_eq_zero.mp
        rw [hlen2, hn2]
        rfl
      rw [hre]
    | cons a l =>
      cases hr2 : reorganizeColumnsAfterDeletion ns2 delCol with
      | nil =>
        rw [hr2, hn2] at hlen2
        exact absurd hlen2 (by simp)
      | cons b l2 => rfl
  rw [hemp]
  by_cases hcase : (normalizeColumnsWithGroupOrder ns2 order).isEmpty = true
  · rw [if_pos hcase, if_pos hcase]
  · rw [if_neg hcase, if_neg hcase]
    exact applyColumnUpdates_congr ns2 hpoint

/-- C6, amended: for a flow with distinct node and step ids whose
non-annotation steps are in canonical normalized slots and whose
annotation bubbles store no column, deleting one non-annotation step and
running the localized shift (`reorganizeColumnsAfterDeletion` keyed by
the deleted step's stored column) computes exactly the slot map of a full
resequence (`normalizeColumnsWithGroupOrder`) of the post-deletion flow,
and applying either produces the same final flow.  The equivalence genuinely
fails when an annotation bubble stores a stale parseable column. -/
theorem c6_amended_shift_equiv (nodes : List FlowNode) (order : List Str)
    (gid : Str) (bdel : BubbleData) (delCol : Str)
    (hnodes : (nodes.map (·.id)).Nodup)
    (hbub : ((getAllBubblesFromFlowNodes nodes).map (·.id)).Nodup)
    (hnorm : (collectBubblesInOrder nodes order).map currentNormalizedCol =
      (walkTargets ((collectBubblesInOrder nodes order).map bubbleKind) 0 0).map
        (fun p => some (buildColumn p.1 p.2)))
    (hgrp : ∃ n ∈ nodes, n.id = gid ∧ n.type = .group ∧ bdel ∈ n.data.bubbles.getD [])
    (hnote : isVisualOnlyBubble bdel.type = false)
    (hdc : bdel.data.supabaseColumn = some delCol)
    (hnotecol : ∀ b ∈ getAllBubblesFromFlowNodes nodes,
      isVisualOnlyBubble b.type = true → b.data.supabaseColumn = none) :
    (∀ s, mapGet (reorganizeColumnsAfterDeletion
        (deleteBubbleFromNodes nodes gid bdel.id) delCol) s =
      mapGet (normalizeColumnsWithGroupOrder
        (deleteBubbleFromNodes nodes gid bdel.id) order) s) ∧
    deleteBubbleShift (deleteBubbleFromNodes nodes gid bdel.id) delCol =
      (if (normalizeColumnsWithGroupOrder
            (deleteBubbleFromNodes nodes gid bdel.id) order).isEmpty
       then deleteBubbleFromNodes nodes gid bdel.id
       else applyColumnUpdates (deleteBubbleFromNodes nodes gid bdel.id)
         (normalizeColumnsWithGroupOrder
           (deleteBubbleFromNodes nodes gid bdel.id) order)) := by
  obtain ⟨n₀, hn₀, hid₀, hg₀, hb₀⟩ := hgrp
  have hother : ∀ n ∈ nodes, n.type = .group → n.id ≠ gid →
      ∀ b ∈ n.data.bubbles.getD [], b.id ≠ bdel.id := by
    intro n hn hg hne
    exact bubble_unique_chunk hbub hn₀ hg₀ hb₀ n hn hg fun h => hne (h.trans hid₀)
  have hdmem : bdel ∈ collectBubblesInOrder nodes order := by
    have h1 : bdel ∈ (getAllBubblesFromFlowNodes nodes).filter
        fun b => ¬ isVisualOnlyBubble b.type := by
      apply List.mem_filter.mpr
      refine ⟨List.mem_flatMap.mpr ⟨n₀, hn₀, by rw [if_pos hg₀]; exact hb₀⟩, ?_⟩
      rw [hnote]
      decide
    exact ((collect_perm nodes order hnodes).mem_iff).mpr h1
  obtain ⟨l₁, l₂, hsplit⟩ := List.append_of_mem hdmem
  have hcolnd : ((collectBubblesInOrder nodes order).map (·.id)).Nodup :=
    collect_ids_nodup nodes order hnodes hbub
  have hnd2 : ((l₁ ++ bdel :: l₂).map (·.id)).Nodup := by
    rw [← hsplit]
    exact hcolnd
  rw [List.map_append, List.map_cons] at hnd2
  have hcoll2 : collectBubblesInOrder (deleteBubbleFromNodes nodes gid bdel.id) order =
      l₁ ++ l₂ := by
    rw [collect_delete nodes order gid bdel.id hother, hsplit, List.filter_append,
      List.filter_cons, if_neg (by simp)]
    have hl₁ : l₁.filter (fun b => b.id ≠ bdel.id) = l₁ := by
      apply List.filter_eq_self.mpr
      intro b hb
      apply decide_eq_true
      intro hEq
      exact List.disjoint_of_nodup_append hnd2
        (List.mem_map.mpr ⟨b, hb, hEq⟩) (List.mem_cons_self _ _)
    have hl₂ : l₂.filter (fun b => b.id ≠ bdel.id) = l₂ := by
      apply List.filter_eq_self.mpr
      intro b hb
      apply decide_eq_true
      intro hEq
      have hr := List.Nodup.of_append_right hnd2
      rw [List.nodup_cons] at hr
      exact hr.1 (List.mem_map.mpr ⟨b, hb, hEq⟩)
    rw [hl₁, hl₂]
  have hnodes2 : ((deleteBubbleFromNodes nodes gid bdel.id).map (·.id)).Nodup := by
    have hids : ((nodes.map (delNodeF gid bdel.id)).map (·.id)) = nodes.map (·.id) := by
      rw [List.map_map]
      exact List.map_congr_left fun n _ => delNodeF_id gid bdel.id n
    rw [deleteBubbleFromNodes_eq_map, hids]
    exact hnodes
  have hall2 : getAllBubblesFromFlowNodes (deleteBubbleFromNodes nodes gid bdel.id) =
      (getAllBubblesFromFlowNodes nodes).filter fun b => b.id ≠ bdel.id :=
    getAllBubbles_delete gid bdel.id nodes hother
  have hbub2 : ((getAllBubblesFromFlowNodes
      (deleteBubbleFromNodes nodes gid bdel.id)).map (·.id)).Nodup := by
    rw [hall2]
    exact List.Nodup.sublist (List.Sublist.map _ (List.filter_sublist _)) hbub
  have hnotecol2 : ∀ b ∈ getAllBubblesFromFlowNodes
      (deleteBubbleFromNodes nodes gid bdel.id),
      isVisualOnlyBubble b.type = true → b.data.supabaseColumn = none := by
    intro b hb
    rw [hall2] at hb
    exact hnotecol b (List.mem_of_mem_filter hb)
  rw [hsplit, List.map_append, List.map_append, walkTargets_append,
    Nat.zero_add, Nat.zero_add, List.map_append] at hnorm
  have hlen : (l₁.map currentNormalizedCol).length =
      ((walkTargets (l₁.map bubbleKind) 0 0).map
        fun p => some (buildColumn p.1 p.2)).length := by
    rw [List.length_map, List.length_map, walkTargets_length, List.length_map]
  obtain ⟨hm₁, hmid⟩ := List.append_inj hnorm hlen
  rcases hκ : getColumnKindForBubble bdel.type with _ | _
  case M =>
    rw [List.map_cons, List.map_cons, show bubbleKind bdel = ColumnKind.M from hκ,
      show walkTargets (ColumnKind.M :: l₂.map bubbleKind)
          ((l₁.map bubbleKind).count ColumnKind.M)
          ((l₁.map bubbleKind).count ColumnKind.T) =
        (ColumnKind.M, (l₁.map bubbleKind).count ColumnKind.M + 1) ::
          walkTargets (l₂.map bubbleKind)
            ((l₁.map bubbleKind).count ColumnKind.M + 1)
            ((l₁.map bubbleKind).count ColumnKind.T) from rfl,
      List.map_cons] at hmid
    simp only [List.cons.injEq] at hmid
    obtain ⟨hbdel, hm₂⟩ := hmid
    obtain ⟨cur, hcur, hpar⟩ := current_some_parse hbdel
    rw [hdc] at hcur
    rw [show cur = delCol from (Option.some.inj hcur).symm] at hpar
    exact c6_core (deleteBubbleFromNodes nodes gid bdel.id) order delCol
      ColumnKind.M ((l₁.map bubbleKind).count ColumnKind.M + 1) l₁ l₂
      hnodes2 hbub2 hnotecol2 hcoll2 hpar hm₁
      (by rw [if_pos rfl])
      (by rw [if_pos rfl, if_neg (by decide)]; exact hm₂)
  case T =>
    rw [List.map_cons, List.map_cons, show bubbleKind bdel = ColumnKind.T from hκ,
      show walkTargets (ColumnKind.T :: l₂.map bubbleKind)
          ((l₁.map bubbleKind).count ColumnKind.M)
          ((l₁.map bubbleKind).count ColumnKind.T) =
        (ColumnKind.T, (l₁.map bubbleKind).count ColumnKind.T + 1) ::
          walkTargets (l₂.map bubbleKind)
            ((l₁.map bubbleKind).count ColumnKind.M)
            ((l₁.map bubbleKind).count ColumnKind.T + 1) from rfl,
      List.map_cons] at hmid
    simp only [List.cons.injEq] at hmid
    obtain ⟨hbdel, hm₂⟩ := hmid
    obtain ⟨cur, hcur, hpar⟩ := current_some_parse hbdel
    rw [hdc] at hcur
    rw [show cur = delCol from (Option.some.inj hcur).symm] at hpar
    exact c6_core (deleteBubbleFromNodes nodes gid bdel.id) order delCol
      ColumnKind.T ((l₁.map bubbleKind).count ColumnKind.T + 1) l₁ l₂
      hnodes2 hbub2 hnotecol2 hcoll2 hpar hm₁
      (by rw [if_neg (by decide)])
      (by rw [if_neg (by decide), if_pos rfl]; exact hm₂)

theorem c6_amended_shift_equiv_witness :
    (∀ s, mapGet (reorganizeColumnsAfterDeletion
        (deleteBubbleFromNodes c6wNodes ['G'] c6b1.id) ['M', '1']) s =
      mapGet (normalizeColumnsWithGroupOrder
        (deleteBubbleFromNodes c6wNodes ['G'] c6b1.id) [['G']]) s) ∧
    deleteBubbleShift (deleteBubbleFromNodes c6wNodes ['G'] c6b1.id) ['M', '1'] =
      (if (normalizeColumnsWithGroupOrder
            (deleteBubbleFromNodes c6wNodes ['G'] c6b1.id) [['G']]).isEmpty
       then deleteBubbleFromNodes c6wNodes ['G'] c6b1.id
       else applyColumnUpdates (deleteBubbleFromNodes c6wNodes ['G'] c6b1.id)
         (normalizeColumnsWithGroupOrder
           (deleteBubbleFromNodes c6wNodes ['G'] c6b1.id) [['G']])) :=
  c6_amended_shift_equiv c6wNodes [['G']] ['G'] c6b1 ['M', '1']
    (by decide) (by decide)
    (by
      show [currentNormalizedCol c6b1, currentNormalizedCol c6b2] =
        [some (buildColumn ColumnKind.M 1), some (buildColumn ColumnKind.M 2)]
      rw [show currentNormalizedCol c6b1 = some (buildColumn ColumnKind.M 1) from by
          rw [currentNormalizedCol_eq, show (c6b1.data.supabaseColumn.bind parseColumn) =
            some (ColumnKind.M, 1) from by decide]
          rfl,
        show currentNormalizedCol c6b2 = some (buildColumn ColumnKind.M 2) from by
          rw [currentNormalizedCol_eq, show (c6b2.data.supabaseColumn.bind parseColumn) =
            some (ColumnKind.M, 2) from by decide]
          rfl])
    (by decide) (by decide) (by decide) (by decide)

/-- C1, counterexample: the encoder writes a plain message as
`"MSG-" + content`, so a message whose content begins with `"UTM-"`
encodes to a `"MSG-UTM-"`-led cell and decodes as a `message-utm` step:
the kind is not preserved, refuting the claim for all payloads. -/
theorem c1_claim_counterexample :
    c1Bubble.type = NodeType.message ∧
    (parseColumnValue (buildSupabaseValueForBubble [] c1Bubble) ['M', '1']).map
      (fun b => b.type) = some NodeType.messageUtm := by
  decide

/-- C1, amended: the codec round-trips kind and payload for every kind
whose payload is well-formed for that kind: content free of the reserved
markers for plain messages, nonempty space-free UTM tags, separator-free
times, urls and captions in the time-rule grammars, flow names that are
nonempty, trim-stable and resolvable, hour and minute fields of at most
two digits, and encodings carrying no stray leading or trailing
whitespace.  Identifier fields are re-established from the decoded flow
name, and absent optional text fields come back as their empty-string
normalizations (the `delete-hook`, `note` and `start` kinds do not
round-trip: the first decodes as a `hook` delete action, the other two
encode to cells that do not decode to their kind). -/
theorem c1_amended_roundtrip (flows : List FlowInfo) (col : Str) :
    (∀ id content, ("UTM-".toList).isPrefixOf content = false →
      ("TEMPO-".toList).isPrefixOf content = false →
      trimStr ("MSG-".toList ++ content) = "MSG-".toList ++ content →
      parseColumnValue
        (buildSupabaseValueForBubble flows ⟨id, .message, { content := some content }⟩)
        col =
        some ⟨[], .message,
          { label := NODE_LABELS .message, supabaseColumn := some (upperStr col),
            content := some content }⟩) ∧
    (∀ id content utm, content ≠ [] → ' ' ∉ utm →
      trimStr (content ++ ' ' :: utm) = content ++ ' ' :: utm →
      trimStr ("MSG-UTM-".toList ++ (content ++ ' ' :: utm)) =
        "MSG-UTM-".toList ++ (content ++ ' ' :: utm) →
      parseColumnValue
        (buildSupabaseValueForBubble flows
          ⟨id, .messageUtm, { content := some content, utm := some utm }⟩) col =
        some ⟨[], .messageUtm,
          { label := NODE_LABELS .messageUtm, supabaseColumn := some (upperStr col),
            content := some content, utm := some utm }⟩) ∧
    (∀ id rules, rules ≠ [] →
      (∀ r ∈ rules, r.startTime ≠ [] ∧ '-' ∉ r.startTime ∧ ';' ∉ r.startTime ∧
        r.endTime ≠ [] ∧ '-' ∉ r.endTime ∧ ';' ∉ r.endTime ∧ ';' ∉ r.content) →
      trimStr ("MSG-TEMPO-".toList ++ joinCh ';' (rules.map fun r =>
          r.startTime ++ '-' :: r.endTime ++ '-' :: replaceSemis r.content)) =
        "MSG-TEMPO-".toList ++ joinCh ';' (rules.map fun r =>
          r.startTime ++ '-' :: r.endTime ++ '-' :: replaceSemis r.content) →
      parseColumnValue
        (buildSupabaseValueForBubble flows
          ⟨id, .messageTime, { timeMessageRules := some rules }⟩) col =
        some ⟨[], .messageTime,
          { label := NODE_LABELS .messageTime, supabaseColumn := some (upperStr col),
            timeMessageRules := some rules }⟩) ∧
    (∀ id url, ("C-".toList).isPrefixOf url = false →
      trimStr ("FT-".toList ++ url) = "FT-".toList ++ url →
      parseColumnValue
        (buildSupabaseValueForBubble flows ⟨id, .photo, { mediaUrl := some url }⟩)
        col =
        some ⟨[], .photo,
          { label := NODE_LABELS .photo, supabaseColumn := some (upperStr col),
            mediaUrl := some url }⟩) ∧
    (∀ id url cap, ' ' ∉ url →
      ("T;".toList).isPrefixOf (url ++ ' ' :: cap) = false →
      ("T-".toList).isPrefixOf (url ++ ' ' :: cap) = false →
      trimStr (url ++ ' ' :: cap) = url ++ ' ' :: cap →
      trimStr ("FT-C-".toList ++ (url ++ ' ' :: cap)) =
        "FT-C-".toList ++ (url ++ ' ' :: cap) →
      parseColumnValue
        (buildSupabaseValueForBubble flows
          ⟨id, .photoCaption, { mediaUrl := some url, caption := some cap }⟩) col =
        some ⟨[], .photoCaption,
          { label := NODE_LABELS .photoCaption, supabaseColumn := some (upperStr col),
            caption := some cap, mediaUrl := some url }⟩) ∧
    (∀ id rules,
      (∀ r ∈ rules, r.startTime ≠ [] ∧ '|' ∉ r.startTime ∧ ';' ∉ r.startTime ∧
        r.endTime ≠ [] ∧ '|' ∉ r.endTime ∧ ';' ∉ r.endTime ∧
        '|' ∉ r.mediaUrl ∧ ';' ∉ r.mediaUrl ∧
        r.caption ≠ some [] ∧ '|' ∉ r.caption.getD [] ∧ ';' ∉ r.caption.getD []) →
      trimStr ("FT-C-T;".toList ++ joinCh ';' (rules.map fun r =>
          r.startTime ++ '|' :: r.endTime ++ '|' :: r.mediaUrl ++ '|' ::
            r.caption.getD [])) =
        "FT-C-T;".toList ++ joinCh ';' (rules.map fun r =>
          r.startTime ++ '|' :: r.endTime ++ '|' :: r.mediaUrl ++ '|' ::
            r.caption.getD []) →
      parseColumnValue
        (buildSupabaseValueForBubble flows
          ⟨id, .photoCaptionTime, { timeMediaRules := some rules }⟩) col =
        some ⟨[], .photoCaptionTime,
          { label := NODE_LABELS .photoCaptionTime,
            supabaseColumn := some (upperStr col),
            timeMediaRules := some rules }⟩) ∧
    (∀ id url, ("C-".toList).isPrefixOf url = false →
      trimStr ("VD-".toList ++ url) = "VD-".toList ++ url →
      parseColumnValue
        (buildSupabaseValueForBubble flows ⟨id, .video, { mediaUrl := some url }⟩)
        col =
        some ⟨[], .video,
          { label := NODE_LABELS .video, supabaseColumn := some (upperStr col),
            mediaUrl := some url }⟩) ∧
    (∀ id url cap, ' ' ∉ url →
      ("T;".toList).isPrefixOf (url ++ ' ' :: cap) = false →
      ("T-".toList).isPrefixOf (url ++ ' ' :: cap) = false →
      trimStr (url ++ ' ' :: cap) = url ++ ' ' :: cap →
      trimStr ("VD-C-".toList ++ (url ++ ' ' :: cap)) =
        "VD-C-".toList ++ (url ++ ' ' :: cap) →
      parseColumnValue
        (buildSupabaseValueForBubble flows
          ⟨id, .videoCaption, { mediaUrl := some url, caption := some cap }⟩) col =
        some ⟨[], .videoCaption,
          { label := NODE_LABELS .videoCaption, supabaseColumn := some (upperStr col),
            caption := some cap, mediaUrl := some url }⟩) ∧
    (∀ id rules,
      (∀ r ∈ rules, r.startTime ≠ [] ∧ '|' ∉ r.startTime ∧ ';' ∉ r.startTime ∧
        r.endTime ≠ [] ∧ '|' ∉ r.endTime ∧ ';' ∉ r.endTime ∧
        '|' ∉ r.mediaUrl ∧ ';' ∉ r.mediaUrl ∧
        r.caption ≠ some [] ∧ '|' ∉ r.caption.getD [] ∧ ';' ∉ r.caption.getD []) →
      trimStr ("VD-C-T;".toList ++ joinCh ';' (rules.map fun r =>
          r.startTime ++ '|' :: r.endTime ++ '|' :: r.mediaUrl ++ '|' ::
            r.caption.getD [])) =
        "VD-C-T;".toList ++ joinCh ';' (rules.map fun r =>
          r.startTime ++ '|' :: r.endTime ++ '|' :: r.mediaUrl ++ '|' ::
            r.caption.getD []) →
      parseColumnValue
        (buildSupabaseValueForBubble flows
          ⟨id, .videoCaptionTime, { timeMediaRules := some rules }⟩) col =
        some ⟨[], .videoCaptionTime,
          { label := NODE_LABELS .videoCaptionTime,
            supabaseColumn := some (upperStr col),
            timeMediaRules := some rules }⟩) ∧
    (∀ id url, trimStr ("AU-".toList ++ url) = "AU-".toList ++ url →
      parseColumnValue
        (buildSupabaseValueForBubble flows ⟨id, .audio, { mediaUrl := some url }⟩)
        col =
        some ⟨[], .audio,
          { label := NODE_LABELS .audio, supabaseColumn := some (upperStr col),
            mediaUrl := some url }⟩) ∧
    (∀ id (mn mx : Nat),
      parseColumnValue
        (buildSupabaseValueForBubble flows
          ⟨id, .time, { timeMin := some mn, timeMax := some mx }⟩) col =
        some ⟨[], .time,
          { label := NODE_LABELS .time, supabaseColumn := some (upperStr col),
            timeMin := some mn, timeMax := some mx }⟩) ∧
    (∀ id,
      parseColumnValue
        (buildSupabaseValueForBubble flows ⟨id, .leadRespond, {}⟩) col =
        some ⟨[], .leadRespond,
          { label := NODE_LABELS .leadRespond,
            supabaseColumn := some (upperStr col) }⟩) ∧
    (∀ id,
      parseColumnValue
        (buildSupabaseValueForBubble flows ⟨id, .linkPix, {}⟩) col =
        some ⟨[], .linkPix,
          { label := NODE_LABELS .linkPix,
            supabaseColumn := some (upperStr col) }⟩) ∧
    (∀ id c (hrs mins : Nat), c ≠ [] → trimStr c = c → hrs ≤ 99 → mins ≤ 99 →
      trimStr ("GANCHO-".toList ++ (c ++ '-' ::
          (padStart2 (natDigits hrs) ++ ':' :: padStart2 (natDigits mins)))) =
        "GANCHO-".toList ++ (c ++ '-' ::
          (padStart2 (natDigits hrs) ++ ':' :: padStart2 (natDigits mins))) →
      parseColumnValue
        (buildSupabaseValueForBubble flows
          ⟨id, .hook,
            { content := some c, hookAction := some FlowAction.add,
              hookHours := some hrs, hookMinutes := some mins }⟩) col =
        some ⟨[], .hook,
          { label := NODE_LABELS .hook, supabaseColumn := some (upperStr col),
            content := some c, hookFlowId := some c,
            hookHours := some hrs, hookMinutes := some mins,
            hookAction := some FlowAction.add }⟩) ∧
    (∀ id c, c ≠ [] → trimStr c = c →
      trimStr ("APAGAR-GANCHO-".toList ++ c) = "APAGAR-GANCHO-".toList ++ c →
      parseColumnValue
        (buildSupabaseValueForBubble flows
          ⟨id, .hook, { content := some c, hookAction := some .delete }⟩) col =
        some ⟨[], .hook,
          { label := NODE_LABELS .hook, supabaseColumn := some (upperStr col),
            content := some c, hookAction := some .delete }⟩) ∧
    (∀ id fid (fl : FlowInfo) (a : FlowAction),
      flows.find? (fun f => f.id = fid) = some fl →
      trimStr fl.name = fl.name →
      trimStr ("ADD-ENTREGA-FLUXO-".toList ++ fl.name) =
        "ADD-ENTREGA-FLUXO-".toList ++ fl.name →
      trimStr ("DEL-ENTREGA-FLUXO-".toList ++ fl.name) =
        "DEL-ENTREGA-FLUXO-".toList ++ fl.name →
      parseColumnValue
        (buildSupabaseValueForBubble flows
          ⟨id, .deliverable,
            { deliverableAction := some a, deliverableFlowId := some fid }⟩) col =
        some ⟨[], .deliverable,
          { label := NODE_LABELS .deliverable, supabaseColumn := some (upperStr col),
            content := some fl.name, deliverableAction := some a }⟩) ∧
    (∀ id c (hrs mins : Nat), c ≠ [] → trimStr c = c → hrs ≤ 99 → mins ≤ 99 →
      trimStr ("ADD-REL-".toList ++ (c ++ '-' ::
          (padStart2 (natDigits hrs) ++ ':' :: padStart2 (natDigits mins)))) =
        "ADD-REL-".toList ++ (c ++ '-' ::
          (padStart2 (natDigits hrs) ++ ':' :: padStart2 (natDigits mins))) →
      parseColumnValue
        (buildSupabaseValueForBubble flows
          ⟨id, .reminder,
            { content := some c, reminderAction := some FlowAction.add,
              reminderHours := some hrs, reminderMinutes := some mins }⟩) col =
        some ⟨[], .reminder,
          { label := NODE_LABELS .reminder, supabaseColumn := some (upperStr col),
            content := some c, reminderFlowId := some c,
            reminderHours := some hrs, reminderMinutes := some mins,
            reminderAction := some FlowAction.add }⟩) ∧
    (∀ id c, c ≠ [] → trimStr c = c → findTimeMatch c = none →
      trimStr ("DEL-REL-".toList ++ c) = "DEL-REL-".toList ++ c →
      parseColumnValue
        (buildSupabaseValueForBubble flows
          ⟨id, .reminder,
            { content := some c, reminderAction := some FlowAction.delete }⟩) col =
        some ⟨[], .reminder,
          { label := NODE_LABELS .reminder, supabaseColumn := some (upperStr col),
            content := some c, reminderFlowId := some c,
            reminderAction := some FlowAction.delete }⟩) := by
  refine ⟨?_, ?_, ?_, ?_, ?_, ?_, ?_, ?_, ?_, ?_, ?_, ?_, ?_, ?_, ?_, ?_, ?_, ?_⟩
  · exact fun id content h1 h2 htr => c1rt_message flows col id content h1 h2 htr
  · exact fun id content utm h1 h2 h3 h4 =>
      c1rt_messageUtm flows col id content utm h1 h2 h3 h4
  · exact fun id rules h1 h2 h3 => c1rt_messageTime flows col id rules h1 h2 h3
  · exact fun id url h1 h2 => c1rt_photo flows col id url h1 h2
  · exact fun id url cap h1 h2 h3 h4 h5 =>
      c1rt_photoCaption flows col id url cap h1 h2 h3 h4 h5
  · exact fun id rules h1 h2 => c1rt_photoCaptionTime flows col id rules h1 h2
  · exact fun id url h1 h2 => c1rt_video flows col id url h1 h2
  · exact fun id url cap h1 h2 h3 h4 h5 =>
      c1rt_videoCaption flows col id url cap h1 h2 h3 h4 h5
  · exact fun id rules h1 h2 => c1rt_videoCaptionTime flows col id rules h1 h2
  · exact fun id url h1 => c1rt_audio flows col id url h1
  · exact fun id mn mx => c1rt_time flows col id mn mx
  · exact fun id => c1rt_leadRespond flows col id
  · exact fun id => c1rt_linkPix flows col id
  · exact fun id c hrs mins h1 h2 h3 h4 h5 =>
      c1rt_hook_add flows col id c hrs mins h1 h2 h3 h4 h5
  · exact fun id c h1 h2 h3 => c1rt_hook_delete flows col id c h1 h2 h3
  · exact fun id fid fl a h1 h2 h3 h4 =>
      c1rt_deliverable flows col id fid fl a h1 h2 h3 h4
  · exact fun id c hrs mins h1 h2 h3 h4 h5 =>
      c1rt_reminder_add flows col id c hrs mins h1 h2 h3 h4 h5
  · exact fun id c h1 h2 h3 h4 =>
      c1rt_reminder_delete flows col id c h1 h2 h3 h4

/-- Witness for the amended C1 statement: the boundary-window media time
rule `00:00`–`23:59` round-trips through the photo-caption-time codec. -/
theorem c1_amended_roundtrip_witness :
    parseColumnValue
      (buildSupabaseValueForBubble []
        ⟨['b'], .photoCaptionTime, { timeMediaRules := some [c1DemoRule] }⟩)
      ['M', '1'] =
      some ⟨[], .photoCaptionTime,
        { label := NODE_LABELS .photoCaptionTime,
          supabaseColumn := some (upperStr ['M', '1']),
          timeMediaRules := some [c1DemoRule] }⟩ :=
  (c1_amended_roundtrip [] ['M', '1']).2.2.2.2.2.1 ['b'] [c1DemoRule]
    (by decide) (by decide)

/-- C3, counterexample: on the edge-free flow with groups A at (0,0),
B at (100,0) and C at (0,50), `calculateGroupOrder` does NOT return
[group at (0,0), group at (100,0), group at (0,50)] as the claim states. -/
theorem c3_claim_counterexample :
    (calculateGroupOrder orderNodes3 []).map (·.groupId) ≠ [['A'], ['B'], ['C']] := by
  decide

/-- C3, amended: on the edge-free flow with groups A at (0,0), B at
(100,0) and C at (0,50), `calculateGroupOrder` returns the groups sorted
by x primary and y secondary, i.e. [group at (0,0), group at (0,50),
group at (100,0)]. -/
theorem c3_amended_order :
    (calculateGroupOrder orderNodes3 []).map (·.groupId) = [['A'], ['C'], ['B']] := by
  decide

/-- C7: given edges start→A, start→B and A→C, with group A at x=0 and
group B at x=100, `calculateGroupOrder` yields the order [A, B, C]
(breadth-first level by level, position-broken ties), not [A, C, B]. -/
theorem c7_topological_precedence :
    (calculateGroupOrder topoNodes topoEdges).map (·.groupId) = [['A'], ['B'], ['C']] ∧
    (calculateGroupOrder topoNodes topoEdges).map (·.groupId) ≠ [['A'], ['C'], ['B']] := by
  decide

end TypeBuilder
